import Mathlib

/-!
# Lease document lifecycle (routes/leases.js, services/leaseSigning.js)

A shallow embedding of the lease routes of the repository and of the simulated
signing coordinator.  The relational database is a list of rows per table, the
upload directory is a map from paths (relative to `LEASES_DIR`) to file
contents, and the coordinator's `envelopes` map is a map from envelope ids to
envelopes.  Every handler is a function from the state before the request to
the state after it, the HTTP response and the list of effects it performed, in
program order.

The PDF and PNG libraries (`pdf-lib`, `pdfkit`), the base64 decoder and the
`config/signaturePositions` module are not part of the sources: they are taken
as the fields of a `Libs` record, and every theorem holds for every `Libs`.
Numbers are integers; the rounding of binary64 arithmetic is defined apart
(`toDouble`) and compared with the integers where a claim is about it.

The file also embeds the payment simulator (`services/paymentSimulation.js`,
its two module-level counters being the state), the update handler of
`routes/properties.js` and the maintenance report
(`services/maintenanceReport.js`, a JavaScript string being the list of its
UTF-16 code units).
-/

namespace Leases

/-! ## Data model -/

/-- File contents: a sequence of byte values. -/
abbrev Bytes := List Nat

/-- An entry of `config/signaturePositions`: a rectangle in top-left-origin page
coordinates. -/
structure Anchor where
  x : Int
  y : Int
  width : Int
  height : Int
deriving DecidableEq, Repr

/-- The module `config/signaturePositions`: one anchor per role. -/
structure SignaturePositions where
  landlord : Anchor
  tenant : Anchor
deriving DecidableEq, Repr

/-- One `page.drawImage(img, { x, y, width, height })` call: the embedded image
(identified by the bytes it was decoded from) and the rectangle, in the
bottom-left-origin coordinates of the page. -/
structure Overlay where
  image : Bytes
  x : Int
  y : Int
  width : Int
  height : Int
deriving DecidableEq, Repr

/-- A `pdf-lib` document object: the bytes it was loaded from, the heights of
its pages, and the images drawn on its first page since it was loaded. -/
structure PdfDoc where
  source : Bytes
  pageHeights : List Int
  drawn : List Overlay
deriving DecidableEq, Repr

/-- One call of the `pdfkit` document API made by `LeaseGenerator.generate`. -/
inductive DocOp where
  | fontSize (n : Nat)
  | font (name : String)
  | textCentered (s : String)
  | text (s : String)
  | textAt (s : String) (x y : Int)
  | moveDown
  | moveTo (x y : Int)
  | lineTo (x y : Int)
  | stroke
  | docEnd
deriving DecidableEq, Repr

/-- The libraries and configuration the routes are linked against. -/
structure Libs where
  /-- The exported object of `config/signaturePositions`. -/
  signaturePositions : SignaturePositions
  /-- Decoding of a base64 string, as done by `fs.writeFileSync(_, _, 'base64')`. -/
  base64Decode : String → Bytes
  /-- `PDFDocument.load`: the page heights of the parsed document, or `none`
  when the bytes are rejected. -/
  pdfParse : Bytes → Option (List Int)
  /-- `pdfDoc.save()`. -/
  pdfSave : PdfDoc → Bytes
  /-- Whether `pdfDoc.embedPng` accepts the bytes. -/
  isPng : Bytes → Bool
  /-- The bytes `pdfkit` streams out for a sequence of document calls. -/
  pdfkitRender : List DocOp → Bytes

/-- The values the code stores in `leases.status`. -/
inductive LeaseStatus where
  | generated
  | sent
  | pending
  | signed
deriving DecidableEq, Repr

/-- A row of the `leases` table. -/
structure LeaseRow where
  id : Nat
  property_id : Nat
  tenant_id : Nat
  status : LeaseStatus
  document_path : Option String
  signed_document_path : Option String
  landlord_signature_path : Option String
  tenant_signature_path : Option String
  provider_envelope_id : Option String
  start_date : Option String
  end_date : Option String
  due_date : Option String
deriving DecidableEq, Repr

/-- The status of an envelope of the signing coordinator. -/
inductive EnvelopeStatus where
  | sent
  | signed
deriving DecidableEq, Repr

/-- A value of the `envelopes` map of `services/leaseSigning.js`. -/
structure Envelope where
  status : EnvelopeStatus
  filePath : String
deriving DecidableEq, Repr

/-- A row of the `payments` table, restricted to the columns the lease routes
read. -/
structure PaymentRow where
  tenant_id : Nat
  property_id : Nat
  status : String
deriving DecidableEq, Repr

/-- A row of the `properties` table, restricted to the columns read. -/
structure PropertyRow where
  id : Nat
  address : String
deriving DecidableEq, Repr

/-- A row of the `tenants` table, restricted to the columns read. -/
structure TenantRow where
  id : Nat
  name : String
  email : String
deriving DecidableEq, Repr

/-- A row of the `users` table: the id and `CONCAT(first_name, " ", last_name)`. -/
structure UserRow where
  id : Nat
  name : String
deriving DecidableEq, Repr

/-- The upload directory `uploads/leases`, keyed by the path relative to it. -/
abbrev Files := String → Option Bytes

/-- The `envelopes` map. -/
abbrev Envelopes := String → Option Envelope

/-- The state the lease routes act on. -/
structure World where
  leases : List LeaseRow
  files : Files
  envelopes : Envelopes
  properties : List PropertyRow
  tenants : List TenantRow
  payments : List PaymentRow
  users : List UserRow

/-- An effect performed by a handler. -/
inductive Effect where
  | dbQuery (table : String)
  | insertLease (id : Nat)
  | updateLease (id : Nat)
  | readFile (path : String)
  | writeFile (path : String) (data : Bytes)
  | copyFile (src dst : String)
  | drawImage (role : String) (o : Overlay)
  | checkStatus (envelopeId : Option String)
  | sendDocument (envelopeId : String)
deriving DecidableEq, Repr

/-- The response a handler sends. -/
inductive Response where
  | error (code : Nat) (message : String)
  | generated (id : Nat) (status : LeaseStatus) (url : String)
  | sent (id : Nat) (status : LeaseStatus)
  | signed (status : LeaseStatus) (url : String)
  | status (status : LeaseStatus) (signedUrl : Option String)
  | download (path : String) (data : Bytes)
deriving DecidableEq, Repr

/-- What a request leaves behind. -/
structure Outcome where
  world : World
  response : Response
  trace : List Effect

/-! ## Helpers -/

/-- JavaScript truthiness of a nullable string column. -/
def truthy (s : Option String) : Bool :=
  match s with
  | none => false
  | some v => v != ""

/-- The store after `fs.writeFileSync(path, data)`. -/
def writeFile (files : Files) (path : String) (data : Bytes) : Files :=
  fun p => if p = path then some data else files p

/-- The rows of `SELECT ... FROM leases WHERE id = ?`, first row. -/
def selectLease (rows : List LeaseRow) (id : Nat) : Option LeaseRow :=
  rows.find? (fun r => r.id == id)

/-- The table after `UPDATE leases SET ... WHERE id = ?`. -/
def updateLease (rows : List LeaseRow) (id : Nat) (f : LeaseRow → LeaseRow) : List LeaseRow :=
  rows.map (fun r => if r.id = id then f r else r)

/-- The name `${lease.id}-signed.pdf` of the signed artifact of a lease.  The
sign handler prints `req.params.id` in the place of the id: that is this name
at a URL that names the lease by the decimal text of its id, and
`signedFilenameAt` for any text. -/
def signedFilename (id : Nat) : String :=
  toString id ++ "-signed.pdf"

/-- The name of the signature image of a lease and role at a URL that names
the lease by the decimal text of its id; `signatureFilenameAt` for any text. -/
def signatureFilename (id : Nat) (role : String) : String :=
  toString id ++ "-" ++ role ++ ".png"

/-- The value of `path.join('signatures', filename)` for that name. -/
def signaturePath (id : Nat) (role : String) : String :=
  "signatures/" ++ signatureFilename id role

/-- The data-URL prefix removed by the sign handler. -/
def dataUrlHead : String := "data:image/png;base64,"

/-- The value of `signature.replace(/^data:image\/png;base64,/, '')`. -/
def stripDataUrl (signature : String) : String :=
  if dataUrlHead.data.isPrefixOf signature.data then
    ⟨signature.data.drop dataUrlHead.data.length⟩
  else signature

/-! ## The sign handler: `router.post('/:id/sign')` -/

/-- The request of the sign route at a URL that names the lease by the decimal
text of its id (`UrlSignRequest` for any text): the lease id, `req.user.role`,
`req.body.signature` and the base URL of the request. -/
structure SignRequest where
  id : Nat
  role : String
  signature : Option String
  baseUrl : String
deriving DecidableEq, Repr

/-- The `drawImage` call of the sign handler for an image, the anchor of a role
and the height of the page: `y` is `page.getHeight() - pos.y - pos.height`,
in integers. -/
def overlayAt (pos : Anchor) (pageHeight : Int) (image : Bytes) : Overlay :=
  ⟨image, pos.x, pageHeight - pos.y - pos.height, pos.width, pos.height⟩

/-- One of the two `if (rows[0].<role>_signature_path)` blocks: reads the image,
embeds it and draws it at the anchor of the role.  The second component is
`none` when the block throws. -/
def drawSignature (L : Libs) (files : Files) (heights : List Int) (role : String)
    (pos : Anchor) (sigPath : Option String) : List Effect × Option (List Overlay) :=
  match sigPath with
  | none => ([], some [])
  | some p =>
    if p = "" then ([], some [])
    else
      match files p with
      | none => ([Effect.readFile p], none)
      | some bytes =>
        if L.isPng bytes then
          match heights.head? with
          | none => ([Effect.readFile p], none)
          | some h =>
            ([Effect.readFile p, Effect.drawImage role (overlayAt pos h bytes)],
              some [overlayAt pos h bytes])
        else ([Effect.readFile p], none)

/-- The result of the embed step. -/
structure EmbedResult where
  trace : List Effect
  output : Option PdfDoc

/-- The body of the `try` block of the sign handler up to `pdfDoc.save()`: the
document object with the images drawn, or `none` when an exception is thrown. -/
def embedSignatures (L : Libs) (files : Files) (row : LeaseRow) : EmbedResult :=
  match row.document_path with
  | none => ⟨[], none⟩
  | some dp =>
    match files dp with
    | none => ⟨[Effect.readFile dp], none⟩
    | some pdfBytes =>
      match L.pdfParse pdfBytes with
      | none => ⟨[Effect.readFile dp], none⟩
      | some heights =>
        let land := drawSignature L files heights "landlord" L.signaturePositions.landlord
          row.landlord_signature_path
        match land.2 with
        | none => ⟨Effect.readFile dp :: land.1, none⟩
        | some os1 =>
          let ten := drawSignature L files heights "tenant" L.signaturePositions.tenant
            row.tenant_signature_path
          match ten.2 with
          | none => ⟨Effect.readFile dp :: (land.1 ++ ten.1), none⟩
          | some os2 =>
            ⟨Effect.readFile dp :: (land.1 ++ ten.1), some ⟨pdfBytes, heights, os1 ++ os2⟩⟩

/-- The status the sign handler computes from the row it selected. -/
def computedStatus (row : LeaseRow) : LeaseStatus :=
  if truthy row.landlord_signature_path && truthy row.tenant_signature_path then
    LeaseStatus.signed
  else LeaseStatus.pending

/-- The column update `UPDATE leases SET ${column} = ? WHERE id = ?`. -/
def setSignaturePath (role : String) (path : String) (r : LeaseRow) : LeaseRow :=
  if role = "landlord" then { r with landlord_signature_path := some path }
  else { r with tenant_signature_path := some path }

/-- The handler of `POST /:id/sign`. -/
def sign (L : Libs) (w : World) (req : SignRequest) : Outcome :=
  match req.signature with
  | none => ⟨w, Response.error 400 "Signature is required", []⟩
  | some signature =>
    if signature = "" then ⟨w, Response.error 400 "Signature is required", []⟩
    else
      let sigPath := signaturePath req.id req.role
      let data := L.base64Decode (stripDataUrl signature)
      let files1 := writeFile w.files sigPath data
      let leases1 := updateLease w.leases req.id (setSignaturePath req.role sigPath)
      let t1 := [Effect.writeFile sigPath data, Effect.updateLease req.id, Effect.dbQuery "leases"]
      match selectLease leases1 req.id with
      | none =>
        ⟨{ w with files := files1, leases := leases1 },
          Response.error 500 "Failed to save signature", t1⟩
      | some row =>
        let status := computedStatus row
        let signedFilename0 :=
          if truthy row.signed_document_path then row.signed_document_path.getD ""
          else signedFilename req.id
        let er := embedSignatures L files1 row
        match er.output with
        | some doc =>
          let out := L.pdfSave doc
          ⟨{ w with
              files := writeFile files1 (signedFilename req.id) out
              leases := updateLease leases1 req.id
                (fun r => { r with signed_document_path := some (signedFilename req.id),
                                   status := status }) },
            Response.signed status (req.baseUrl ++ "/uploads/leases/" ++ signedFilename req.id),
            t1 ++ er.trace ++
              [Effect.writeFile (signedFilename req.id) out, Effect.updateLease req.id]⟩
        | none =>
          ⟨{ w with
              files := files1
              leases := updateLease leases1 req.id (fun r => { r with status := status }) },
            Response.signed status (req.baseUrl ++ "/uploads/leases/" ++ signedFilename0),
            t1 ++ er.trace ++ [Effect.updateLease req.id]⟩

/-! ## The signing coordinator: `services/leaseSigning.js` -/

/-- The value `checkStatus` returns. -/
inductive PollStatus where
  | unknown
  | sent
  | signed
deriving DecidableEq, Repr

/-- The value of `envelopes.get(envelopeId)`. -/
def getEnvelope (envs : Envelopes) (envelopeId : Option String) : Option Envelope :=
  match envelopeId with
  | none => none
  | some e => envs e

/-- The map after `envelopes.set(envelopeId, info)`. -/
def setEnvelope (envs : Envelopes) (envelopeId : String) (info : Envelope) : Envelopes :=
  fun e => if e = envelopeId then some info else envs e

/-- The result of `LeaseSigningService.sendDocument`; `envelopeId` is the value
of `randomUUID()`. -/
def sendDocument (envs : Envelopes) (envelopeId : String) (filePath : String) : Envelopes :=
  setEnvelope envs envelopeId ⟨EnvelopeStatus.sent, filePath⟩

/-- The result of `LeaseSigningService.checkStatus`; `draw` is the value of
`Math.random() > 0.5`. -/
def checkStatus (envs : Envelopes) (envelopeId : Option String) (draw : Bool) :
    Envelopes × PollStatus :=
  match envelopeId with
  | none => (envs, PollStatus.unknown)
  | some e =>
    match envs e with
    | none => (envs, PollStatus.unknown)
    | some info =>
      if info.status ≠ EnvelopeStatus.signed ∧ draw = true then
        (setEnvelope envs e { info with status := EnvelopeStatus.signed }, PollStatus.signed)
      else
        (envs, match info.status with
          | EnvelopeStatus.sent => PollStatus.sent
          | EnvelopeStatus.signed => PollStatus.signed)

/-- The result of `LeaseSigningService.downloadSignedDocument`: the store after
the copy, or `none` when the call throws. -/
def downloadSignedDocument (envs : Envelopes) (files : Files) (envelopeId : Option String)
    (destPath : String) : Option Files :=
  match getEnvelope envs envelopeId with
  | none => none
  | some info =>
    if info.status ≠ EnvelopeStatus.signed then none
    else
      match files info.filePath with
      | none => none
      | some data => some (writeFile files destPath data)

/-! ## The status handler: `router.get('/:id/status')` -/

/-- The request of the status route; `draw` is the outcome of the random draw
of the poll, should one be made. -/
structure StatusRequest where
  id : Nat
  draw : Bool
  baseUrl : String
deriving DecidableEq, Repr

/-- The `signedUrl` field of the status response. -/
def signedUrl (baseUrl : String) (p : Option String) : Option String :=
  if truthy p then some (baseUrl ++ "/uploads/leases/" ++ p.getD "") else none

/-- The handler of `GET /:id/status`. -/
def getStatus (w : World) (req : StatusRequest) : Outcome :=
  match selectLease w.leases req.id with
  | none => ⟨w, Response.error 404 "Lease not found", [Effect.dbQuery "leases"]⟩
  | some lease =>
    if lease.status ≠ LeaseStatus.signed then
      let polled := checkStatus w.envelopes lease.provider_envelope_id req.draw
      let t1 := [Effect.dbQuery "leases", Effect.checkStatus lease.provider_envelope_id]
      if polled.2 = PollStatus.signed then
        let dest := signedFilename lease.id
        match downloadSignedDocument polled.1 w.files lease.provider_envelope_id dest with
        | none =>
          ⟨{ w with envelopes := polled.1 }, Response.error 500 "Failed to get status", t1⟩
        | some files1 =>
          ⟨{ w with
              envelopes := polled.1
              files := files1
              leases := updateLease w.leases lease.id
                (fun r => { r with status := LeaseStatus.signed,
                                   signed_document_path := some dest }) },
            Response.status LeaseStatus.signed (signedUrl req.baseUrl (some dest)),
            t1 ++ [Effect.copyFile ((getEnvelope polled.1 lease.provider_envelope_id).map
                      (fun i => i.filePath) |>.getD "") dest,
                   Effect.updateLease lease.id]⟩
      else
        ⟨{ w with envelopes := polled.1 },
          Response.status lease.status (signedUrl req.baseUrl lease.signed_document_path), t1⟩
    else
      ⟨w, Response.status lease.status (signedUrl req.baseUrl lease.signed_document_path),
        [Effect.dbQuery "leases"]⟩

/-! ## The lease generator: `services/leaseGenerator.js` -/

/-- The `data` argument of `LeaseGenerator.generate`; `securityDeposit` is the
text the template prints, `none` when the field is null or undefined. -/
structure LeaseTerms where
  propertyAddress : String
  tenantName : String
  landlordName : Option String
  startDate : String
  endDate : String
  rent : String
  securityDeposit : Option String
deriving DecidableEq, Repr

/-- The `labelOffset` constant of the generator. -/
def labelOffset : Int := 110

/-- The label and the signature line the generator draws for one role. -/
def signatureLine (label : String) (pos : Anchor) : List DocOp :=
  let baseline := pos.y + pos.height - 10
  [DocOp.textAt label pos.x (baseline - 15),
   DocOp.moveTo (pos.x + labelOffset) baseline,
   DocOp.lineTo (pos.x + pos.width) baseline,
   DocOp.stroke]

/-- A section of the document: a bold heading, a paragraph, a blank line. -/
def section_ (heading body : String) : List DocOp :=
  [DocOp.font "Helvetica-Bold", DocOp.text heading,
   DocOp.font "Helvetica", DocOp.text body, DocOp.moveDown]

/-- The document calls `LeaseGenerator.generate` makes, in order. -/
def generateOps (positions : SignaturePositions) (data : LeaseTerms) : List DocOp :=
  [DocOp.fontSize 20, DocOp.textCentered "Residential Lease Agreement", DocOp.moveDown,
   DocOp.fontSize 12,
   DocOp.text ("Landlord: " ++
     (if truthy data.landlordName then data.landlordName.getD "" else "_________________")),
   DocOp.text ("Tenant: " ++ data.tenantName),
   DocOp.moveDown]
  ++ section_ "Premises"
      ("The Landlord leases to the Tenant the property located at " ++ data.propertyAddress
        ++ ".")
  ++ section_ "Term"
      ("This lease begins on " ++ data.startDate ++ " and ends on " ++ data.endDate ++ ".")
  ++ section_ "Rent"
      ("Tenant shall pay " ++ data.rent ++ " per month, due on the first day of each month. "
        ++ "Rent received after the fifth day of the month will incur a late fee.")
  ++ section_ "Security Deposit"
      ("Tenant shall pay a security deposit of " ++ data.securityDeposit.getD "N/A"
        ++ " to be held by Landlord.")
  ++ section_ "Utilities"
      "Tenant is responsible for all utilities unless otherwise agreed in writing."
  ++ section_ "Maintenance"
      "Tenant shall maintain the premises and promptly notify Landlord of any issues."
  ++ section_ "Termination"
      "Either party must provide 30 days written notice to terminate this lease."
  ++ section_ "Governing Law"
      "This lease is governed by the laws of the jurisdiction where the property is located."
  ++ signatureLine "Landlord Signature:" positions.landlord
  ++ signatureLine "Tenant Signature:" positions.tenant
  ++ [DocOp.docEnd]

/-- The result of `LeaseGenerator.generate(data, destPath)`: the store with the
document written, or `none` when the write stream reports an error
(`streamOk = false`). -/
def LeaseGenerator.generate (L : Libs) (files : Files) (data : LeaseTerms) (destPath : String)
    (streamOk : Bool) : Option Files :=
  if streamOk then
    some (writeFile files destPath (L.pdfkitRender (generateOps L.signaturePositions data)))
  else none

/-! ## The generate handler: `router.post('/generate')` -/

/-- The `securityDeposit` field of the body after `Number(...)`. -/
inductive Deposit where
  | omitted
  | notANumber
  | amount (v : Int)
deriving DecidableEq, Repr

/-- The request of the generate route.  A body field is `none` when it is
absent; `now` is the value of `Date.now()` and `streamOk` tells whether the
write stream of the generator finishes. -/
structure GenerateRequest where
  userId : Nat
  userRole : String
  propertyId : Option Nat
  tenantId : Option Nat
  startDate : Option String
  endDate : Option String
  rent : Option String
  securityDeposit : Deposit
  now : Nat
  streamOk : Bool
  baseUrl : String
deriving DecidableEq, Repr

/-- JavaScript falsiness of a numeric body field. -/
def falsyNat (v : Option Nat) : Bool :=
  match v with
  | none => true
  | some n => n == 0

/-- The value of `normalizedDeposit`, `none` for NaN. -/
def normalizedDeposit (d : Deposit) : Option Int :=
  match d with
  | Deposit.omitted => some 0
  | Deposit.notANumber => none
  | Deposit.amount v => some v

/-- The value of `payment_count`: the payments of the tenant for the property
with status `Received`. -/
def paymentCount (payments : List PaymentRow) (tenantId propertyId : Nat) : Nat :=
  (payments.filter
    (fun p => p.tenant_id == tenantId && p.property_id == propertyId
      && p.status == "Received")).length

/-- The id an `INSERT INTO leases` assigns: one more than the largest id in use. -/
def nextLeaseId (rows : List LeaseRow) : Nat :=
  (rows.map (fun r => r.id)).foldr max 0 + 1

/-- The name of a generated document. -/
def leaseFilename (now : Nat) : String :=
  "lease-" ++ toString now ++ ".pdf"

/-- The handler of `POST /generate`, behind `requireRole('landlord')`. -/
def generate (L : Libs) (w : World) (req : GenerateRequest) : Outcome :=
  if req.userRole ≠ "landlord" then
    ⟨w, Response.error 403 "Access denied. Insufficient permissions.", []⟩
  else if falsyNat req.propertyId || falsyNat req.tenantId || !truthy req.startDate
      || !truthy req.endDate || !truthy req.rent then
    ⟨w, Response.error 400 "Missing required fields", []⟩
  else
    match normalizedDeposit req.securityDeposit with
    | none => ⟨w, Response.error 400 "Invalid security deposit amount", []⟩
    | some deposit =>
      if deposit < 0 then ⟨w, Response.error 400 "Invalid security deposit amount", []⟩
      else
        let propertyId := req.propertyId.getD 0
        let tenantId := req.tenantId.getD 0
        match w.properties.find? (fun p => p.id == propertyId) with
        | none => ⟨w, Response.error 404 "Property not found", [Effect.dbQuery "properties"]⟩
        | some prop =>
          match w.tenants.find? (fun t => t.id == tenantId) with
          | none =>
            ⟨w, Response.error 404 "Tenant not found",
              [Effect.dbQuery "properties", Effect.dbQuery "tenants"]⟩
          | some tenant =>
            if paymentCount w.payments tenantId propertyId = 0 then
              ⟨w, Response.error 400
                  "Cannot generate lease before receiving a payment from this tenant",
                [Effect.dbQuery "properties", Effect.dbQuery "tenants",
                 Effect.dbQuery "payments"]⟩
            else
              let landlordName := (w.users.find? (fun u => u.id == req.userId)).map
                (fun u => u.name)
              let filename := leaseFilename req.now
              let t1 := [Effect.dbQuery "properties", Effect.dbQuery "tenants",
                Effect.dbQuery "payments", Effect.dbQuery "users"]
              let terms : LeaseTerms :=
                ⟨prop.address, tenant.name, landlordName, req.startDate.getD "",
                  req.endDate.getD "", req.rent.getD "", some (toString deposit)⟩
              match LeaseGenerator.generate L w.files terms filename req.streamOk with
              | none => ⟨w, Response.error 500 "Failed to generate lease", t1⟩
              | some files1 =>
                let id := nextLeaseId w.leases
                let row : LeaseRow :=
                  ⟨id, propertyId, tenantId, LeaseStatus.generated, some filename, none, none,
                    none, none, req.startDate, req.endDate, req.startDate⟩
                ⟨{ w with files := files1, leases := w.leases ++ [row] },
                  Response.generated id LeaseStatus.generated
                    (req.baseUrl ++ "/uploads/leases/" ++ filename),
                  t1 ++ [Effect.writeFile filename
                           (L.pdfkitRender (generateOps L.signaturePositions terms)),
                         Effect.insertLease id]⟩

/-! ## The send handler: `router.post('/send')` -/

/-- The request of the send route after `upload.single('document')` and the
body validation: the uploaded file, when there is one, under the name the
upload middleware chose for it (`Date.now()`, a dash, a random number and the
extension of the original name), and the value of `randomUUID()`. -/
structure SendRequest where
  userRole : String
  propertyId : Nat
  tenantId : Nat
  file : Option (String × Bytes)
  envelopeId : String
deriving DecidableEq, Repr

/-- The handler of `POST /send`, behind `requireRole('landlord')` and the upload
middleware, which stores the uploaded file before the handler runs. -/
def send (w : World) (req : SendRequest) : Outcome :=
  if req.userRole ≠ "landlord" then
    ⟨w, Response.error 403 "Access denied. Insufficient permissions.", []⟩
  else
    match req.file with
    | none => ⟨w, Response.error 400 "Document is required", []⟩
    | some (filename, data) =>
      let files1 := writeFile w.files filename data
      let t0 := [Effect.writeFile filename data, Effect.dbQuery "tenants"]
      match w.tenants.find? (fun t => t.id == req.tenantId) with
      | none => ⟨{ w with files := files1 }, Response.error 404 "Tenant not found", t0⟩
      | some _ =>
        let id := nextLeaseId w.leases
        let row : LeaseRow :=
          ⟨id, req.propertyId, req.tenantId, LeaseStatus.sent, some filename, none, none,
            none, some req.envelopeId, none, none, none⟩
        ⟨{ w with
            files := files1
            envelopes := sendDocument w.envelopes req.envelopeId filename
            leases := w.leases ++ [row] },
          Response.sent id LeaseStatus.sent,
          t0 ++ [Effect.sendDocument req.envelopeId, Effect.insertLease id]⟩

/-! ## The download handler: `router.get('/:id/download')` -/

/-- The handler of `GET /:id/download`. -/
def download (w : World) (id : Nat) : Outcome :=
  match selectLease w.leases id with
  | none => ⟨w, Response.error 404 "Lease not found", [Effect.dbQuery "leases"]⟩
  | some lease =>
    if truthy lease.signed_document_path then
      match w.files (lease.signed_document_path.getD "") with
      | none => ⟨w, Response.error 404 "File missing", [Effect.dbQuery "leases"]⟩
      | some data =>
        ⟨w, Response.download (lease.signed_document_path.getD "") data,
          [Effect.dbQuery "leases", Effect.readFile (lease.signed_document_path.getD "")]⟩
    else ⟨w, Response.error 404 "Signed document not available", [Effect.dbQuery "leases"]⟩

/-! ## Requests and runs -/

/-- A request to one of the lease routes that change the state. -/
inductive Request where
  | generate (req : GenerateRequest)
  | send (req : SendRequest)
  | sign (req : SignRequest)
  | status (req : StatusRequest)
deriving DecidableEq, Repr

/-- The state after one request. -/
def step (L : Libs) (w : World) (r : Request) : World :=
  match r with
  | Request.generate req => (generate L w req).world
  | Request.send req => (send w req).world
  | Request.sign req => (sign L w req).world
  | Request.status req => (getStatus w req).world

/-- The state after a sequence of requests, served one after the other. -/
def run (L : Libs) (w : World) (rs : List Request) : World :=
  rs.foldl (step L) w

/-- The status of a lease, when the lease exists. -/
def statusOf (w : World) (id : Nat) : Option LeaseStatus :=
  (selectLease w.leases id).map (fun r => r.status)

/-- The order of the lifecycle states: generated and sent, then pending, then
signed. -/
def LeaseStatus.rank (s : LeaseStatus) : Nat :=
  match s with
  | LeaseStatus.generated => 0
  | LeaseStatus.sent => 0
  | LeaseStatus.pending => 1
  | LeaseStatus.signed => 2

/-- Whether a nullable path column names a file of the store. -/
def namesArtifact (files : Files) (p : Option String) : Bool :=
  truthy p && (files (p.getD "")).isSome

/-- The agreement between the status of a lease record, its signed path and the
store: a signed path that is set names a file of the store and belongs to a
`pending` or `signed` lease, and a `signed` lease has such a file or carries
both signature paths. -/
def Consistent (files : Files) (row : LeaseRow) : Prop :=
  (truthy row.signed_document_path = true →
    namesArtifact files row.signed_document_path = true ∧
    (row.status = LeaseStatus.pending ∨ row.status = LeaseStatus.signed)) ∧
  (row.status = LeaseStatus.signed →
    namesArtifact files row.signed_document_path = true ∨
    (truthy row.landlord_signature_path = true ∧ truthy row.tenant_signature_path = true))

instance (files : Files) (row : LeaseRow) : Decidable (Consistent files row) := by
  unfold Consistent
  infer_instance

/-! ## Calls of the signing coordinator -/

/-- What `downloadSignedDocument` throws: its own error with its message, or
the error of `fs.copyFileSync` when the queued file cannot be read. -/
inductive DownloadError where
  | notSigned (message : String)
  | copyFailed (src : String)
deriving DecidableEq, Repr

/-- The outcome of `LeaseSigningService.downloadSignedDocument` in full: the
error thrown, or the store after the copy together with the value returned. -/
def downloadSignedDocumentResult (envs : Envelopes) (files : Files)
    (envelopeId : Option String) (destPath : String) :
    Except DownloadError (Files × String) :=
  match getEnvelope envs envelopeId with
  | none => Except.error (DownloadError.notSigned "Document not signed yet")
  | some info =>
    if info.status ≠ EnvelopeStatus.signed then
      Except.error (DownloadError.notSigned "Document not signed yet")
    else
      match files info.filePath with
      | none => Except.error (DownloadError.copyFailed info.filePath)
      | some data => Except.ok (writeFile files destPath data, destPath)

/-- A call of one of the three methods of the coordinator; the envelope id of
`sendDocument` is the value of `randomUUID()`. -/
inductive CoordOp where
  | sendDocument (envelopeId : String) (filePath : String)
  | checkStatus (envelopeId : Option String) (draw : Bool)
  | downloadSignedDocument (envelopeId : Option String) (destPath : String)
deriving DecidableEq, Repr

/-- The state the coordinator acts on: its map and the store. -/
structure CoordState where
  envelopes : Envelopes
  files : Files

/-- The state after one call of the coordinator; a call that throws leaves the
state as it was. -/
def coordStep (s : CoordState) (op : CoordOp) : CoordState :=
  match op with
  | CoordOp.sendDocument e path => { s with envelopes := sendDocument s.envelopes e path }
  | CoordOp.checkStatus e draw => { s with envelopes := (checkStatus s.envelopes e draw).1 }
  | CoordOp.downloadSignedDocument e dest =>
    match downloadSignedDocument s.envelopes s.files e dest with
    | none => s
    | some files1 => { s with files := files1 }

/-- The state after a sequence of calls of the coordinator. -/
def coordRun (s : CoordState) (ops : List CoordOp) : CoordState :=
  ops.foldl coordStep s

/-- Whether every `sendDocument` of a sequence is given an id that is not in
the map at that time, as `randomUUID()` provides. -/
def freshSends (s : CoordState) (ops : List CoordOp) : Bool :=
  match ops with
  | [] => true
  | op :: rest =>
    (match op with
      | CoordOp.sendDocument e _ => (s.envelopes e).isNone
      | _ => true) && freshSends (coordStep s op) rest

/-! ## Geometry of an overlay -/

/-- The distance of the top edge of an overlay from the top of a page of the
given height. -/
def topEdge (pageHeight : Int) (o : Overlay) : Int :=
  pageHeight - (o.y + o.height)

/-- The distance of the bottom edge of an overlay from the top of a page of the
given height. -/
def bottomEdge (pageHeight : Int) (o : Overlay) : Int :=
  pageHeight - o.y

/-- The anchor of the block of the embed step that draws for a role. -/
def anchorOf (L : Libs) (role : String) : Anchor :=
  if role = "landlord" then L.signaturePositions.landlord else L.signaturePositions.tenant

/-- The role whose block draws when only one signature path is set: the
landlord when the landlord path is set, the tenant otherwise. -/
def onlyRole (row : LeaseRow) : String :=
  if truthy row.landlord_signature_path then "landlord" else "tenant"

/-- The signature path the block of a role reads. -/
def pathOf (row : LeaseRow) (role : String) : Option String :=
  if role = "landlord" then row.landlord_signature_path else row.tenant_signature_path

/-- The first check of the generate handler: whether one of `propertyId`,
`tenantId`, `startDate`, `endDate` and `rent` is absent or falsy. -/
def missingRequired (req : GenerateRequest) : Bool :=
  falsyNat req.propertyId || falsyNat req.tenantId || !truthy req.startDate
    || !truthy req.endDate || !truthy req.rent

/-! ## The suspended sign handler -/

/-- The local variables of a sign request that is suspended at
`await db.query('SELECT * FROM leases WHERE id = ?')`: the request and the
first row the query returned. -/
structure SignPending where
  req : SignRequest
  row : Option LeaseRow
deriving DecidableEq, Repr

/-- The sign handler up to the result of its `SELECT`: the signature image is
written and the signature column is updated.  The second component is `none`
when the handler has responded 400 instead. -/
def signRead (L : Libs) (w : World) (req : SignRequest) : World × Option SignPending :=
  match req.signature with
  | none => (w, none)
  | some signature =>
    if signature = "" then (w, none)
    else
      let sigPath := signaturePath req.id req.role
      let data := L.base64Decode (stripDataUrl signature)
      let files1 := writeFile w.files sigPath data
      let leases1 := updateLease w.leases req.id (setSignaturePath req.role sigPath)
      ({ w with files := files1, leases := leases1 }, some ⟨req, selectLease leases1 req.id⟩)

/-- The sign handler from the result of its `SELECT` on: the status and the
embed are computed from the row the handler holds, the files are read from and
the updates are applied to the state it resumes in. -/
def signCommit (L : Libs) (w : World) (p : SignPending) : Outcome :=
  match p.row with
  | none => ⟨w, Response.error 500 "Failed to save signature", []⟩
  | some row =>
    let status := computedStatus row
    let signedFilename0 :=
      if truthy row.signed_document_path then row.signed_document_path.getD ""
      else signedFilename p.req.id
    let er := embedSignatures L w.files row
    match er.output with
    | some doc =>
      let out := L.pdfSave doc
      ⟨{ w with
          files := writeFile w.files (signedFilename p.req.id) out
          leases := updateLease w.leases p.req.id
            (fun r => { r with signed_document_path := some (signedFilename p.req.id),
                               status := status }) },
        Response.signed status
          (p.req.baseUrl ++ "/uploads/leases/" ++ signedFilename p.req.id),
        er.trace ++
          [Effect.writeFile (signedFilename p.req.id) out, Effect.updateLease p.req.id]⟩
    | none =>
      ⟨{ w with leases := updateLease w.leases p.req.id (fun r => { r with status := status }) },
        Response.signed status (p.req.baseUrl ++ "/uploads/leases/" ++ signedFilename0),
        er.trace ++ [Effect.updateLease p.req.id]⟩

/-- How far a sign request has come. -/
inductive Stage where
  | waiting (req : SignRequest)
  | suspended (p : SignPending)
  | done (response : Response)
deriving DecidableEq, Repr

/-- One turn of a request on the event loop: a waiting request runs up to its
`SELECT`, a suspended request runs to its response. -/
def advance (L : Libs) (w : World) (s : Stage) : World × Stage :=
  match s with
  | Stage.waiting req =>
    match signRead L w req with
    | (w1, none) => (w1, Stage.done (Response.error 400 "Signature is required"))
    | (w1, some p) => (w1, Stage.suspended p)
  | Stage.suspended p => ((signCommit L w p).world, Stage.done (signCommit L w p).response)
  | Stage.done r => (w, Stage.done r)

/-- Which of two requests in flight takes the next turn. -/
inductive Turn where
  | first
  | second
deriving DecidableEq, Repr

/-- Two sign requests in flight on one state. -/
structure Race where
  world : World
  first : Stage
  second : Stage

/-- The state after one turn. -/
def raceStep (L : Libs) (r : Race) (t : Turn) : Race :=
  match t with
  | Turn.first => ⟨(advance L r.world r.first).1, (advance L r.world r.first).2, r.second⟩
  | Turn.second => ⟨(advance L r.world r.second).1, r.first, (advance L r.world r.second).2⟩

/-- The state after a schedule of turns. -/
def race (L : Libs) (r : Race) (ts : List Turn) : Race :=
  ts.foldl (raceStep L) r

/-! ## The document the generator writes -/

/-- The texts a list of document calls prints while the font is
`Helvetica-Bold`; `bold` tells whether it is at the start of the list. -/
def headingsFrom (bold : Bool) : List DocOp → List String
  | [] => []
  | DocOp.font f :: ops => headingsFrom (f == "Helvetica-Bold") ops
  | DocOp.text t :: ops =>
    if bold then t :: headingsFrom bold ops else headingsFrom bold ops
  | DocOp.textCentered t :: ops =>
    if bold then t :: headingsFrom bold ops else headingsFrom bold ops
  | DocOp.textAt t _ _ :: ops =>
    if bold then t :: headingsFrom bold ops else headingsFrom bold ops
  | _ :: ops => headingsFrom bold ops

/-- The headings of a document: the texts printed in bold, in order. -/
def headingsOf (ops : List DocOp) : List String :=
  headingsFrom false ops

/-- The value the promise of `LeaseGenerator.generate(data, destPath)` settles
with: `destPath` on the `finish` event of the stream, `none` for the rejection
on its `error` event. -/
def LeaseGenerator.settled (destPath : String) (streamOk : Bool) : Option String :=
  if streamOk then some destPath else none

/-! ## The payment simulator: `services/paymentSimulation.js` -/

/-- The module-level counters `idCounter` and `successCounter`.  The counters
are integers: a run stays in the range in which JavaScript numbers are exact. -/
structure SimState where
  idCounter : Nat
  successCounter : Nat
deriving DecidableEq, Repr

/-- The counters of a module that has just been loaded. -/
def SimState.fresh : SimState := ⟨100000, 0⟩

/-- A `PaymentResult`. -/
structure PaymentResult where
  success : Bool
  message : String
  transactionId : String
deriving DecidableEq, Repr

/-- The function `generateTransactionId`: the identifier and the counters after
`idCounter++`. -/
def generateTransactionId (s : SimState) (tag : String) : SimState × String :=
  ({ s with idCounter := s.idCounter + 1 }, tag ++ "-" ++ toString s.idCounter)

/-- The function `isSuccessful`: the counters after `successCounter++` and
`successCounter % 10 !== 0`. -/
def isSuccessful (s : SimState) : SimState × Bool :=
  ({ s with successCounter := s.successCounter + 1 }, (s.successCounter + 1) % 10 != 0)

/-- The three processor classes. -/
inductive Processor where
  | card
  | airtel
  | mtn
deriving DecidableEq, Repr

/-- The argument a processor passes to `generateTransactionId`. -/
def Processor.tag (p : Processor) : String :=
  match p with
  | Processor.card => "card"
  | Processor.airtel => "airtel"
  | Processor.mtn => "mtn"

/-- The message of a processor for an approved payment. -/
def Processor.approved (p : Processor) : String :=
  match p with
  | Processor.card => "Card payment approved."
  | Processor.airtel => "Airtel Money payment approved."
  | Processor.mtn => "MTN Money payment approved."

/-- The message of a processor for a declined payment. -/
def Processor.declined (p : Processor) : String :=
  match p with
  | Processor.card => "Card payment declined."
  | Processor.airtel => "Airtel Money payment declined."
  | Processor.mtn => "MTN Money payment declined."

/-- The method `process` of a processor: the counters after the call and the
result.  The amount and the payment details are not read. -/
def Processor.process (p : Processor) (s : SimState) : SimState × PaymentResult :=
  let idStep := generateTransactionId s p.tag
  let okStep := isSuccessful idStep.1
  (okStep.1, ⟨okStep.2, if okStep.2 then p.approved else p.declined, idStep.2⟩)

/-- The results of a sequence of `process` calls, in the order of the calls. -/
def processAll (s : SimState) : List Processor → List PaymentResult
  | [] => []
  | p :: ps => (p.process s).2 :: processAll (p.process s).1 ps

/-- Whether a message contains the word `approved`. -/
def saysApproved (message : String) : Bool :=
  decide ("approved".data <:+: message.data)

/-- The number a list of decimal digits denotes. -/
def decimalValue (cs : List Char) : Nat :=
  cs.foldl (fun acc c => 10 * acc + (c.toNat - 48)) 0

/-! ## The property update handler: `router.put('/:id')` of `routes/properties.js` -/

/-- A row of the `properties` table. -/
structure PropertyRecord where
  id : Nat
  address : String
  type : String
  rent : String
  status : String
  tenant_id : Option Nat
deriving DecidableEq, Repr

/-- The field `tenant_id` of the body of an update: absent, `null` or an id. -/
inductive BodyTenant where
  | undefined
  | null
  | id (t : Nat)
deriving DecidableEq, Repr

/-- The request of the update route: `req.params.id` and the body. -/
structure PropertyUpdate where
  id : Nat
  address : String
  type : String
  rent : String
  status : String
  tenant_id : BodyTenant
deriving DecidableEq, Repr

/-- The tables the update route acts on. -/
structure Estate where
  properties : List PropertyRecord
  tenants : List TenantRow
deriving DecidableEq, Repr

/-- A statement the update route executes. -/
inductive Sql where
  | selectTenantId (id : Nat)
  | updateProperty (id : Nat) (columns : List String)
  | deleteTenant (id : Nat)
  | selectProperty (id : Nat)
deriving DecidableEq, Repr

/-- What an update leaves behind: the tables, the row sent as the response
(`rows[0]`) and the statements executed, in program order. -/
structure UpdateOutcome where
  estate : Estate
  body : Option PropertyRecord
  trace : List Sql
deriving DecidableEq, Repr

/-- The rows of `SELECT ... FROM properties WHERE id = ?`, first row. -/
def selectProperty (rows : List PropertyRecord) (id : Nat) : Option PropertyRecord :=
  rows.find? (fun p => p.id == id)

/-- The value of `existingTenantId` after the first block of the handler. -/
def existingTenantId (e : Estate) (req : PropertyUpdate) : Option Nat :=
  match req.tenant_id with
  | BodyTenant.null => (selectProperty e.properties req.id).bind (fun p => p.tenant_id)
  | _ => none

/-- The columns the `UPDATE` statement of the handler sets. -/
def updateColumns (req : PropertyUpdate) : List String :=
  ["address", "type", "rent", "status"] ++
    (match req.tenant_id with
     | BodyTenant.undefined => []
     | _ => ["tenant_id"])

/-- The row after the `UPDATE` statement of the handler. -/
def applyUpdate (req : PropertyUpdate) (p : PropertyRecord) : PropertyRecord :=
  { p with
      address := req.address, type := req.type, rent := req.rent, status := req.status,
      tenant_id :=
        match req.tenant_id with
        | BodyTenant.undefined => p.tenant_id
        | BodyTenant.null => none
        | BodyTenant.id t => some t }

/-- The tenant the handler deletes: `tenant_id === null && existingTenantId`. -/
def tenantToDelete (e : Estate) (req : PropertyUpdate) : Option Nat :=
  match req.tenant_id, existingTenantId e req with
  | BodyTenant.null, some t => if t ≠ 0 then some t else none
  | _, _ => none

/-- The handler of `PUT /:id` when its statements succeed. -/
def updateProperty (e : Estate) (req : PropertyUpdate) : UpdateOutcome :=
  let t0 :=
    match req.tenant_id with
    | BodyTenant.null => [Sql.selectTenantId req.id]
    | _ => []
  let properties1 := e.properties.map (fun p => if p.id = req.id then applyUpdate req p else p)
  let t1 := t0 ++ [Sql.updateProperty req.id (updateColumns req)]
  match tenantToDelete e req with
  | some t =>
    ⟨⟨properties1, e.tenants.filter (fun r => r.id != t)⟩,
      selectProperty properties1 req.id,
      t1 ++ [Sql.deleteTenant t, Sql.selectProperty req.id]⟩
  | none =>
    ⟨⟨properties1, e.tenants⟩, selectProperty properties1 req.id,
      t1 ++ [Sql.selectProperty req.id]⟩

/-! ## The maintenance report: `services/maintenanceReport.js` -/

/-- A JavaScript string: its UTF-16 code units. -/
abbrev JsText := List Nat

/-- The code units of a string constant. -/
def units (s : String) : JsText :=
  s.data.map Char.toNat

/-- The decimal text of a number, `String(n)`. -/
def decimal (n : Nat) : JsText :=
  units (toString n)

/-- The value of `text.replace(/c/g, by)` for a pattern of one code unit. -/
def replaceUnit (c : Nat) (by_ : JsText) (text : JsText) : JsText :=
  text.flatMap (fun u => if u = c then by_ else [u])

/-- The function `escapeText`: backslashes are doubled, then the two
parentheses are escaped. -/
def escapeText (text : JsText) : JsText :=
  replaceUnit 41 [92, 41] (replaceUnit 40 [92, 40] (replaceUnit 92 [92, 92] text))

/-- The value of `s.padStart(n, c)` for a pad of one code unit. -/
def padStart (n : Nat) (c : Nat) (s : JsText) : JsText :=
  List.replicate (n - s.length) c ++ s

/-- The value of `lines.join('\n')`. -/
def joinLines (lines : List JsText) : JsText :=
  List.intercalate [10] lines

/-- An entry of `requests`: `date` is the value of
`new Date(r.date).toISOString().split('T')[0]`, and an absent `issue` or
`status` is `none`. -/
structure MaintenanceRequest where
  date : JsText
  issue : Option JsText
  status : Option JsText
deriving DecidableEq, Repr

/-- The lines one request adds at height `y`. -/
def requestLines (y : Int) (r : MaintenanceRequest) : List JsText :=
  [units "1 0 0 1 50 " ++ units (toString y) ++ units " Tm",
   units "(" ++ escapeText r.date ++ units ") Tj",
   units "120 0 Td (" ++ escapeText (r.issue.getD []) ++ units ") Tj",
   units "250 0 Td (" ++ escapeText (r.status.getD []) ++ units ") Tj"]

/-- The lines of the `requests.forEach` loop, `y` dropping by 15 per request. -/
def requestsLines : Int → List MaintenanceRequest → List JsText
  | _, [] => []
  | y, r :: rs => requestLines y r ++ requestsLines (y - 15) rs

/-- The content stream; `dateStr` is the date of the call. -/
def reportContent (tenantName : Option JsText) (dateStr : JsText)
    (requests : List MaintenanceRequest) : JsText :=
  joinLines
    ([units "BT",
      units "/F1 20 Tf 50 750 Td (Maintenance Records) Tj",
      units "/F1 12 Tf 50 730 Td (Tenant: " ++ escapeText (tenantName.getD []) ++ units ") Tj",
      units "50 715 Td (Generated: " ++ dateStr ++ units ") Tj",
      units "50 690 Td (Date) Tj",
      units "120 0 Td (Issue) Tj",
      units "250 0 Td (Status) Tj"]
     ++ requestsLines 675 requests
     ++ [units "ET"])

/-- The array `objects`. -/
def reportObjects (content : JsText) : List JsText :=
  [units "1 0 obj << /Type /Catalog /Pages 2 0 R >> endobj\n",
   units "2 0 obj << /Type /Pages /Kids [3 0 R] /Count 1 >> endobj\n",
   units ("3 0 obj << /Type /Page /Parent 2 0 R /MediaBox [0 0 612 792] /Contents 4 0 R "
     ++ "/Resources << /Font << /F1 5 0 R >> >> >> endobj\n"),
   units "4 0 obj << /Length " ++ decimal content.length ++ units " >> stream\n" ++ content
     ++ units "\nendstream\nendobj\n",
   units "5 0 obj << /Type /Font /Subtype /Type1 /BaseFont /Helvetica >> endobj\n"]

/-- The loop `objects.forEach(obj => ...)`: the text `pdf` and the array
`offsets` after it. -/
def layout (objects : List JsText) : JsText × List Nat :=
  objects.foldl (fun acc obj => (acc.1 ++ obj, acc.2 ++ [acc.1.length]))
    (units "%PDF-1.3\n", [0])

/-- One line of the cross-reference table for an object in use. -/
def xrefEntry (offset : Nat) : JsText :=
  padStart 10 48 (decimal offset) ++ units " 00000 n \n"

/-- The lines the loop `for (let i = 1; i < offsets.length; i++)` appends. -/
def xrefEntries (offsets : List Nat) : JsText :=
  (offsets.drop 1).flatMap xrefEntry

/-- The text `pdf` at the end of `generateMaintenanceReport`, from the array
`objects`: the header, the objects, the cross-reference table and the trailer. -/
def assemble (objects : List JsText) : JsText :=
  let body := layout objects
  let xrefPos := body.1.length
  body.1 ++ units "xref\n"
    ++ (units "0 " ++ decimal body.2.length ++ units "\n")
    ++ units "0000000000 65535 f \n"
    ++ xrefEntries body.2
    ++ (units "trailer << /Size " ++ decimal body.2.length ++ units " /Root 1 0 R >>\n")
    ++ (units "startxref\n" ++ decimal xrefPos ++ units "\n%%EOF")

/-- The text `pdf` at the end of `generateMaintenanceReport`. -/
def reportText (tenantName : Option JsText) (dateStr : JsText)
    (requests : List MaintenanceRequest) : JsText :=
  assemble (reportObjects (reportContent tenantName dateStr requests))

/-- The value of `Buffer.from(pdf, 'binary')`: one byte per code unit. -/
def binaryBuffer (text : JsText) : Bytes :=
  text.map (fun u => u % 256)

/-- The function `generateMaintenanceReport`; `dateStr` is the value of
`new Date().toISOString().split('T')[0]`. -/
def generateMaintenanceReport (tenantName : Option JsText) (dateStr : JsText)
    (requests : List MaintenanceRequest) : Bytes :=
  binaryBuffer (reportText tenantName dateStr requests)

/-! ## The sign handler and the text of the URL -/

/-- The request of the sign route as the route receives it: `idText` is the
text `req.params.id` of the URL, which the handler prints into the file names,
and `id` is the number the database reads that text as when it compares it
with the `id` column in `WHERE id = ?` (42 for the texts `42` and `042`). -/
structure UrlSignRequest where
  idText : String
  id : Nat
  role : String
  signature : Option String
  baseUrl : String
deriving DecidableEq, Repr

/-- The value of the template `${req.params.id}-${role}.png`. -/
def signatureFilenameAt (idText : String) (role : String) : String :=
  idText ++ "-" ++ role ++ ".png"

/-- The value of `path.join('signatures', filename)` for a text without a
path separator. -/
def signaturePathAt (idText : String) (role : String) : String :=
  "signatures/" ++ signatureFilenameAt idText role

/-- The value of the template `${req.params.id}-signed.pdf`. -/
def signedFilenameAt (idText : String) : String :=
  idText ++ "-signed.pdf"

/-- The handler of `POST /:id/sign` with the text of the URL kept apart from
the number the database matches: the files are named by the text, the rows are
updated and selected by the number. -/
def signUrl (L : Libs) (w : World) (req : UrlSignRequest) : Outcome :=
  match req.signature with
  | none => ⟨w, Response.error 400 "Signature is required", []⟩
  | some signature =>
    if signature = "" then ⟨w, Response.error 400 "Signature is required", []⟩
    else
      let sigPath := signaturePathAt req.idText req.role
      let data := L.base64Decode (stripDataUrl signature)
      let files1 := writeFile w.files sigPath data
      let leases1 := updateLease w.leases req.id (setSignaturePath req.role sigPath)
      let t1 := [Effect.writeFile sigPath data, Effect.updateLease req.id, Effect.dbQuery "leases"]
      match selectLease leases1 req.id with
      | none =>
        ⟨{ w with files := files1, leases := leases1 },
          Response.error 500 "Failed to save signature", t1⟩
      | some row =>
        let status := computedStatus row
        let signedFilename0 :=
          if truthy row.signed_document_path then row.signed_document_path.getD ""
          else signedFilenameAt req.idText
        let er := embedSignatures L files1 row
        match er.output with
        | some doc =>
          let out := L.pdfSave doc
          ⟨{ w with
              files := writeFile files1 (signedFilenameAt req.idText) out
              leases := updateLease leases1 req.id
                (fun r => { r with signed_document_path := some (signedFilenameAt req.idText),
                                   status := status }) },
            Response.signed status
              (req.baseUrl ++ "/uploads/leases/" ++ signedFilenameAt req.idText),
            t1 ++ er.trace ++
              [Effect.writeFile (signedFilenameAt req.idText) out, Effect.updateLease req.id]⟩
        | none =>
          ⟨{ w with
              files := files1
              leases := updateLease leases1 req.id (fun r => { r with status := status }) },
            Response.signed status (req.baseUrl ++ "/uploads/leases/" ++ signedFilename0),
            t1 ++ er.trace ++ [Effect.updateLease req.id]⟩

/-! ## Numbers of JavaScript -/

/-- The integer nearest to a rational, a tie going to the even neighbour. -/
def roundHalfEven (q : ℚ) : ℤ :=
  if q - ⌊q⌋ < 1 / 2 then ⌊q⌋
  else if 1 / 2 < q - ⌊q⌋ then ⌊q⌋ + 1
  else if ⌊q⌋ % 2 = 0 then ⌊q⌋ else ⌊q⌋ + 1

/-- The distance between the binary64 numbers around a rational: `2 ^ (e - 52)`
for `2 ^ e ≤ |q| < 2 ^ (e + 1)`, with `e` at least `-1022`. -/
def ulp (q : ℚ) : ℚ :=
  (2 : ℚ) ^ (max (Int.log 2 |q|) (-1022) - 52)

/-- The binary64 number a rational of magnitude below `2 ^ 1024` is rounded to:
the nearest multiple of `ulp`, a tie going to the even one. -/
def toDouble (q : ℚ) : ℚ :=
  roundHalfEven (q / ulp q) * ulp q

/-- The value of `a - b` for two numbers of JavaScript whose difference is
below `2 ^ 1024` in magnitude. -/
def jsSub (a b : ℚ) : ℚ :=
  toDouble (a - b)

/-- The value of `a + b` for two numbers of JavaScript whose sum is below
`2 ^ 1024` in magnitude. -/
def jsAdd (a b : ℚ) : ℚ :=
  toDouble (a + b)

/-- The value of `page.getHeight() - pos.y - pos.height` in the two blocks of
the sign handler. -/
def drawY (pageHeight y height : ℚ) : ℚ :=
  jsSub (jsSub pageHeight y) height

/-! ## Observations on a request -/

/-- The embed step a sign request performs, when the handler reaches it: the
store holds the new signature image and the row carries its path. -/
def signEmbed (L : Libs) (w : World) (req : SignRequest) : Option EmbedResult :=
  match req.signature with
  | none => none
  | some signature =>
    if signature = "" then none
    else
      match selectLease (updateLease w.leases req.id
          (setSignaturePath req.role (signaturePath req.id req.role))) req.id with
      | none => none
      | some row =>
        some (embedSignatures L
          (writeFile w.files (signaturePath req.id req.role)
            (L.base64Decode (stripDataUrl signature))) row)

/-- The images drawn in a trace, each with the role of the block that drew it. -/
def drawsOf (t : List Effect) : List (String × Overlay) :=
  t.filterMap (fun e =>
    match e with
    | Effect.drawImage role o => some (role, o)
    | _ => none)

/-- The paths of the files read in a trace. -/
def readsOf (t : List Effect) : List String :=
  t.filterMap (fun e =>
    match e with
    | Effect.readFile p => some p
    | _ => none)

/-! ## Concrete states used in the examples -/

/-- A library record for the examples: every file starting with byte 37 is a
one-page document of height 792, every file starting with byte 137 is a PNG
image, a base64 string decodes to its character codes, and a saved document is
its source followed by one byte per drawn image. -/
def demoLibs : Libs where
  signaturePositions := ⟨⟨72, 600, 200, 50⟩, ⟨320, 600, 200, 50⟩⟩
  base64Decode := fun s => s.data.map Char.toNat
  pdfParse := fun b => if b.head? = some 37 then some [792] else none
  pdfSave := fun d => d.source ++ d.drawn.map (fun o => o.image.length)
  isPng := fun b => b.head? = some 137
  pdfkitRender := fun ops => 37 :: ops.map (fun _ => 0)

/-- An empty state. -/
def emptyWorld : World :=
  ⟨[], fun _ => none, fun _ => none, [], [], [], []⟩

/-- A lease as the generate route creates it, before any signature. -/
def lease42 : LeaseRow :=
  ⟨42, 1, 1, LeaseStatus.generated, some "lease-1700.pdf", none, none, none, none,
    some "2025-01-01", some "2025-12-31", some "2025-01-01"⟩

/-- A state with lease 42 and its base document. -/
def world42 : World :=
  { emptyWorld with
    leases := [lease42]
    files := writeFile (fun _ => none) "lease-1700.pdf" [37, 1, 2] }

/-- The landlord signs lease 42 with a PNG image. -/
def landlordSigns : SignRequest := ⟨42, "landlord", some "\x89LAND", "http://host"⟩

/-- The tenant signs lease 42 with a PNG image sent as a data URL. -/
def tenantSigns : SignRequest :=
  ⟨42, "tenant", some "data:image/png;base64,\x89TEN", "http://host"⟩

/-- The landlord signs lease 42 with data that is not a PNG image. -/
def landlordScribbles : SignRequest := ⟨42, "landlord", some "scribble", "http://host"⟩

/-- The tenant signs lease 42 with data that is not a PNG image. -/
def tenantScribbles : SignRequest := ⟨42, "tenant", some "scrawl", "http://host"⟩

/-- The state after both parties signed lease 42 with data that is not a PNG
image. -/
def scribbledWorld : World :=
  (sign demoLibs (sign demoLibs world42 landlordScribbles).world tenantScribbles).world

/-- A state with one tenant and one property, and no lease. -/
def officeWorld : World :=
  { emptyWorld with
    properties := [⟨3, "12 Main St"⟩]
    tenants := [⟨5, "John Doe", "john@example.com"⟩]
    users := [⟨9, "Ann Lee"⟩] }

/-- The landlord uploads a document to be signed by tenant 5. -/
def sendUpload : SendRequest :=
  ⟨"landlord", 3, 5, some ("1700-77.pdf", [37, 9]), "envelope-1"⟩

/-- The state after the upload was sent: lease 1 with an envelope. -/
def sentWorld : World := (send officeWorld sendUpload).world

/-- A state in which the file queued for the envelope of lease 1 is gone. -/
def lostWorld : World :=
  { sentWorld with files := fun _ => none }

/-- The office state after tenant 5 paid for property 3. -/
def paidWorld : World :=
  { officeWorld with payments := [⟨5, 3, "Received"⟩] }

/-- The landlord asks for a lease of property 3 to tenant 5. -/
def generateLease : GenerateRequest :=
  ⟨9, "landlord", some 3, some 5, some "2025-01-01", some "2025-12-31", some "1000",
    Deposit.amount 500, 1700, true, "http://host"⟩

/-- Generate a lease in the paid office, then both parties sign lease 1 with
data that is not a PNG image. -/
def scribbledRun : List Request :=
  [Request.generate generateLease,
   Request.sign ⟨1, "landlord", some "scribble", "http://host"⟩,
   Request.sign ⟨1, "tenant", some "scrawl", "http://host"⟩]

/-- Generate a lease in the paid office, then the landlord signs lease 1 with a
PNG image. -/
def landlordOnlyRun : List Request :=
  [Request.generate generateLease,
   Request.sign ⟨1, "landlord", some "\x89LAND", "http://host"⟩]

/-- Generate a lease in the paid office, then both parties sign lease 1 with a
PNG image. -/
def bothSignedRun : List Request :=
  landlordOnlyRun ++ [Request.sign ⟨1, "tenant", some "\x89TEN", "http://host"⟩]

/-- Send a document for signature, poll the envelope until it is signed. -/
def providerSignedRun : List Request :=
  [Request.send sendUpload, Request.status ⟨1, true, "http://host"⟩]

/-- The provider flow followed by an in-app signature of the tenant. -/
def providerThenTenantRun : List Request :=
  providerSignedRun ++ [Request.sign ⟨1, "tenant", some "\x89TEN", "http://host"⟩]

/-- Lease 1 after `bothSignedRun`. -/
def bothSignedRow : LeaseRow :=
  ⟨1, 3, 5, LeaseStatus.signed, some "lease-1700.pdf", some "1-signed.pdf",
    some "signatures/1-landlord.png", some "signatures/1-tenant.png", none,
    some "2025-01-01", some "2025-12-31", some "2025-01-01"⟩

/-- The state after `bothSignedRun`. -/
def bothSignedWorld : World := run demoLibs paidWorld bothSignedRun

/-- The document with both images of lease 42 drawn on its base document. -/
def bothDrawn : PdfDoc :=
  ⟨[37, 1, 2], [792],
    [⟨[137, 76, 65, 78, 68], 72, 142, 200, 50⟩, ⟨[137, 84, 69, 78], 320, 142, 200, 50⟩]⟩

/-- The embed step of the tenant's call on lease 42 after the landlord signed. -/
def tenantEmbed : EmbedResult :=
  ⟨[Effect.readFile "lease-1700.pdf", Effect.readFile "signatures/42-landlord.png",
      Effect.drawImage "landlord" ⟨[137, 76, 65, 78, 68], 72, 142, 200, 50⟩,
      Effect.readFile "signatures/42-tenant.png",
      Effect.drawImage "tenant" ⟨[137, 84, 69, 78], 320, 142, 200, 50⟩],
    some bothDrawn⟩

/-- Lease 42 as the sign handler selects it when the landlord has signed. -/
def landlordOnlyRow : LeaseRow :=
  { lease42 with landlord_signature_path := some "signatures/42-landlord.png" }

/-- The store of lease 42 after the landlord signed. -/
def landlordOnlyFiles : Files := (sign demoLibs world42 landlordSigns).world.files

/-- The base document of lease 42 with the landlord image drawn on it. -/
def landlordDrawn : PdfDoc :=
  ⟨[37, 1, 2], [792], [⟨[137, 76, 65, 78, 68], 72, 142, 200, 50⟩]⟩

/-- The coordinator and the store after the upload of lease 1 was sent. -/
def sentCoord : CoordState := ⟨sentWorld.envelopes, sentWorld.files⟩

/-- The coordinator and the store after a poll made the envelope of lease 1
`signed`. -/
def polledCoord : CoordState :=
  coordStep sentCoord (CoordOp.checkStatus (some "envelope-1") true)

/-- A download, a `sendDocument` with a new id and a poll of the envelope of
lease 1. -/
def laterCalls : List CoordOp :=
  [CoordOp.downloadSignedDocument (some "envelope-1") "1-signed.pdf",
   CoordOp.sendDocument "envelope-2" "1700-78.pdf",
   CoordOp.checkStatus (some "envelope-1") false]

/-- The request of the landlord without the rent. -/
def generateWithoutRent : GenerateRequest := { generateLease with rent := none }

/-- The request of the landlord with a negative deposit. -/
def generateNegativeDeposit : GenerateRequest :=
  { generateLease with securityDeposit := Deposit.amount (-5) }

/-- The record generate inserts for the request of the landlord. -/
def generatedRow : LeaseRow :=
  ⟨1, 3, 5, LeaseStatus.generated, some "lease-1700.pdf", none, none, none, none,
    some "2025-01-01", some "2025-12-31", some "2025-01-01"⟩

/-- The record send inserts for the upload of the landlord. -/
def sentRow : LeaseRow :=
  ⟨1, 3, 5, LeaseStatus.sent, some "1700-77.pdf", none, none, none, some "envelope-1",
    none, none, none⟩

/-- Property 5, let to tenant 7, and the tenants 7 and 8. -/
def letEstate : Estate :=
  ⟨[⟨5, "A", "T", "900", "Occupied", some 7⟩], [⟨7, "Al", "al@x.org"⟩, ⟨8, "Bo", "bo@x.org"⟩]⟩

/-- The body of `tests/propertyUnassign.test.js`: property 5 is unassigned. -/
def unassignFive : PropertyUpdate := ⟨5, "A", "T", "1000", "Vacant", BodyTenant.null⟩

/-- The landlord and the tenant sign lease 42 at the same time: the landlord's
request is suspended at its `SELECT`, the tenant's request runs from start to
end, then the landlord's request resumes. -/
def staleRace : Race :=
  race demoLibs ⟨world42, Stage.waiting landlordSigns, Stage.waiting tenantSigns⟩
    [Turn.first, Turn.second, Turn.second, Turn.first]

/-- The report of `tests/maintenanceReport.test.js`, generated on 2025-06-01. -/
def johnsReport : Bytes :=
  generateMaintenanceReport (some (units "John Doe")) (units "2025-06-01")
    [⟨units "2025-01-01", some (units "Leaky faucet"), some (units "Pending")⟩]

/-- The landlord signs lease 42 at the URL `/42/sign`. -/
def landlordAt42 : UrlSignRequest := ⟨"42", 42, "landlord", some "\x89LAND", "http://host"⟩

/-- The landlord signs lease 42 at the URL `/042/sign`. -/
def landlordAt042 : UrlSignRequest := ⟨"042", 42, "landlord", some "\x89LAND", "http://host"⟩

/-- The tenant signs lease 42 at the URL `/042/sign`. -/
def tenantAt042 : UrlSignRequest :=
  ⟨"042", 42, "tenant", some "data:image/png;base64,\x89TEN", "http://host"⟩

/-- The landlord signs lease 42 at the URL `/042/sign` with data that is not a
PNG image. -/
def scribbleAt042 : UrlSignRequest := ⟨"042", 42, "landlord", some "scribble", "http://host"⟩

/-! ## Lemmas on the lease table -/

theorem selectLease_updateLease (rows : List LeaseRow) (id j : Nat) (f : LeaseRow → LeaseRow)
    (hf : ∀ r, (f r).id = r.id) :
    selectLease (updateLease rows id f) j
      = (selectLease rows j).map (fun r => if r.id = id then f r else r) := by
  induction rows with
  | nil => rfl
  | cons r rs ih =>
    unfold selectLease updateLease at ih ⊢
    have hg : (if r.id = id then f r else r).id = r.id := by
      split
      · exact hf r
      · rfl
    simp only [List.map_cons, List.find?_cons, hg]
    cases h : (r.id == j)
    · simpa using ih
    · simp

theorem setSignaturePath_id (role path : String) (r : LeaseRow) :
    (setSignaturePath role path r).id = r.id := by
  unfold setSignaturePath
  split <;> rfl

theorem setSignaturePath_signed_document_path (role path : String) (r : LeaseRow) :
    (setSignaturePath role path r).signed_document_path = r.signed_document_path := by
  unfold setSignaturePath
  split <;> rfl

theorem setSignaturePath_document_path (role path : String) (r : LeaseRow) :
    (setSignaturePath role path r).document_path = r.document_path := by
  unfold setSignaturePath
  split <;> rfl

theorem setSignaturePath_provider_envelope_id (role path : String) (r : LeaseRow) :
    (setSignaturePath role path r).provider_envelope_id = r.provider_envelope_id := by
  unfold setSignaturePath
  split <;> rfl

theorem selectLease_id {rows : List LeaseRow} {id : Nat} {r : LeaseRow}
    (h : selectLease rows id = some r) : r.id = id := by
  unfold selectLease at h
  have := List.find?_some h
  simpa using this

theorem truthy_eq_some {s : Option String} (h : truthy s = true) :
    ∃ v, s = some v ∧ v ≠ "" := by
  cases s with
  | none => simp [truthy] at h
  | some v => exact ⟨v, rfl, by simpa [truthy] using h⟩

/-- The row the sign handler selects after storing the signature path. -/
theorem select_after_setSignaturePath (w : World) (req : SignRequest) (r0 : LeaseRow)
    (h0 : selectLease w.leases req.id = some r0) :
    selectLease (updateLease w.leases req.id
        (setSignaturePath req.role (signaturePath req.id req.role))) req.id
      = some (setSignaturePath req.role (signaturePath req.id req.role) r0) := by
  rw [selectLease_updateLease _ _ _ _ (setSignaturePath_id _ _), h0]
  simp [selectLease_id h0]

/-- The embed step of a sign request on an existing lease. -/
theorem signEmbed_eq (L : Libs) (w : World) (req : SignRequest) (s : String) (r0 : LeaseRow)
    (hs : req.signature = some s) (hne : s ≠ "")
    (h0 : selectLease w.leases req.id = some r0) :
    signEmbed L w req = some (embedSignatures L
      (writeFile w.files (signaturePath req.id req.role) (L.base64Decode (stripDataUrl s)))
      (setSignaturePath req.role (signaturePath req.id req.role) r0)) := by
  unfold signEmbed
  simp only [hs, hne, if_false, select_after_setSignaturePath w req r0 h0]

/-- The row the sign handler leaves behind for an existing lease. -/
theorem sign_row (L : Libs) (w : World) (req : SignRequest) (s : String) (r0 : LeaseRow)
    (hs : req.signature = some s) (hne : s ≠ "")
    (h0 : selectLease w.leases req.id = some r0) :
    selectLease (sign L w req).world.leases req.id =
      some (match (embedSignatures L
              (writeFile w.files (signaturePath req.id req.role)
                (L.base64Decode (stripDataUrl s)))
              (setSignaturePath req.role (signaturePath req.id req.role) r0)).output with
        | some _ =>
          { setSignaturePath req.role (signaturePath req.id req.role) r0 with
            signed_document_path := some (signedFilename req.id),
            status := computedStatus
              (setSignaturePath req.role (signaturePath req.id req.role) r0) }
        | none =>
          { setSignaturePath req.role (signaturePath req.id req.role) r0 with
            status := computedStatus
              (setSignaturePath req.role (signaturePath req.id req.role) r0) }) := by
  have hid := selectLease_id h0
  have h1 := select_after_setSignaturePath w req r0 h0
  unfold sign
  simp only [hs, hne, if_false, h1]
  split
  · rename_i doc hd
    simp only [hd]
    rw [selectLease_updateLease, h1]
    · simp [setSignaturePath_id, hid]
    · intro r; rfl
  · rename_i hd
    simp only [hd]
    rw [selectLease_updateLease, h1]
    · simp [setSignaturePath_id, hid]
    · intro r; rfl

/-- The store the sign handler leaves behind for an existing lease. -/
theorem sign_files (L : Libs) (w : World) (req : SignRequest) (s : String) (r0 : LeaseRow)
    (hs : req.signature = some s) (hne : s ≠ "")
    (h0 : selectLease w.leases req.id = some r0) :
    (sign L w req).world.files =
      match (embedSignatures L
              (writeFile w.files (signaturePath req.id req.role)
                (L.base64Decode (stripDataUrl s)))
              (setSignaturePath req.role (signaturePath req.id req.role) r0)).output with
        | some doc =>
          writeFile (writeFile w.files (signaturePath req.id req.role)
            (L.base64Decode (stripDataUrl s))) (signedFilename req.id) (L.pdfSave doc)
        | none =>
          writeFile w.files (signaturePath req.id req.role)
            (L.base64Decode (stripDataUrl s)) := by
  have h1 := select_after_setSignaturePath w req r0 h0
  unfold sign
  simp only [hs, hne, if_false, h1]
  split <;> rename_i hd <;> simp only [hd]

theorem computedStatus_signed_iff (r : LeaseRow) :
    computedStatus r = LeaseStatus.signed ↔
      (truthy r.landlord_signature_path = true ∧ truthy r.tenant_signature_path = true) := by
  unfold computedStatus
  split <;> simp_all

theorem computedStatus_pending (r : LeaseRow)
    (h : ¬ (truthy r.landlord_signature_path = true ∧ truthy r.tenant_signature_path = true)) :
    computedStatus r = LeaseStatus.pending := by
  unfold computedStatus
  split
  · simp_all
  · rfl

/-! ## The status the sign handler persists -/

/-- C1: for every lease and every signer role, after the sign handler has
recorded a signature the persisted status is `signed` if and only if both the
landlord and the tenant signature path are present on the record, and it is
`pending` otherwise. -/
theorem sign_status_signed_iff_both_paths (L : Libs) (w : World) (req : SignRequest)
    (hsig : truthy req.signature = true)
    (hlease : (selectLease w.leases req.id).isSome = true) :
    ∃ row, selectLease (sign L w req).world.leases req.id = some row ∧
      (row.status = LeaseStatus.signed ↔
        (truthy row.landlord_signature_path = true ∧
          truthy row.tenant_signature_path = true)) ∧
      (¬ (truthy row.landlord_signature_path = true ∧
          truthy row.tenant_signature_path = true) → row.status = LeaseStatus.pending) := by
  obtain ⟨s, hs, hne⟩ := truthy_eq_some hsig
  obtain ⟨r0, h0⟩ := Option.isSome_iff_exists.mp hlease
  refine ⟨_, sign_row L w req s r0 hs hne h0, ?_, ?_⟩
  · split
    · exact computedStatus_signed_iff _
    · exact computedStatus_signed_iff _
  · split
    · exact computedStatus_pending _
    · exact computedStatus_pending _

/-- The first signature on lease 42 leaves it pending. -/
theorem sign_status_signed_iff_both_paths_witness :
    truthy landlordSigns.signature = true ∧
    (selectLease world42.leases landlordSigns.id).isSome = true ∧
    ∃ row, selectLease (sign demoLibs world42 landlordSigns).world.leases landlordSigns.id
        = some row ∧
      (row.status = LeaseStatus.signed ↔
        (truthy row.landlord_signature_path = true ∧
          truthy row.tenant_signature_path = true)) ∧
      (¬ (truthy row.landlord_signature_path = true ∧
          truthy row.tenant_signature_path = true) → row.status = LeaseStatus.pending) :=
  ⟨by decide, by decide,
    sign_status_signed_iff_both_paths demoLibs world42 landlordSigns (by decide) (by decide)⟩

/-! ## Paths -/

theorem signedFilename_ne_signaturePath (id : Nat) (role : String) :
    signedFilename id ≠ signaturePath id role := by
  intro h
  have h2 := congrArg String.length h
  unfold signedFilename signaturePath signatureFilename at h2
  simp only [String.length_append] at h2
  have e1 : ("-signed.pdf" : String).length = 11 := by decide
  have e2 : ("signatures/" : String).length = 11 := by decide
  have e3 : ("-" : String).length = 1 := by decide
  have e4 : (".png" : String).length = 4 := by decide
  omega

theorem signedFilename_ne_empty (id : Nat) : signedFilename id ≠ "" := by
  intro h
  have h2 := congrArg String.length h
  unfold signedFilename at h2
  simp only [String.length_append] at h2
  have e1 : ("-signed.pdf" : String).length = 11 := by decide
  have e2 : ("" : String).length = 0 := by decide
  omega

theorem signaturePath_ne_empty (id : Nat) (role : String) : signaturePath id role ≠ "" := by
  intro h
  have h2 := congrArg String.length h
  unfold signaturePath at h2
  simp only [String.length_append] at h2
  have e1 : ("signatures/" : String).length = 11 := by decide
  have e2 : ("" : String).length = 0 := by decide
  omega

theorem truthy_signedFilename (id : Nat) : truthy (some (signedFilename id)) = true := by
  simp [truthy, signedFilename_ne_empty]

theorem truthy_signaturePath (id : Nat) (role : String) :
    truthy (some (signaturePath id role)) = true := by
  simp [truthy, signaturePath_ne_empty]

/-! ## A failed embed -/

/-- What a sign request that reaches the embed step was given. -/
theorem signEmbed_some {L : Libs} {w : World} {req : SignRequest} {er : EmbedResult}
    (h : signEmbed L w req = some er) :
    ∃ s r0, req.signature = some s ∧ s ≠ "" ∧ selectLease w.leases req.id = some r0 ∧
      er = embedSignatures L
        (writeFile w.files (signaturePath req.id req.role) (L.base64Decode (stripDataUrl s)))
        (setSignaturePath req.role (signaturePath req.id req.role) r0) := by
  cases hs : req.signature with
  | none => simp [signEmbed, hs] at h
  | some s =>
    by_cases hne : s = ""
    · simp [signEmbed, hs, hne] at h
    · cases h0 : selectLease w.leases req.id with
      | none =>
        have : selectLease (updateLease w.leases req.id
            (setSignaturePath req.role (signaturePath req.id req.role))) req.id = none := by
          rw [selectLease_updateLease _ _ _ _ (setSignaturePath_id _ _), h0]
          rfl
        simp [signEmbed, hs, hne, this] at h
      | some r0 =>
        rw [signEmbed_eq L w req s r0 hs hne h0] at h
        exact ⟨s, r0, rfl, hne, rfl, (Option.some.inj h).symm⟩

/-- C2 (counterexample): on lease 42 both parties sign with data that is not a
PNG image; the embed step of the second call throws, and the stored status is
`signed` although `signed_document_path` is not set. -/
theorem sign_embed_failure_still_signed :
    (signEmbed demoLibs (sign demoLibs world42 landlordScribbles).world tenantScribbles).map
        (fun er => er.output) = some none ∧
    statusOf (sign demoLibs (sign demoLibs world42 landlordScribbles).world
        tenantScribbles).world 42 = some LeaseStatus.signed ∧
    (selectLease (sign demoLibs (sign demoLibs world42 landlordScribbles).world
        tenantScribbles).world.leases 42).map (fun r => r.signed_document_path)
      = some none := by
  decide

/-- C2 (amended): when the embed step of the sign handler throws, no signed
artifact is written and `signed_document_path` is left as it was, while the
status is still persisted from the signature paths alone: it is `signed`
exactly when both signature paths are present on the record. -/
theorem sign_embed_failure_keeps_signed_path (L : Libs) (w : World) (req : SignRequest)
    (er : EmbedResult) (hembed : signEmbed L w req = some er) (hfail : er.output = none) :
    ∃ r0 row, selectLease w.leases req.id = some r0 ∧
      selectLease (sign L w req).world.leases req.id = some row ∧
      row.signed_document_path = r0.signed_document_path ∧
      (row.status = LeaseStatus.signed ↔
        (truthy row.landlord_signature_path = true ∧
          truthy row.tenant_signature_path = true)) ∧
      (sign L w req).world.files (signedFilename req.id) = w.files (signedFilename req.id) := by
  obtain ⟨s, r0, hs, hne, h0, rfl⟩ := signEmbed_some hembed
  refine ⟨r0, _, h0, sign_row L w req s r0 hs hne h0, ?_, ?_, ?_⟩
  · simp only [hfail]
    exact setSignaturePath_signed_document_path _ _ _
  · simp only [hfail]
    exact computedStatus_signed_iff _
  · rw [sign_files L w req s r0 hs hne h0, hfail]
    simp [writeFile, signedFilename_ne_signaturePath]

/-- The second scribbled signature on lease 42: the embed step throws and the
status becomes `signed` with no signed artifact. -/
theorem sign_embed_failure_keeps_signed_path_witness :
    signEmbed demoLibs (sign demoLibs world42 landlordScribbles).world tenantScribbles
      = some ⟨[Effect.readFile "lease-1700.pdf", Effect.readFile "signatures/42-landlord.png"],
          none⟩ ∧
    ∃ r0 row,
      selectLease (sign demoLibs world42 landlordScribbles).world.leases tenantScribbles.id
        = some r0 ∧
      selectLease (sign demoLibs (sign demoLibs world42 landlordScribbles).world
        tenantScribbles).world.leases tenantScribbles.id = some row ∧
      row.signed_document_path = r0.signed_document_path ∧
      (row.status = LeaseStatus.signed ↔
        (truthy row.landlord_signature_path = true ∧
          truthy row.tenant_signature_path = true)) ∧
      (sign demoLibs (sign demoLibs world42 landlordScribbles).world
          tenantScribbles).world.files (signedFilename tenantScribbles.id)
        = (sign demoLibs world42 landlordScribbles).world.files
            (signedFilename tenantScribbles.id) :=
  ⟨by rfl,
    sign_embed_failure_keeps_signed_path demoLibs
      (sign demoLibs world42 landlordScribbles).world tenantScribbles _ (by rfl) rfl⟩

/-! ## The status handler -/

/-- C4 (counterexample): after both parties signed lease 42 with data that is
not a PNG image, the status handler answers `signed` with no signed URL while
`signed_document_path` is not set. -/
theorem getStatus_reports_signed_without_artifact :
    (getStatus scribbledWorld ⟨42, false, "http://host"⟩).response
      = Response.status LeaseStatus.signed none ∧
    (selectLease (getStatus scribbledWorld ⟨42, false, "http://host"⟩).world.leases 42).map
      (fun r => r.signed_document_path) = some none := by
  decide

/-- C4 (amended): the status handler answers `signed` only if the stored status
was already `signed` before the call, which it then repeats without looking at
the artifact, or if the poll reported `signed` and the download succeeded; in
the latter case the record is `signed`, its `signed_document_path` is
`<id>-signed.pdf` and that file is in the store when the response is sent. -/
theorem getStatus_signed_only_if (w : World) (req : StatusRequest) (url : Option String)
    (h : (getStatus w req).response = Response.status LeaseStatus.signed url) :
    ∃ lease, selectLease w.leases req.id = some lease ∧
      (lease.status = LeaseStatus.signed ∨
        ∃ row, selectLease (getStatus w req).world.leases req.id = some row ∧
          row.status = LeaseStatus.signed ∧
          row.signed_document_path = some (signedFilename req.id) ∧
          ((getStatus w req).world.files (signedFilename req.id)).isSome = true) := by
  cases h0 : selectLease w.leases req.id with
  | none => simp [getStatus, h0] at h
  | some lease =>
    refine ⟨lease, rfl, ?_⟩
    have hid := selectLease_id h0
    by_cases hs : lease.status = LeaseStatus.signed
    · exact Or.inl hs
    · right
      unfold getStatus at h ⊢
      simp only [h0, ne_eq, hs, not_false_eq_true, if_true] at h ⊢
      by_cases hp : (checkStatus w.envelopes lease.provider_envelope_id req.draw).2
          = PollStatus.signed
      · simp only [hp, if_true] at h ⊢
        cases hd : downloadSignedDocument
            (checkStatus w.envelopes lease.provider_envelope_id req.draw).1 w.files
            lease.provider_envelope_id (signedFilename lease.id) with
        | none => simp [hd] at h
        | some files1 =>
          simp only [hd]
          rw [selectLease_updateLease, h0]
          · refine ⟨_, rfl, ?_, ?_, ?_⟩
            · simp
            · simp [hid]
            · unfold downloadSignedDocument at hd
              split at hd
              · exact absurd hd (by simp)
              · split at hd
                · exact absurd hd (by simp)
                · split at hd
                  · exact absurd hd (by simp)
                  · rw [← Option.some.inj hd, ← hid]
                    simp [writeFile]
          · intro r; rfl
      · simp only [hp, if_false] at h
        simp only [Response.status.injEq] at h
        exact absurd h.1 hs

/-- The poll of the envelope of lease 1 reports `signed`, the document is
downloaded and the handler answers `signed`. -/
theorem getStatus_signed_only_if_witness :
    (getStatus sentWorld ⟨1, true, "http://host"⟩).response
      = Response.status LeaseStatus.signed (some "http://host/uploads/leases/1-signed.pdf") ∧
    ∃ lease, selectLease sentWorld.leases 1 = some lease ∧
      (lease.status = LeaseStatus.signed ∨
        ∃ row, selectLease (getStatus sentWorld ⟨1, true, "http://host"⟩).world.leases 1
            = some row ∧
          row.status = LeaseStatus.signed ∧
          row.signed_document_path = some (signedFilename 1) ∧
          ((getStatus sentWorld ⟨1, true, "http://host"⟩).world.files
            (signedFilename 1)).isSome = true) :=
  ⟨by decide,
    getStatus_signed_only_if sentWorld ⟨1, true, "http://host"⟩
      (some "http://host/uploads/leases/1-signed.pdf") (by decide)⟩

/-- The status handler when the poll reports `signed` and the download
succeeds. -/
theorem getStatus_eq_committed (w : World) (req : StatusRequest) (lease : LeaseRow)
    (files1 : Files)
    (hlease : selectLease w.leases req.id = some lease)
    (hns : lease.status ≠ LeaseStatus.signed)
    (hpoll : (checkStatus w.envelopes lease.provider_envelope_id req.draw).2
      = PollStatus.signed)
    (hd : downloadSignedDocument
      (checkStatus w.envelopes lease.provider_envelope_id req.draw).1
      w.files lease.provider_envelope_id (signedFilename req.id) = some files1) :
    getStatus w req =
      ⟨{ w with
          envelopes := (checkStatus w.envelopes lease.provider_envelope_id req.draw).1
          files := files1
          leases := updateLease w.leases req.id
            (fun r => { r with status := LeaseStatus.signed,
                               signed_document_path := some (signedFilename req.id) }) },
        Response.status LeaseStatus.signed
          (signedUrl req.baseUrl (some (signedFilename req.id))),
        [Effect.dbQuery "leases", Effect.checkStatus lease.provider_envelope_id,
         Effect.copyFile ((getEnvelope
             (checkStatus w.envelopes lease.provider_envelope_id req.draw).1
             lease.provider_envelope_id).map (fun i => i.filePath) |>.getD "")
           (signedFilename req.id),
         Effect.updateLease req.id]⟩ := by
  have hid := selectLease_id hlease
  unfold getStatus
  simp only [hlease, ne_eq, hns, not_false_eq_true, if_true, hpoll, hid, hd]
  rfl

/-- The status handler when the poll reports `signed` and the download
throws. -/
theorem getStatus_eq_failed (w : World) (req : StatusRequest) (lease : LeaseRow)
    (hlease : selectLease w.leases req.id = some lease)
    (hns : lease.status ≠ LeaseStatus.signed)
    (hpoll : (checkStatus w.envelopes lease.provider_envelope_id req.draw).2
      = PollStatus.signed)
    (hd : downloadSignedDocument
      (checkStatus w.envelopes lease.provider_envelope_id req.draw).1
      w.files lease.provider_envelope_id (signedFilename req.id) = none) :
    getStatus w req =
      ⟨{ w with
          envelopes := (checkStatus w.envelopes lease.provider_envelope_id req.draw).1 },
        Response.error 500 "Failed to get status",
        [Effect.dbQuery "leases", Effect.checkStatus lease.provider_envelope_id]⟩ := by
  have hid := selectLease_id hlease
  unfold getStatus
  simp only [hlease, ne_eq, hns, not_false_eq_true, if_true, hpoll, hid, hd]

/-- A successful download copies an existing file of a known envelope. -/
theorem downloadSignedDocument_some {envs : Envelopes} {files files1 : Files}
    {envelopeId : Option String} {dest : String}
    (hd : downloadSignedDocument envs files envelopeId dest = some files1) :
    ∃ info data, getEnvelope envs envelopeId = some info ∧
      files info.filePath = some data ∧ files1 = writeFile files dest data := by
  unfold downloadSignedDocument at hd
  cases hg : getEnvelope envs envelopeId with
  | none => simp [hg] at hd
  | some info =>
    simp only [hg] at hd
    split at hd
    · exact absurd hd (by simp)
    · cases hf : files info.filePath with
      | none => simp [hf] at hd
      | some data =>
        simp only [hf, Option.some.injEq] at hd
        exact ⟨info, data, rfl, hf, hd.symm⟩

/-- C5: when the poll of a lease that is not yet signed reports `signed`, the
status handler copies the final document to `<leaseId>-signed.pdf` before it
updates the record; when the download throws, the request fails with status
500, no update is made, and the lease table and the store are as before. -/
theorem getStatus_download_then_commit (w : World) (req : StatusRequest) (lease : LeaseRow)
    (hlease : selectLease w.leases req.id = some lease)
    (hns : lease.status ≠ LeaseStatus.signed)
    (hpoll : (checkStatus w.envelopes lease.provider_envelope_id req.draw).2
      = PollStatus.signed) :
    (∀ files1,
      downloadSignedDocument (checkStatus w.envelopes lease.provider_envelope_id req.draw).1
        w.files lease.provider_envelope_id (signedFilename req.id) = some files1 →
      ∃ info,
        getEnvelope (checkStatus w.envelopes lease.provider_envelope_id req.draw).1
          lease.provider_envelope_id = some info ∧
        (getStatus w req).trace =
          [Effect.dbQuery "leases", Effect.checkStatus lease.provider_envelope_id,
           Effect.copyFile info.filePath (signedFilename req.id),
           Effect.updateLease req.id] ∧
        (w.files info.filePath).isSome = true ∧
        (getStatus w req).world.files (signedFilename req.id) = w.files info.filePath ∧
        selectLease (getStatus w req).world.leases req.id =
          some { lease with status := LeaseStatus.signed,
                            signed_document_path := some (signedFilename req.id) }) ∧
    (downloadSignedDocument (checkStatus w.envelopes lease.provider_envelope_id req.draw).1
        w.files lease.provider_envelope_id (signedFilename req.id) = none →
      (getStatus w req).response = Response.error 500 "Failed to get status" ∧
      (getStatus w req).world.leases = w.leases ∧
      (getStatus w req).world.files = w.files ∧
      selectLease (getStatus w req).world.leases req.id = some lease ∧
      Effect.updateLease req.id ∉ (getStatus w req).trace) := by
  constructor
  · intro files1 hd
    obtain ⟨info, data, hg, hf, hfiles⟩ := downloadSignedDocument_some hd
    rw [getStatus_eq_committed w req lease files1 hlease hns hpoll hd]
    refine ⟨info, hg, ?_, ?_, ?_, ?_⟩
    · simp [hg]
    · simp [hf]
    · show files1 (signedFilename req.id) = _
      rw [hfiles, hf]
      simp [writeFile]
    · show selectLease (updateLease _ _ _) _ = _
      rw [selectLease_updateLease _ _ _ _ (by intro r; rfl), hlease]
      simp [selectLease_id hlease]
  · intro hd
    rw [getStatus_eq_failed w req lease hlease hns hpoll hd]
    refine ⟨rfl, rfl, rfl, hlease, ?_⟩
    simp

/-- Lease 1: with the queued file in place the poll is followed by the copy and
then the update; with the file gone the request fails and lease 1 is still
`sent`. -/
theorem getStatus_download_then_commit_witness :
    (getStatus sentWorld ⟨1, true, "http://host"⟩).trace =
      [Effect.dbQuery "leases", Effect.checkStatus (some "envelope-1"),
       Effect.copyFile "1700-77.pdf" "1-signed.pdf", Effect.updateLease 1] ∧
    (getStatus lostWorld ⟨1, true, "http://host"⟩).response
      = Response.error 500 "Failed to get status" ∧
    statusOf (getStatus lostWorld ⟨1, true, "http://host"⟩).world 1
      = some LeaseStatus.sent ∧
    ((∀ files1,
      downloadSignedDocument
        (checkStatus lostWorld.envelopes (some "envelope-1") true).1
        lostWorld.files (some "envelope-1") (signedFilename 1) = some files1 →
      ∃ info,
        getEnvelope (checkStatus lostWorld.envelopes (some "envelope-1") true).1
          (some "envelope-1") = some info ∧
        (getStatus lostWorld ⟨1, true, "http://host"⟩).trace =
          [Effect.dbQuery "leases", Effect.checkStatus (some "envelope-1"),
           Effect.copyFile info.filePath (signedFilename 1),
           Effect.updateLease 1] ∧
        (lostWorld.files info.filePath).isSome = true ∧
        (getStatus lostWorld ⟨1, true, "http://host"⟩).world.files (signedFilename 1)
          = lostWorld.files info.filePath ∧
        selectLease (getStatus lostWorld ⟨1, true, "http://host"⟩).world.leases 1 =
          some { (⟨1, 3, 5, LeaseStatus.sent, some "1700-77.pdf", none, none, none,
                    some "envelope-1", none, none, none⟩ : LeaseRow) with
                  status := LeaseStatus.signed,
                  signed_document_path := some (signedFilename 1) }) ∧
    (downloadSignedDocument (checkStatus lostWorld.envelopes (some "envelope-1") true).1
        lostWorld.files (some "envelope-1") (signedFilename 1) = none →
      (getStatus lostWorld ⟨1, true, "http://host"⟩).response
        = Response.error 500 "Failed to get status" ∧
      (getStatus lostWorld ⟨1, true, "http://host"⟩).world.leases = lostWorld.leases ∧
      (getStatus lostWorld ⟨1, true, "http://host"⟩).world.files = lostWorld.files ∧
      selectLease (getStatus lostWorld ⟨1, true, "http://host"⟩).world.leases 1 =
        some ⟨1, 3, 5, LeaseStatus.sent, some "1700-77.pdf", none, none, none,
          some "envelope-1", none, none, none⟩ ∧
      Effect.updateLease 1 ∉ (getStatus lostWorld ⟨1, true, "http://host"⟩).trace)) :=
  ⟨by decide, by decide, by decide,
    getStatus_download_then_commit lostWorld ⟨1, true, "http://host"⟩
      ⟨1, 3, 5, LeaseStatus.sent, some "1700-77.pdf", none, none, none,
        some "envelope-1", none, none, none⟩ (by decide) (by decide) (by decide)⟩

/-! ## The generate handler -/

/-- C7: for a landlord request with valid fields whose property and tenant
exist, generate fails, creates no lease record and writes no document when
the tenant has no `Received` payment for the property; with at least one such
payment and a successful rendering it answers with the new lease, stores the
document and inserts the record. -/
theorem generate_gated_on_received_payment (L : Libs) (w : World) (req : GenerateRequest)
    (p t : Nat) (prop : PropertyRow) (tenant : TenantRow)
    (hrole : req.userRole = "landlord")
    (hp : req.propertyId = some p) (hp0 : p ≠ 0)
    (ht : req.tenantId = some t) (ht0 : t ≠ 0)
    (hstart : truthy req.startDate = true) (hend : truthy req.endDate = true)
    (hrent : truthy req.rent = true)
    (hdep : ∃ v, normalizedDeposit req.securityDeposit = some v ∧ 0 ≤ v)
    (hprop : w.properties.find? (fun x => x.id == p) = some prop)
    (hten : w.tenants.find? (fun x => x.id == t) = some tenant) :
    (paymentCount w.payments t p = 0 →
      (generate L w req).response = Response.error 400
        "Cannot generate lease before receiving a payment from this tenant" ∧
      (generate L w req).world.leases = w.leases ∧
      (generate L w req).world.files = w.files ∧
      (∀ e ∈ (generate L w req).trace, ∃ table, e = Effect.dbQuery table)) ∧
    (1 ≤ paymentCount w.payments t p → req.streamOk = true →
      (generate L w req).response = Response.generated (nextLeaseId w.leases)
        LeaseStatus.generated (req.baseUrl ++ "/uploads/leases/" ++ leaseFilename req.now) ∧
      (∃ row, (generate L w req).world.leases = w.leases ++ [row] ∧
        row.id = nextLeaseId w.leases ∧ row.property_id = p ∧ row.tenant_id = t ∧
        row.status = LeaseStatus.generated ∧
        row.document_path = some (leaseFilename req.now)) ∧
      ((generate L w req).world.files (leaseFilename req.now)).isSome = true) := by
  obtain ⟨v, hv, hv0⟩ := hdep
  have hf : (falsyNat req.propertyId || falsyNat req.tenantId || !truthy req.startDate
      || !truthy req.endDate || !truthy req.rent) = false := by
    simp [hp, ht, hstart, hend, hrent, falsyNat, hp0, ht0]
  constructor
  · intro hc
    unfold generate
    rw [if_neg (by simp [hrole]), if_neg (by rw [hf]; simp)]
    simp only [hv, not_lt.mpr hv0, hp, ht, Option.getD_some, hprop, hten, hc, if_true,
      if_false]
    simp
  · intro hc hok
    have hc0 : ¬ paymentCount w.payments t p = 0 := by omega
    unfold generate
    rw [if_neg (by simp [hrole]), if_neg (by rw [hf]; simp)]
    simp only [hv, not_lt.mpr hv0, hp, ht, Option.getD_some, hprop, hten, hc0, if_false,
      LeaseGenerator.generate, hok, if_true]
    simp [writeFile]

/-- Tenant 5 and property 3: without a payment the request is refused and
nothing is stored; after one `Received` payment the lease is generated. -/
theorem generate_gated_on_received_payment_witness :
    (paymentCount officeWorld.payments 5 3 = 0 ∧
      (generate demoLibs officeWorld generateLease).response = Response.error 400
        "Cannot generate lease before receiving a payment from this tenant" ∧
      (generate demoLibs officeWorld generateLease).world.leases = []) ∧
    (paymentCount paidWorld.payments 5 3 = 1 ∧
      (generate demoLibs paidWorld generateLease).response = Response.generated 1
        LeaseStatus.generated "http://host/uploads/leases/lease-1700.pdf") :=
  ⟨⟨by decide,
    ((generate_gated_on_received_payment demoLibs officeWorld generateLease 3 5
        ⟨3, "12 Main St"⟩ ⟨5, "John Doe", "john@example.com"⟩ rfl rfl (by decide) rfl
        (by decide) (by decide) (by decide) (by decide) ⟨500, rfl, by decide⟩
        (by decide) (by decide)).1 (by decide)).1,
    ((generate_gated_on_received_payment demoLibs officeWorld generateLease 3 5
        ⟨3, "12 Main St"⟩ ⟨5, "John Doe", "john@example.com"⟩ rfl rfl (by decide) rfl
        (by decide) (by decide) (by decide) (by decide) ⟨500, rfl, by decide⟩
        (by decide) (by decide)).1 (by decide)).2.1⟩,
   ⟨by decide,
    ((generate_gated_on_received_payment demoLibs paidWorld generateLease 3 5
        ⟨3, "12 Main St"⟩ ⟨5, "John Doe", "john@example.com"⟩ rfl rfl (by decide) rfl
        (by decide) (by decide) (by decide) (by decide) ⟨500, rfl, by decide⟩
        (by decide) (by decide)).2 (by decide) rfl).1⟩⟩

/-! ## What one request does to a lease record -/

theorem selectLease_updateLease_ne (rows : List LeaseRow) (id j : Nat) (f : LeaseRow → LeaseRow)
    (hf : ∀ r, (f r).id = r.id) (hj : j ≠ id) :
    selectLease (updateLease rows id f) j = selectLease rows j := by
  rw [selectLease_updateLease _ _ _ _ hf]
  cases h : selectLease rows j with
  | none => rfl
  | some r =>
    have := selectLease_id h
    simp [this, hj]

theorem selectLease_updateLease_none (rows : List LeaseRow) (id : Nat) (f : LeaseRow → LeaseRow)
    (hf : ∀ r, (f r).id = r.id) (h : selectLease rows id = none) (j : Nat) :
    selectLease (updateLease rows id f) j = selectLease rows j := by
  by_cases hj : j = id
  · subst hj
    rw [selectLease_updateLease _ _ _ _ hf, h]
    rfl
  · exact selectLease_updateLease_ne rows id j f hf hj

theorem selectLease_append_single {rows : List LeaseRow} {row r : LeaseRow} {j : Nat}
    (h : selectLease (rows ++ [row]) j = some r) :
    selectLease rows j = some r ∨ (selectLease rows j = none ∧ r = row) := by
  unfold selectLease at h ⊢
  rw [List.find?_append] at h
  cases h1 : List.find? (fun r => r.id == j) rows with
  | some r1 =>
    rw [h1] at h
    exact Or.inl h
  | none =>
    rw [h1] at h
    right
    refine ⟨rfl, ?_⟩
    simp only [Option.none_or, List.find?_cons] at h
    split at h
    · exact (Option.some.inj h).symm
    · simp at h

theorem writeFile_isSome (files : Files) (q : String) (d : Bytes) (p : String)
    (h : (files p).isSome = true) : (writeFile files q d p).isSome = true := by
  unfold writeFile
  split
  · rfl
  · exact h

/-- The sign handler on a request without signature. -/
theorem sign_eq_invalid (L : Libs) (w : World) (req : SignRequest)
    (h : truthy req.signature = false) :
    sign L w req = ⟨w, Response.error 400 "Signature is required", []⟩ := by
  unfold sign
  cases hs : req.signature with
  | none => rfl
  | some s =>
    have : s = "" := by simpa [truthy, hs] using h
    simp [this]

/-- The sign handler on a lease that does not exist. -/
theorem sign_eq_missing (L : Libs) (w : World) (req : SignRequest) (s : String)
    (hs : req.signature = some s) (hne : s ≠ "")
    (h0 : selectLease w.leases req.id = none) :
    sign L w req =
      ⟨{ w with
          files := writeFile w.files (signaturePath req.id req.role)
            (L.base64Decode (stripDataUrl s))
          leases := updateLease w.leases req.id
            (setSignaturePath req.role (signaturePath req.id req.role)) },
        Response.error 500 "Failed to save signature",
        [Effect.writeFile (signaturePath req.id req.role) (L.base64Decode (stripDataUrl s)),
         Effect.updateLease req.id, Effect.dbQuery "leases"]⟩ := by
  have h1 : selectLease (updateLease w.leases req.id
      (setSignaturePath req.role (signaturePath req.id req.role))) req.id = none := by
    rw [selectLease_updateLease _ _ _ _ (setSignaturePath_id _ _), h0]
    rfl
  unfold sign
  simp only [hs, hne, if_false, h1]

/-- The state the sign handler leaves behind for an existing lease. -/
theorem sign_world_found (L : Libs) (w : World) (req : SignRequest) (s : String)
    (r0 : LeaseRow) (hs : req.signature = some s) (hne : s ≠ "")
    (h0 : selectLease w.leases req.id = some r0) :
    (sign L w req).world =
      match (embedSignatures L
              (writeFile w.files (signaturePath req.id req.role)
                (L.base64Decode (stripDataUrl s)))
              (setSignaturePath req.role (signaturePath req.id req.role) r0)).output with
      | some doc =>
        { w with
          files := writeFile (writeFile w.files (signaturePath req.id req.role)
            (L.base64Decode (stripDataUrl s))) (signedFilename req.id) (L.pdfSave doc)
          leases := updateLease (updateLease w.leases req.id
              (setSignaturePath req.role (signaturePath req.id req.role))) req.id
            (fun r => { r with
              signed_document_path := some (signedFilename req.id),
              status := computedStatus
                (setSignaturePath req.role (signaturePath req.id req.role) r0) }) }
      | none =>
        { w with
          files := writeFile w.files (signaturePath req.id req.role)
            (L.base64Decode (stripDataUrl s))
          leases := updateLease (updateLease w.leases req.id
              (setSignaturePath req.role (signaturePath req.id req.role))) req.id
            (fun r => { r with
              status := computedStatus
                (setSignaturePath req.role (signaturePath req.id req.role) r0) }) } := by
  have h1 := select_after_setSignaturePath w req r0 h0
  unfold sign
  simp only [hs, hne, if_false, h1]
  split <;> rename_i hd <;> simp only [hd]

theorem sign_select_ne (L : Libs) (w : World) (req : SignRequest) (j : Nat) (hj : j ≠ req.id) :
    selectLease (sign L w req).world.leases j = selectLease w.leases j := by
  by_cases hv : truthy req.signature = true
  · obtain ⟨s, hs, hne⟩ := truthy_eq_some hv
    cases h0 : selectLease w.leases req.id with
    | none =>
      rw [sign_eq_missing L w req s hs hne h0]
      exact selectLease_updateLease_ne _ _ _ _ (setSignaturePath_id _ _) hj
    | some r0 =>
      rw [sign_world_found L w req s r0 hs hne h0]
      split
      · exact (selectLease_updateLease_ne _ _ _ _ (by intro r; rfl) hj).trans
          (selectLease_updateLease_ne _ _ _ _ (setSignaturePath_id _ _) hj)
      · exact (selectLease_updateLease_ne _ _ _ _ (by intro r; rfl) hj).trans
          (selectLease_updateLease_ne _ _ _ _ (setSignaturePath_id _ _) hj)
  · rw [sign_eq_invalid L w req (by simpa using hv)]

theorem sign_select_missing (L : Libs) (w : World) (req : SignRequest)
    (h : selectLease w.leases req.id = none) :
    selectLease (sign L w req).world.leases req.id = none := by
  by_cases hv : truthy req.signature = true
  · obtain ⟨s, hs, hne⟩ := truthy_eq_some hv
    rw [sign_eq_missing L w req s hs hne h]
    show selectLease (updateLease _ _ _) _ = _
    rw [selectLease_updateLease _ _ _ _ (setSignaturePath_id _ _), h]
    rfl
  · rw [sign_eq_invalid L w req (by simpa using hv)]
    exact h

theorem sign_files_isSome (L : Libs) (w : World) (req : SignRequest) (p : String)
    (h : (w.files p).isSome = true) : ((sign L w req).world.files p).isSome = true := by
  by_cases hv : truthy req.signature = true
  · obtain ⟨s, hs, hne⟩ := truthy_eq_some hv
    cases h0 : selectLease w.leases req.id with
    | none =>
      rw [sign_eq_missing L w req s hs hne h0]
      exact writeFile_isSome _ _ _ _ h
    | some r0 =>
      rw [sign_world_found L w req s r0 hs hne h0]
      split
      · exact writeFile_isSome _ _ _ _ (writeFile_isSome _ _ _ _ h)
      · exact writeFile_isSome _ _ _ _ h
  · rw [sign_eq_invalid L w req (by simpa using hv)]
    exact h

/-- A file the sign handler does not write is left as it was. -/
theorem sign_files_other (L : Libs) (w : World) (req : SignRequest) (p : String)
    (h1 : p ≠ signaturePath req.id req.role) (h2 : p ≠ signedFilename req.id) :
    (sign L w req).world.files p = w.files p := by
  by_cases hv : truthy req.signature = true
  · obtain ⟨s, hs, hne⟩ := truthy_eq_some hv
    cases h0 : selectLease w.leases req.id with
    | none =>
      rw [sign_eq_missing L w req s hs hne h0]
      simp [writeFile, h1]
    | some r0 =>
      rw [sign_world_found L w req s r0 hs hne h0]
      split <;> simp [writeFile, h1, h2]
  · rw [sign_eq_invalid L w req (by simpa using hv)]

theorem setSignaturePath_truthy_landlord (role path : String) (r : LeaseRow)
    (hp : truthy (some path) = true) (h : truthy r.landlord_signature_path = true) :
    truthy (setSignaturePath role path r).landlord_signature_path = true := by
  unfold setSignaturePath
  split
  · exact hp
  · exact h

theorem setSignaturePath_truthy_tenant (role path : String) (r : LeaseRow)
    (hp : truthy (some path) = true) (h : truthy r.tenant_signature_path = true) :
    truthy (setSignaturePath role path r).tenant_signature_path = true := by
  unfold setSignaturePath
  split
  · exact h
  · exact hp

/-- What the sign handler does to the record of a lease: nothing, or it
records the signature path, stores the status computed from the two paths and,
when the embed succeeded, points `signed_document_path` to the artifact it
wrote. -/
theorem sign_spec (L : Libs) (w : World) (req : SignRequest) (j : Nat) :
    selectLease (sign L w req).world.leases j = selectLease w.leases j ∨
    (j = req.id ∧ ∃ r0 row, selectLease w.leases j = some r0 ∧
      selectLease (sign L w req).world.leases j = some row ∧
      row.status = computedStatus row ∧
      (truthy r0.landlord_signature_path = true →
        truthy row.landlord_signature_path = true) ∧
      (truthy r0.tenant_signature_path = true →
        truthy row.tenant_signature_path = true) ∧
      row.provider_envelope_id = r0.provider_envelope_id ∧
      row.document_path = r0.document_path ∧
      (row.signed_document_path = r0.signed_document_path ∨
        (row.signed_document_path = some (signedFilename j) ∧
          ((sign L w req).world.files (signedFilename j)).isSome = true))) := by
  by_cases hj : j = req.id
  · subst hj
    by_cases hv : truthy req.signature = true
    · obtain ⟨s, hs, hne⟩ := truthy_eq_some hv
      cases h0 : selectLease w.leases req.id with
      | none => exact Or.inl (sign_select_missing L w req h0)
      | some r0 =>
        right
        refine ⟨rfl, r0, _, rfl, sign_row L w req s r0 hs hne h0, ?_⟩
        rw [sign_files L w req s r0 hs hne h0]
        cases (embedSignatures L
              (writeFile w.files (signaturePath req.id req.role)
                (L.base64Decode (stripDataUrl s)))
              (setSignaturePath req.role (signaturePath req.id req.role) r0)).output with
        | none =>
          refine ⟨rfl, setSignaturePath_truthy_landlord _ _ _ (truthy_signaturePath _ _),
            setSignaturePath_truthy_tenant _ _ _ (truthy_signaturePath _ _),
            setSignaturePath_provider_envelope_id _ _ _, setSignaturePath_document_path _ _ _,
            Or.inl (setSignaturePath_signed_document_path _ _ _)⟩
        | some doc =>
          refine ⟨rfl, setSignaturePath_truthy_landlord _ _ _ (truthy_signaturePath _ _),
            setSignaturePath_truthy_tenant _ _ _ (truthy_signaturePath _ _),
            setSignaturePath_provider_envelope_id _ _ _, setSignaturePath_document_path _ _ _,
            Or.inr ⟨rfl, ?_⟩⟩
          simp [writeFile]
    · left
      rw [sign_eq_invalid L w req (by simpa using hv)]
  · exact Or.inl (sign_select_ne L w req j hj)

/-- What the status handler does to the record of a lease: nothing, or, for a
lease with an envelope that was not yet signed, it stores `signed` together
with the path of the document it downloaded. -/
theorem getStatus_spec (w : World) (req : StatusRequest) (j : Nat) :
    selectLease (getStatus w req).world.leases j = selectLease w.leases j ∨
    (j = req.id ∧ ∃ lease, selectLease w.leases j = some lease ∧
      lease.status ≠ LeaseStatus.signed ∧ lease.provider_envelope_id ≠ none ∧
      selectLease (getStatus w req).world.leases j =
        some { lease with status := LeaseStatus.signed,
                          signed_document_path := some (signedFilename j) } ∧
      ((getStatus w req).world.files (signedFilename j)).isSome = true) := by
  cases h0 : selectLease w.leases req.id with
  | none =>
    left
    simp [getStatus, h0]
  | some lease =>
    have hid := selectLease_id h0
    by_cases hs : lease.status = LeaseStatus.signed
    · left
      simp [getStatus, h0, hs]
    · by_cases hp : (checkStatus w.envelopes lease.provider_envelope_id req.draw).2
          = PollStatus.signed
      · cases hd : downloadSignedDocument
            (checkStatus w.envelopes lease.provider_envelope_id req.draw).1 w.files
            lease.provider_envelope_id (signedFilename req.id) with
        | none =>
          left
          rw [getStatus_eq_failed w req lease h0 hs hp hd]
        | some files1 =>
          obtain ⟨info, data, hg, hf, hfiles⟩ := downloadSignedDocument_some hd
          rw [getStatus_eq_committed w req lease files1 h0 hs hp hd]
          by_cases hj : j = req.id
          · right
            subst hj
            refine ⟨rfl, lease, h0, hs, ?_, ?_, ?_⟩
            · intro hn
              simp [hn, getEnvelope] at hg
            · show selectLease (updateLease _ _ _) _ = _
              rw [selectLease_updateLease _ _ _ _ (by intro r; rfl), h0]
              simp [hid]
            · show (files1 (signedFilename req.id)).isSome = true
              rw [hfiles]
              simp [writeFile]
          · left
            exact selectLease_updateLease_ne _ _ _ _ (by intro r; rfl) hj
      · left
        simp [getStatus, h0, hs, hp]

theorem getStatus_files_isSome (w : World) (req : StatusRequest) (p : String)
    (h : (w.files p).isSome = true) : ((getStatus w req).world.files p).isSome = true := by
  unfold getStatus
  split
  · exact h
  · split
    · dsimp only
      split
      · split
        · exact h
        · rename_i files1 hd
          unfold downloadSignedDocument at hd
          split at hd
          · exact absurd hd (by simp)
          · split at hd
            · exact absurd hd (by simp)
            · split at hd
              · exact absurd hd (by simp)
              · rw [← Option.some.inj hd]
                exact writeFile_isSome _ _ _ _ h
      · exact h
    · exact h

/-- What the generate handler does to the lease table and the store: nothing,
or it appends a `generated` record without signed path and writes a file. -/
theorem generate_spec (L : Libs) (w : World) (req : GenerateRequest) :
    ((generate L w req).world = w) ∨
    (∃ row data path, (generate L w req).world.leases = w.leases ++ [row] ∧
      (generate L w req).world.files = writeFile w.files path data ∧
      row.status = LeaseStatus.generated ∧ row.signed_document_path = none) := by
  unfold generate
  split
  · exact Or.inl rfl
  · split
    · exact Or.inl rfl
    · split
      · exact Or.inl rfl
      · split
        · exact Or.inl rfl
        · try dsimp only
          split
          · exact Or.inl rfl
          · split
            · exact Or.inl rfl
            · split
              · exact Or.inl rfl
              · try dsimp only
                split
                · exact Or.inl rfl
                · rename_i files1 hg
                  right
                  unfold LeaseGenerator.generate at hg
                  split at hg
                  · exact ⟨_, _, _, rfl, (Option.some.inj hg).symm, rfl, rfl⟩
                  · exact absurd hg (by simp)

/-- What the send handler does to the lease table and the store: nothing to
the table, or it appends a `sent` record without signed path; the store gains
at most the uploaded file. -/
theorem send_spec (w : World) (req : SendRequest) :
    ((send w req).world.leases = w.leases ∨
      ∃ row, (send w req).world.leases = w.leases ++ [row] ∧
        row.status = LeaseStatus.sent ∧ row.signed_document_path = none) ∧
    ((send w req).world.files = w.files ∨
      ∃ path data, (send w req).world.files = writeFile w.files path data) := by
  unfold send
  split
  · exact ⟨Or.inl rfl, Or.inl rfl⟩
  · split
    · exact ⟨Or.inl rfl, Or.inl rfl⟩
    · try dsimp only
      split
      · exact ⟨Or.inl rfl, Or.inr ⟨_, _, rfl⟩⟩
      · exact ⟨Or.inr ⟨_, rfl, rfl, rfl⟩, Or.inr ⟨_, _, rfl⟩⟩

/-! ## The invariant of the lifecycle -/

theorem namesArtifact_mono {files files1 : Files} (p : Option String)
    (hmono : ∀ q, (files q).isSome = true → (files1 q).isSome = true)
    (h : namesArtifact files p = true) : namesArtifact files1 p = true := by
  unfold namesArtifact at h ⊢
  simp only [Bool.and_eq_true] at h ⊢
  exact ⟨h.1, hmono _ h.2⟩

theorem Consistent_mono {files files1 : Files} {row : LeaseRow}
    (hmono : ∀ q, (files q).isSome = true → (files1 q).isSome = true)
    (h : Consistent files row) : Consistent files1 row := by
  refine ⟨fun ht => ⟨namesArtifact_mono _ hmono (h.1 ht).1, (h.1 ht).2⟩, fun hs => ?_⟩
  rcases h.2 hs with h1 | h1
  · exact Or.inl (namesArtifact_mono _ hmono h1)
  · exact Or.inr h1

theorem computedStatus_cases (r : LeaseRow) :
    computedStatus r = LeaseStatus.pending ∨ computedStatus r = LeaseStatus.signed := by
  unfold computedStatus
  split
  · exact Or.inr rfl
  · exact Or.inl rfl

theorem generate_files_isSome (L : Libs) (w : World) (req : GenerateRequest) (p : String)
    (h : (w.files p).isSome = true) : ((generate L w req).world.files p).isSome = true := by
  rcases generate_spec L w req with h1 | ⟨row, data, path, -, h2, -, -⟩
  · rw [h1]; exact h
  · rw [h2]; exact writeFile_isSome _ _ _ _ h

theorem send_files_isSome (w : World) (req : SendRequest) (p : String)
    (h : (w.files p).isSome = true) : ((send w req).world.files p).isSome = true := by
  rcases (send_spec w req).2 with h1 | ⟨path, data, h2⟩
  · rw [h1]; exact h
  · rw [h2]; exact writeFile_isSome _ _ _ _ h

/-- No request removes a file from the store. -/
theorem step_files_isSome (L : Libs) (w : World) (r : Request) (p : String)
    (h : (w.files p).isSome = true) : ((step L w r).files p).isSome = true := by
  cases r with
  | generate req => exact generate_files_isSome L w req p h
  | send req => exact send_files_isSome w req p h
  | sign req => exact sign_files_isSome L w req p h
  | status req => exact getStatus_files_isSome w req p h

/-- A record appended by generate or send is consistent with any store. -/
theorem Consistent_fresh (files : Files) (row : LeaseRow)
    (hs : row.status = LeaseStatus.generated ∨ row.status = LeaseStatus.sent)
    (hp : row.signed_document_path = none) : Consistent files row := by
  refine ⟨fun ht => ?_, fun h => ?_⟩
  · rw [hp] at ht
    exact absurd ht (by simp [truthy])
  · rcases hs with hs | hs <;> rw [hs] at h <;> exact absurd h (by decide)

/-- Every request keeps the records consistent with the store. -/
theorem step_consistent (L : Libs) (w : World) (r : Request)
    (h : ∀ j row, selectLease w.leases j = some row → Consistent w.files row) :
    ∀ j row, selectLease (step L w r).leases j = some row →
      Consistent (step L w r).files row := by
  intro j row hrow
  have hmono := step_files_isSome L w r
  cases r with
  | generate req =>
    rcases generate_spec L w req with h1 | ⟨new, data, path, h1, -, h3, h4⟩
    · have h2 : step L w (Request.generate req) = w := h1
      rw [h2] at hrow ⊢
      exact h j row hrow
    · have hrow1 : selectLease (w.leases ++ [new]) j = some row := by
        rw [← h1]; exact hrow
      rcases selectLease_append_single hrow1 with h5 | ⟨-, h5⟩
      · exact Consistent_mono hmono (h j row h5)
      · rw [h5]
        exact Consistent_fresh _ _ (Or.inl h3) h4
  | send req =>
    rcases (send_spec w req).1 with h1 | ⟨new, h1, h3, h4⟩
    · have hrow1 : selectLease w.leases j = some row := by
        rw [← h1]; exact hrow
      exact Consistent_mono hmono (h j row hrow1)
    · have hrow1 : selectLease (w.leases ++ [new]) j = some row := by
        rw [← h1]; exact hrow
      rcases selectLease_append_single hrow1 with h5 | ⟨-, h5⟩
      · exact Consistent_mono hmono (h j row h5)
      · rw [h5]
        exact Consistent_fresh _ _ (Or.inr h3) h4
  | sign req =>
    rcases sign_spec L w req j with h1 | ⟨-, r0, row1, h0, h1, hst, -, -, -, -, hsdp⟩
    · have hrow1 : selectLease w.leases j = some row := by
        rw [← h1]; exact hrow
      exact Consistent_mono hmono (h j row hrow1)
    · have hrr : row1 = row := Option.some.inj (h1.symm.trans hrow)
      subst hrr
      refine ⟨fun ht => ⟨?_, ?_⟩, fun hs => Or.inr ?_⟩
      · rcases hsdp with h2 | ⟨h2, h3⟩
        · rw [h2] at ht ⊢
          exact namesArtifact_mono _ hmono ((h j r0 h0).1 ht).1
        · rw [h2]
          unfold namesArtifact
          simp only [Bool.and_eq_true, Option.getD_some]
          exact ⟨truthy_signedFilename j, h3⟩
      · rw [hst]
        exact computedStatus_cases _
      · rw [hst] at hs
        exact (computedStatus_signed_iff _).mp hs
  | status req =>
    rcases getStatus_spec w req j with h1 | ⟨-, lease, h0, -, -, h1, h3⟩
    · have hrow1 : selectLease w.leases j = some row := by
        rw [← h1]; exact hrow
      exact Consistent_mono hmono (h j row hrow1)
    · have hrr := Option.some.inj (h1.symm.trans hrow)
      subst hrr
      have hn : namesArtifact (step L w (Request.status req)).files
          (some (signedFilename j)) = true := by
        unfold namesArtifact
        simp only [Bool.and_eq_true, Option.getD_some]
        exact ⟨truthy_signedFilename j, h3⟩
      exact ⟨fun _ => ⟨hn, Or.inr rfl⟩, fun _ => Or.inl hn⟩

/-- Every run keeps the records consistent with the store. -/
theorem run_consistent (L : Libs) (rs : List Request) :
    ∀ w : World, (∀ j row, selectLease w.leases j = some row → Consistent w.files row) →
      ∀ j row, selectLease (run L w rs).leases j = some row →
        Consistent (run L w rs).files row := by
  induction rs with
  | nil => intro w h; exact h
  | cons r rs ih =>
    intro w h
    exact ih (step L w r) (step_consistent L w r h)

/-- C3 (counterexample): two states reached from an office without leases.
After generate and two signatures that are not PNG images lease 1 is `signed`
and `signed_document_path` is not set; after generate and the signature of the
landlord alone lease 1 is `pending` while `signed_document_path` names
`1-signed.pdf`, which is in the store. -/
theorem signed_iff_artifact_fails_on_reachable_states :
    ((selectLease (run demoLibs paidWorld scribbledRun).leases 1).map
        (fun r => (r.status, r.signed_document_path)) = some (LeaseStatus.signed, none)) ∧
    ((selectLease (run demoLibs paidWorld landlordOnlyRun).leases 1).map
        (fun r => (r.status, r.signed_document_path))
        = some (LeaseStatus.pending, some "1-signed.pdf") ∧
      ((run demoLibs paidWorld landlordOnlyRun).files "1-signed.pdf").isSome = true) := by
  decide

/-- C3 (amended): in every state reached through generate, send, sign and
status from a state without leases, a lease record whose
`signed_document_path` is set names a file of the store and has status
`pending` or `signed`, and a lease record with status `signed` has such a file
or carries both signature paths. -/
theorem reachable_status_consistent (L : Libs) (w0 : World) (rs : List Request) (j : Nat)
    (row : LeaseRow) (hinit : w0.leases = [])
    (hrow : selectLease (run L w0 rs).leases j = some row) :
    (truthy row.signed_document_path = true →
      namesArtifact (run L w0 rs).files row.signed_document_path = true ∧
      (row.status = LeaseStatus.pending ∨ row.status = LeaseStatus.signed)) ∧
    (row.status = LeaseStatus.signed →
      namesArtifact (run L w0 rs).files row.signed_document_path = true ∨
      (truthy row.landlord_signature_path = true ∧
        truthy row.tenant_signature_path = true)) := by
  have h0 : ∀ j row, selectLease w0.leases j = some row → Consistent w0.files row := by
    intro j row h
    rw [hinit] at h
    exact absurd h (by simp [selectLease])
  exact run_consistent L rs w0 h0 j row hrow

/-- Lease 1 after generate and both signatures: it is `signed` and its signed
path names a file of the store. -/
theorem reachable_status_consistent_witness :
    paidWorld.leases = [] ∧
    selectLease (run demoLibs paidWorld bothSignedRun).leases 1 = some bothSignedRow ∧
    (truthy bothSignedRow.signed_document_path = true →
      namesArtifact (run demoLibs paidWorld bothSignedRun).files
        bothSignedRow.signed_document_path = true ∧
      (bothSignedRow.status = LeaseStatus.pending ∨
        bothSignedRow.status = LeaseStatus.signed)) ∧
    (bothSignedRow.status = LeaseStatus.signed →
      namesArtifact (run demoLibs paidWorld bothSignedRun).files
        bothSignedRow.signed_document_path = true ∨
      (truthy bothSignedRow.landlord_signature_path = true ∧
        truthy bothSignedRow.tenant_signature_path = true)) :=
  ⟨rfl, by decide,
    reachable_status_consistent demoLibs paidWorld bothSignedRun 1 bothSignedRow rfl
      (by decide)⟩

/-! ## Regression of the status -/

theorem rank_le_computedStatus (r0 row : LeaseRow)
    (hinv : r0.status = LeaseStatus.signed →
      truthy r0.landlord_signature_path = true ∧ truthy r0.tenant_signature_path = true)
    (hl : truthy r0.landlord_signature_path = true →
      truthy row.landlord_signature_path = true)
    (ht : truthy r0.tenant_signature_path = true →
      truthy row.tenant_signature_path = true) :
    r0.status.rank ≤ (computedStatus row).rank := by
  by_cases hs : r0.status = LeaseStatus.signed
  · have hb := hinv hs
    rw [(computedStatus_signed_iff row).mpr ⟨hl hb.1, ht hb.2⟩, hs]
  · rcases computedStatus_cases row with h | h <;> rw [h] <;>
      cases h0 : r0.status <;> simp_all [LeaseStatus.rank]

/-- A sign call does not lower the status of a lease that is not `signed`
without both signature paths, and leaves it so. -/
theorem sign_rank_mono (L : Libs) (w : World) (req : SignRequest) (j : Nat) (r0 : LeaseRow)
    (h0 : selectLease w.leases j = some r0)
    (hinv : r0.status = LeaseStatus.signed →
      truthy r0.landlord_signature_path = true ∧ truthy r0.tenant_signature_path = true) :
    ∃ row, selectLease (sign L w req).world.leases j = some row ∧
      r0.status.rank ≤ row.status.rank ∧
      (row.status = LeaseStatus.signed →
        truthy row.landlord_signature_path = true ∧
          truthy row.tenant_signature_path = true) ∧
      row.provider_envelope_id = r0.provider_envelope_id := by
  rcases sign_spec L w req j with h1 | ⟨-, r1, row, h2, h1, hst, hl, ht, hpe, -, -⟩
  · exact ⟨r0, h1.trans h0, le_refl _, hinv, rfl⟩
  · have hrr : r1 = r0 := Option.some.inj (h2.symm.trans h0)
    subst hrr
    refine ⟨row, h1, ?_, ?_, hpe⟩
    · rw [hst]
      exact rank_le_computedStatus r1 row hinv hl ht
    · intro hs
      rw [hst] at hs
      exact (computedStatus_signed_iff row).mp hs

/-- A status call does not lower the status of a lease, and does not touch a
lease without provider envelope. -/
theorem getStatus_rank_mono (w : World) (req : StatusRequest) (j : Nat) (r0 : LeaseRow)
    (h0 : selectLease w.leases j = some r0) :
    ∃ row, selectLease (getStatus w req).world.leases j = some row ∧
      r0.status.rank ≤ row.status.rank ∧
      (r0.provider_envelope_id = none → row = r0) := by
  rcases getStatus_spec w req j with h1 | ⟨-, lease, h2, -, hpe, h1, -⟩
  · exact ⟨r0, h1.trans h0, le_refl _, fun _ => rfl⟩
  · have hrr : lease = r0 := Option.some.inj (h2.symm.trans h0)
    subst hrr
    refine ⟨_, h1, ?_, fun hn => absurd hn hpe⟩
    cases h : lease.status <;> simp [LeaseStatus.rank]

theorem selectLease_append_of_some {rows : List LeaseRow} {r0 : LeaseRow} {j : Nat}
    (h : selectLease rows j = some r0) (row : LeaseRow) :
    selectLease (rows ++ [row]) j = some r0 := by
  unfold selectLease at h ⊢
  rw [List.find?_append, h]
  rfl

/-- Generate and send leave the existing records as they are. -/
theorem generate_select (L : Libs) (w : World) (req : GenerateRequest) (j : Nat)
    (r0 : LeaseRow) (h0 : selectLease w.leases j = some r0) :
    selectLease (generate L w req).world.leases j = some r0 := by
  rcases generate_spec L w req with h1 | ⟨row, data, path, h1, -, -, -⟩
  · rw [h1]; exact h0
  · rw [h1]; exact selectLease_append_of_some h0 row

theorem send_select (w : World) (req : SendRequest) (j : Nat)
    (r0 : LeaseRow) (h0 : selectLease w.leases j = some r0) :
    selectLease (send w req).world.leases j = some r0 := by
  rcases (send_spec w req).1 with h1 | ⟨row, h1, -, -⟩
  · rw [h1]; exact h0
  · rw [h1]; exact selectLease_append_of_some h0 row

/-- No request lowers the status of a lease of the self-service flow that is
not `signed` without both signature paths. -/
theorem step_rank_mono (L : Libs) (w : World) (r : Request) (j : Nat) (r0 : LeaseRow)
    (h0 : selectLease w.leases j = some r0)
    (hpe : r0.provider_envelope_id = none)
    (hinv : r0.status = LeaseStatus.signed →
      truthy r0.landlord_signature_path = true ∧ truthy r0.tenant_signature_path = true) :
    ∃ row, selectLease (step L w r).leases j = some row ∧
      r0.status.rank ≤ row.status.rank ∧
      row.provider_envelope_id = none ∧
      (row.status = LeaseStatus.signed →
        truthy row.landlord_signature_path = true ∧
          truthy row.tenant_signature_path = true) := by
  cases r with
  | generate req => exact ⟨r0, generate_select L w req j r0 h0, le_refl _, hpe, hinv⟩
  | send req => exact ⟨r0, send_select w req j r0 h0, le_refl _, hpe, hinv⟩
  | sign req =>
    obtain ⟨row, h1, h2, h3, h4⟩ := sign_rank_mono L w req j r0 h0 hinv
    exact ⟨row, h1, h2, h4.trans hpe, h3⟩
  | status req =>
    obtain ⟨row, h1, h2, h3⟩ := getStatus_rank_mono w req j r0 h0
    have := h3 hpe
    subst this
    exact ⟨row, h1, h2, hpe, hinv⟩

theorem run_rank_mono (L : Libs) (rs : List Request) :
    ∀ (w : World) (j : Nat) (r0 : LeaseRow), selectLease w.leases j = some r0 →
      r0.provider_envelope_id = none →
      (r0.status = LeaseStatus.signed →
        truthy r0.landlord_signature_path = true ∧
          truthy r0.tenant_signature_path = true) →
      ∃ row, selectLease (run L w rs).leases j = some row ∧
        r0.status.rank ≤ row.status.rank ∧
        row.provider_envelope_id = none ∧
        (row.status = LeaseStatus.signed →
          truthy row.landlord_signature_path = true ∧
            truthy row.tenant_signature_path = true) := by
  induction rs with
  | nil => intro w j r0 h0 hpe hinv; exact ⟨r0, h0, le_refl _, hpe, hinv⟩
  | cons r rs ih =>
    intro w j r0 h0 hpe hinv
    obtain ⟨r1, h1, h2, h3, h4⟩ := step_rank_mono L w r j r0 h0 hpe hinv
    obtain ⟨row, h5, h6, h7, h8⟩ := ih (step L w r) j r1 h1 h3 h4
    exact ⟨row, h5, le_trans h2 h6, h7, h8⟩

theorem run_append (L : Libs) (w : World) (rs1 rs2 : List Request) :
    run L w (rs1 ++ rs2) = run L (run L w rs1) rs2 := by
  unfold run
  exact List.foldl_append _ _ _ _

/-- C6 (counterexample): lease 1 is sent to the provider and the poll makes it
`signed`; the tenant then signs in the application and the stored status is
`pending`. -/
theorem sign_regresses_provider_signed_lease :
    statusOf (run demoLibs officeWorld providerSignedRun) 1 = some LeaseStatus.signed ∧
    statusOf (run demoLibs officeWorld providerThenTenantRun) 1
      = some LeaseStatus.pending := by
  decide

/-- C6 (amended): with generated and sent below pending below signed, a status
call never lowers the stored status of a lease; a sign call never lowers the
status of a lease that is not `signed` or is `signed` with both signature paths
present, and leaves such a lease in that condition, so that a lease `signed`
with both signature paths stays `signed` after any further sign call; and the
status of such a lease without provider envelope never decreases along any
sequence of generate, send, sign and status calls. -/
theorem status_never_regresses_within_flow (L : Libs) (w : World) (j : Nat) (r0 : LeaseRow)
    (h0 : selectLease w.leases j = some r0) :
    (∀ req, ∃ row, selectLease (getStatus w req).world.leases j = some row ∧
      r0.status.rank ≤ row.status.rank) ∧
    ((r0.status = LeaseStatus.signed →
        truthy r0.landlord_signature_path = true ∧
          truthy r0.tenant_signature_path = true) →
      ∀ req, ∃ row, selectLease (sign L w req).world.leases j = some row ∧
        r0.status.rank ≤ row.status.rank ∧
        (row.status = LeaseStatus.signed →
          truthy row.landlord_signature_path = true ∧
            truthy row.tenant_signature_path = true) ∧
        (r0.status = LeaseStatus.signed → row.status = LeaseStatus.signed)) ∧
    (r0.provider_envelope_id = none →
      (r0.status = LeaseStatus.signed →
        truthy r0.landlord_signature_path = true ∧
          truthy r0.tenant_signature_path = true) →
      ∀ rs1 rs2, ∃ row1 row2,
        selectLease (run L w rs1).leases j = some row1 ∧
        selectLease (run L w (rs1 ++ rs2)).leases j = some row2 ∧
        r0.status.rank ≤ row1.status.rank ∧ row1.status.rank ≤ row2.status.rank) := by
  refine ⟨fun req => ?_, fun hinv req => ?_, fun hpe hinv rs1 rs2 => ?_⟩
  · obtain ⟨row, h1, h2, -⟩ := getStatus_rank_mono w req j r0 h0
    exact ⟨row, h1, h2⟩
  · obtain ⟨row, h1, h2, h3, -⟩ := sign_rank_mono L w req j r0 h0 hinv
    refine ⟨row, h1, h2, h3, fun hs => ?_⟩
    rw [hs] at h2
    cases h : row.status <;> simp_all [LeaseStatus.rank]
  · obtain ⟨row1, h1, h2, h3, h4⟩ := run_rank_mono L rs1 w j r0 h0 hpe hinv
    obtain ⟨row2, h5, h6, -, -⟩ := run_rank_mono L rs2 (run L w rs1) j row1 h1 h3 h4
    rw [← run_append] at h5
    exact ⟨row1, row2, h1, h5, h2, h6⟩

/-- Lease 1, signed by both parties: a further signature of the tenant leaves
it `signed`, and so does a status call followed by that signature. -/
theorem status_never_regresses_within_flow_witness :
    selectLease bothSignedWorld.leases 1 = some bothSignedRow ∧
    (∃ row, selectLease (sign demoLibs bothSignedWorld
          ⟨1, "tenant", some "scrawl", "http://host"⟩).world.leases 1 = some row ∧
        bothSignedRow.status.rank ≤ row.status.rank ∧
        (row.status = LeaseStatus.signed →
          truthy row.landlord_signature_path = true ∧
            truthy row.tenant_signature_path = true) ∧
        (bothSignedRow.status = LeaseStatus.signed → row.status = LeaseStatus.signed)) ∧
    (∃ row1 row2,
        selectLease (run demoLibs bothSignedWorld
          [Request.status ⟨1, true, "http://host"⟩]).leases 1 = some row1 ∧
        selectLease (run demoLibs bothSignedWorld
          ([Request.status ⟨1, true, "http://host"⟩] ++
            [Request.sign ⟨1, "tenant", some "scrawl", "http://host"⟩])).leases 1
          = some row2 ∧
        bothSignedRow.status.rank ≤ row1.status.rank ∧
        row1.status.rank ≤ row2.status.rank) :=
  ⟨by decide,
    (status_never_regresses_within_flow demoLibs bothSignedWorld 1 bothSignedRow
      (by decide)).2.1 (by decide) ⟨1, "tenant", some "scrawl", "http://host"⟩,
    (status_never_regresses_within_flow demoLibs bothSignedWorld 1 bothSignedRow
      (by decide)).2.2 rfl (by decide) [Request.status ⟨1, true, "http://host"⟩]
      [Request.sign ⟨1, "tenant", some "scrawl", "http://host"⟩]⟩

/-! ## The embed step -/

theorem drawSignature_congr (L : Libs) (files files1 : Files) (heights : List Int)
    (role : String) (pos : Anchor) (sigPath : Option String)
    (hf : ∀ p, sigPath = some p → files p = files1 p) :
    drawSignature L files heights role pos sigPath
      = drawSignature L files1 heights role pos sigPath := by
  cases sigPath with
  | none => rfl
  | some p =>
    unfold drawSignature
    simp only [hf p rfl]

/-- The embed step reads the row only through its document path and its two
signature paths, and the store only at these paths. -/
theorem embedSignatures_congr (L : Libs) (files files1 : Files) (row row1 : LeaseRow)
    (hd : row.document_path = row1.document_path)
    (hl : row.landlord_signature_path = row1.landlord_signature_path)
    (ht : row.tenant_signature_path = row1.tenant_signature_path)
    (hf : ∀ p, (row.document_path = some p ∨ row.landlord_signature_path = some p ∨
      row.tenant_signature_path = some p) → files p = files1 p) :
    embedSignatures L files row = embedSignatures L files1 row1 := by
  unfold embedSignatures
  rw [← hd, ← hl, ← ht]
  cases hdp : row.document_path with
  | none => rfl
  | some dp =>
    simp only
    rw [← hf dp (Or.inl hdp)]
    cases files dp with
    | none => rfl
    | some pdfBytes =>
      simp only
      cases L.pdfParse pdfBytes with
      | none => rfl
      | some heights =>
        simp only
        rw [drawSignature_congr L files files1 heights "landlord" _ _
              (fun p hp => hf p (Or.inr (Or.inl hp))),
            drawSignature_congr L files files1 heights "tenant" _ _
              (fun p hp => hf p (Or.inr (Or.inr hp)))]

/-- The embed step when the base document and both signature images are in
place: both images are drawn on the base document, the landlord first. -/
theorem embedSignatures_both (L : Libs) (files : Files) (row : LeaseRow)
    (dp pl pt : String) (base bl bt : Bytes) (h : Int) (hs : List Int)
    (hdp : row.document_path = some dp) (hbase : files dp = some base)
    (hparse : L.pdfParse base = some (h :: hs))
    (hl : row.landlord_signature_path = some pl) (hle : pl ≠ "")
    (hlf : files pl = some bl) (hlp : L.isPng bl = true)
    (ht : row.tenant_signature_path = some pt) (hte : pt ≠ "")
    (htf : files pt = some bt) (htp : L.isPng bt = true) :
    embedSignatures L files row =
      ⟨[Effect.readFile dp, Effect.readFile pl,
          Effect.drawImage "landlord" (overlayAt L.signaturePositions.landlord h bl),
          Effect.readFile pt,
          Effect.drawImage "tenant" (overlayAt L.signaturePositions.tenant h bt)],
        some ⟨base, h :: hs,
          [overlayAt L.signaturePositions.landlord h bl,
           overlayAt L.signaturePositions.tenant h bt]⟩⟩ := by
  unfold embedSignatures drawSignature
  simp [hdp, hbase, hparse, hl, hle, hlf, hlp, ht, hte, htf, htp]

/-- Each block of the embed step draws at most one image, under its own role. -/
theorem drawSignature_draws (L : Libs) (files : Files) (heights : List Int)
    (role : String) (pos : Anchor) (sigPath : Option String) :
    drawsOf (drawSignature L files heights role pos sigPath).1 = [] ∨
    ∃ o, drawsOf (drawSignature L files heights role pos sigPath).1 = [(role, o)] := by
  unfold drawSignature
  split
  · exact Or.inl rfl
  · split
    · exact Or.inl rfl
    · split
      · exact Or.inl rfl
      · split
        · split
          · exact Or.inl rfl
          · exact Or.inr ⟨_, rfl⟩
        · exact Or.inl rfl

theorem signaturePath_landlord_ne_tenant (id : Nat) :
    signaturePath id "landlord" ≠ signaturePath id "tenant" := by
  intro h
  have h2 := congrArg String.length h
  unfold signaturePath signatureFilename at h2
  simp only [String.length_append] at h2
  have e1 : ("landlord" : String).length = 8 := by decide
  have e2 : ("tenant" : String).length = 6 := by decide
  omega

theorem toDigitsCore_head (fuel : Nat) : ∀ (n : Nat) (ds : List Char), 0 < fuel →
    ∃ k, k < 10 ∧ ∃ rest, Nat.toDigitsCore 10 fuel n ds = Nat.digitChar k :: rest := by
  induction fuel with
  | zero => intro n ds h; exact absurd h (by decide)
  | succ f ih =>
    intro n ds _
    unfold Nat.toDigitsCore
    simp only
    split
    · exact ⟨n % 10, Nat.mod_lt _ (by decide), ds, rfl⟩
    · cases f with
      | zero => exact ⟨n % 10, Nat.mod_lt _ (by decide), ds, by simp [Nat.toDigitsCore]⟩
      | succ g => exact ih _ _ (Nat.succ_pos g)

/-- The decimal text of a number starts with a digit. -/
theorem toString_nat_head (n : Nat) :
    ∃ k, k < 10 ∧ ∃ rest, (toString n).data = Nat.digitChar k :: rest := by
  obtain ⟨k, hk, rest, h⟩ := toDigitsCore_head (n + 1) n [] (Nat.succ_pos n)
  refine ⟨k, hk, rest, ?_⟩
  show (Nat.repr n).data = _
  unfold Nat.repr Nat.toDigits
  rw [h]
  rfl

theorem digitChar_ne_l (k : Nat) (hk : k < 10) : Nat.digitChar k ≠ 'l' := by
  interval_cases k <;> decide

/-- A generated document is never the signed artifact of a lease. -/
theorem leaseFilename_ne_signedFilename (now id : Nat) :
    leaseFilename now ≠ signedFilename id := by
  intro h
  have h2 := congrArg String.data h
  obtain ⟨k, hk, rest, hb⟩ := toString_nat_head id
  unfold leaseFilename signedFilename at h2
  simp only [String.data_append, hb] at h2
  simp only [List.cons_append, List.cons.injEq] at h2
  exact digitChar_ne_l k hk h2.1.symm

/-- A generated document is never a signature image. -/
theorem leaseFilename_ne_signaturePath (now id : Nat) (role : String) :
    leaseFilename now ≠ signaturePath id role := by
  intro h
  have h2 := congrArg String.data h
  unfold leaseFilename signaturePath at h2
  simp only [String.data_append] at h2
  simp only [List.cons_append, List.cons.injEq] at h2
  exact absurd h2.1 (by decide)

/-- The effects of the sign handler on an existing lease. -/
theorem sign_trace_found (L : Libs) (w : World) (req : SignRequest) (s : String)
    (r0 : LeaseRow) (hs : req.signature = some s) (hne : s ≠ "")
    (h0 : selectLease w.leases req.id = some r0) :
    (sign L w req).trace =
      [Effect.writeFile (signaturePath req.id req.role) (L.base64Decode (stripDataUrl s)),
        Effect.updateLease req.id, Effect.dbQuery "leases"] ++
      (embedSignatures L
        (writeFile w.files (signaturePath req.id req.role) (L.base64Decode (stripDataUrl s)))
        (setSignaturePath req.role (signaturePath req.id req.role) r0)).trace ++
      (match (embedSignatures L
          (writeFile w.files (signaturePath req.id req.role)
            (L.base64Decode (stripDataUrl s)))
          (setSignaturePath req.role (signaturePath req.id req.role) r0)).output with
        | some doc =>
          [Effect.writeFile (signedFilename req.id) (L.pdfSave doc), Effect.updateLease req.id]
        | none => [Effect.updateLease req.id]) := by
  have h1 := select_after_setSignaturePath w req r0 h0
  unfold sign
  simp only [hs, hne, if_false, h1]
  split <;> rename_i hd <;> simp only [hd]

/-- A sign call whose row carries both signature paths and whose reads all
succeed: the record becomes `signed` with the signed path set, and the
artifact is the base document with both images drawn. -/
theorem sign_both_drawn (L : Libs) (w : World) (req : SignRequest) (s : String)
    (r1 : LeaseRow) (dp pl pt : String) (base bl bt : Bytes) (h : Int) (hs : List Int)
    (hsig : req.signature = some s) (hne : s ≠ "")
    (h1 : selectLease w.leases req.id = some r1)
    (hdp : (setSignaturePath req.role (signaturePath req.id req.role) r1).document_path
      = some dp)
    (hbase : writeFile w.files (signaturePath req.id req.role)
      (L.base64Decode (stripDataUrl s)) dp = some base)
    (hparse : L.pdfParse base = some (h :: hs))
    (hl : (setSignaturePath req.role (signaturePath req.id req.role)
      r1).landlord_signature_path = some pl) (hle : pl ≠ "")
    (hlf : writeFile w.files (signaturePath req.id req.role)
      (L.base64Decode (stripDataUrl s)) pl = some bl) (hlp : L.isPng bl = true)
    (ht : (setSignaturePath req.role (signaturePath req.id req.role)
      r1).tenant_signature_path = some pt) (hte : pt ≠ "")
    (htf : writeFile w.files (signaturePath req.id req.role)
      (L.base64Decode (stripDataUrl s)) pt = some bt) (htp : L.isPng bt = true) :
    selectLease (sign L w req).world.leases req.id =
      some { setSignaturePath req.role (signaturePath req.id req.role) r1 with
        signed_document_path := some (signedFilename req.id),
        status := LeaseStatus.signed } ∧
    (sign L w req).world.files (signedFilename req.id) =
      some (L.pdfSave ⟨base, h :: hs,
        [overlayAt L.signaturePositions.landlord h bl,
         overlayAt L.signaturePositions.tenant h bt]⟩) ∧
    drawsOf (sign L w req).trace =
      [("landlord", overlayAt L.signaturePositions.landlord h bl),
       ("tenant", overlayAt L.signaturePositions.tenant h bt)] := by
  have he := embedSignatures_both L _ _ dp pl pt base bl bt h hs hdp hbase hparse hl hle hlf
    hlp ht hte htf htp
  have hcs : computedStatus (setSignaturePath req.role (signaturePath req.id req.role) r1)
      = LeaseStatus.signed := by
    rw [computedStatus_signed_iff, hl, ht]
    simp [truthy, hle, hte]
  refine ⟨?_, ?_, ?_⟩
  · rw [sign_row L w req s r1 hsig hne h1, he, hcs]
  · rw [sign_files L w req s r1 hsig hne h1, he]
    simp [writeFile]
  · rw [sign_trace_found L w req s r1 hsig hne h1, he]
    simp [drawsOf]

/-- The record after a sign call on an existing lease, up to the signed path. -/
theorem sign_first_row (L : Libs) (w : World) (req : SignRequest) (s : String)
    (r0 : LeaseRow) (hs : req.signature = some s) (hne : s ≠ "")
    (h0 : selectLease w.leases req.id = some r0) :
    ∃ x, selectLease (sign L w req).world.leases req.id =
      some { setSignaturePath req.role (signaturePath req.id req.role) r0 with
        signed_document_path := x,
        status := computedStatus
          (setSignaturePath req.role (signaturePath req.id req.role) r0) } := by
  rw [sign_row L w req s r0 hs hne h0]
  split
  · exact ⟨_, rfl⟩
  · exact ⟨_, rfl⟩

/-- Apart from the signed artifact, a sign call on an existing lease changes
the store at the signature path only. -/
theorem sign_files_agree (L : Libs) (w : World) (req : SignRequest) (s : String)
    (r0 : LeaseRow) (hs : req.signature = some s) (hne : s ≠ "")
    (h0 : selectLease w.leases req.id = some r0) (p : String)
    (hp : p ≠ signedFilename req.id) :
    (sign L w req).world.files p =
      writeFile w.files (signaturePath req.id req.role) (L.base64Decode (stripDataUrl s))
        p := by
  rw [sign_files L w req s r0 hs hne h0]
  split
  · simp [writeFile, hp]
  · rfl

/-! ## The order of the signatures -/

/-- At URLs that name the lease by the decimal text of its id: starting from a
generated lease without signatures whose base document parses and whose two
signature images decode, the landlord signing before the tenant and the tenant
signing before the landlord end in the same lease record, with status `signed`
and signed path `<leaseId>-signed.pdf`; the final embed draws the landlord
image and the tenant image at their anchors on the base document; after the
first signature alone the status is `pending`. -/
theorem signature_order_irrelevant (L : Libs) (w : World) (id now : Nat) (r0 : LeaseRow)
    (sL sT uL uT : String) (base : Bytes) (h : Int) (hs : List Int)
    (hrow : selectLease w.leases id = some r0)
    (hdoc : r0.document_path = some (leaseFilename now))
    (hnoL : r0.landlord_signature_path = none)
    (hnoT : r0.tenant_signature_path = none)
    (hbase : w.files (leaseFilename now) = some base)
    (hparse : L.pdfParse base = some (h :: hs))
    (hsL : sL ≠ "") (hsT : sT ≠ "")
    (hpngL : L.isPng (L.base64Decode (stripDataUrl sL)) = true)
    (hpngT : L.isPng (L.base64Decode (stripDataUrl sT)) = true) :
    statusOf (sign L w ⟨id, "landlord", some sL, uL⟩).world id = some LeaseStatus.pending ∧
    statusOf (sign L w ⟨id, "tenant", some sT, uT⟩).world id = some LeaseStatus.pending ∧
    selectLease (sign L (sign L w ⟨id, "landlord", some sL, uL⟩).world
        ⟨id, "tenant", some sT, uT⟩).world.leases id =
      some { r0 with
        status := LeaseStatus.signed,
        signed_document_path := some (signedFilename id),
        landlord_signature_path := some (signaturePath id "landlord"),
        tenant_signature_path := some (signaturePath id "tenant") } ∧
    selectLease (sign L (sign L w ⟨id, "tenant", some sT, uT⟩).world
        ⟨id, "landlord", some sL, uL⟩).world.leases id =
      some { r0 with
        status := LeaseStatus.signed,
        signed_document_path := some (signedFilename id),
        landlord_signature_path := some (signaturePath id "landlord"),
        tenant_signature_path := some (signaturePath id "tenant") } ∧
    (sign L (sign L w ⟨id, "landlord", some sL, uL⟩).world
        ⟨id, "tenant", some sT, uT⟩).world.files (signedFilename id) =
      some (L.pdfSave ⟨base, h :: hs,
        [overlayAt L.signaturePositions.landlord h (L.base64Decode (stripDataUrl sL)),
         overlayAt L.signaturePositions.tenant h (L.base64Decode (stripDataUrl sT))]⟩) ∧
    (sign L (sign L w ⟨id, "tenant", some sT, uT⟩).world
        ⟨id, "landlord", some sL, uL⟩).world.files (signedFilename id) =
      some (L.pdfSave ⟨base, h :: hs,
        [overlayAt L.signaturePositions.landlord h (L.base64Decode (stripDataUrl sL)),
         overlayAt L.signaturePositions.tenant h (L.base64Decode (stripDataUrl sT))]⟩) ∧
    drawsOf (sign L (sign L w ⟨id, "landlord", some sL, uL⟩).world
        ⟨id, "tenant", some sT, uT⟩).trace =
      [("landlord",
          overlayAt L.signaturePositions.landlord h (L.base64Decode (stripDataUrl sL))),
       ("tenant",
          overlayAt L.signaturePositions.tenant h (L.base64Decode (stripDataUrl sT)))] ∧
    drawsOf (sign L (sign L w ⟨id, "tenant", some sT, uT⟩).world
        ⟨id, "landlord", some sL, uL⟩).trace =
      [("landlord",
          overlayAt L.signaturePositions.landlord h (L.base64Decode (stripDataUrl sL))),
       ("tenant",
          overlayAt L.signaturePositions.tenant h (L.base64Decode (stripDataUrl sT)))] := by
  have hLT := signaturePath_landlord_ne_tenant id
  have hdL := leaseFilename_ne_signaturePath now id "landlord"
  have hdT := leaseFilename_ne_signaturePath now id "tenant"
  have hdS := leaseFilename_ne_signedFilename now id
  have hSL := signedFilename_ne_signaturePath id "landlord"
  have hST := signedFilename_ne_signaturePath id "tenant"
  have heL := signaturePath_ne_empty id "landlord"
  have heT := signaturePath_ne_empty id "tenant"
  obtain ⟨x, hx⟩ := sign_first_row L w ⟨id, "landlord", some sL, uL⟩ sL r0 rfl hsL hrow
  obtain ⟨y, hy⟩ := sign_first_row L w ⟨id, "tenant", some sT, uT⟩ sT r0 rfl hsT hrow
  have hfL := sign_files_agree L w ⟨id, "landlord", some sL, uL⟩ sL r0 rfl hsL hrow
  have hfT := sign_files_agree L w ⟨id, "tenant", some sT, uT⟩ sT r0 rfl hsT hrow
  simp only at hx hy hfL hfT
  have hLT2 := sign_both_drawn L (sign L w ⟨id, "landlord", some sL, uL⟩).world
    ⟨id, "tenant", some sT, uT⟩ sT _ (leaseFilename now) (signaturePath id "landlord")
    (signaturePath id "tenant") base (L.base64Decode (stripDataUrl sL))
    (L.base64Decode (stripDataUrl sT)) h hs rfl hsT hx
    (by simp [setSignaturePath, hdoc])
    (by simp [writeFile, hdT, hfL _ hdS, hdL, hbase])
    hparse
    (by simp [setSignaturePath])
    heL
    (by simp [writeFile, hLT, hfL _ hSL.symm])
    hpngL
    (by simp [setSignaturePath])
    heT
    (by simp [writeFile])
    hpngT
  have hTL2 := sign_both_drawn L (sign L w ⟨id, "tenant", some sT, uT⟩).world
    ⟨id, "landlord", some sL, uL⟩ sL _ (leaseFilename now) (signaturePath id "landlord")
    (signaturePath id "tenant") base (L.base64Decode (stripDataUrl sL))
    (L.base64Decode (stripDataUrl sT)) h hs rfl hsL hy
    (by simp [setSignaturePath, hdoc])
    (by simp [writeFile, hdL, hfT _ hdS, hdT, hbase])
    hparse
    (by simp [setSignaturePath])
    heL
    (by simp [writeFile])
    hpngL
    (by simp [setSignaturePath])
    heT
    (by simp [writeFile, hLT.symm, hfT _ hST.symm])
    hpngT
  refine ⟨?_, ?_, ?_, ?_, hLT2.2.1, hTL2.2.1, hLT2.2.2, hTL2.2.2⟩
  · simp [statusOf, hx, computedStatus, setSignaturePath, hnoT, truthy]
  · simp [statusOf, hy, computedStatus, setSignaturePath, hnoL, truthy]
  · rw [hLT2.1]
    simp [setSignaturePath]
  · rw [hTL2.1]
    simp [setSignaturePath]

/-- Lease 42: whichever of the landlord and the tenant signs first, the record
ends `signed` with signed path `42-signed.pdf` and the artifact carries both
images. -/
theorem signature_order_irrelevant_witness :
    selectLease world42.leases 42 = some lease42 ∧
    world42.files (leaseFilename 1700) = some [37, 1, 2] ∧
    statusOf (sign demoLibs world42 landlordSigns).world 42 = some LeaseStatus.pending ∧
    selectLease (sign demoLibs (sign demoLibs world42 landlordSigns).world
        tenantSigns).world.leases 42 =
      some { lease42 with
        status := LeaseStatus.signed,
        signed_document_path := some (signedFilename 42),
        landlord_signature_path := some (signaturePath 42 "landlord"),
        tenant_signature_path := some (signaturePath 42 "tenant") } ∧
    selectLease (sign demoLibs (sign demoLibs world42 tenantSigns).world
        landlordSigns).world.leases 42 =
      some { lease42 with
        status := LeaseStatus.signed,
        signed_document_path := some (signedFilename 42),
        landlord_signature_path := some (signaturePath 42 "landlord"),
        tenant_signature_path := some (signaturePath 42 "tenant") } ∧
    signedFilename 42 = "42-signed.pdf" :=
  have T := signature_order_irrelevant demoLibs world42 42 1700 lease42 "\x89LAND"
    "data:image/png;base64,\x89TEN" "http://host" "http://host" [37, 1, 2] 792 []
    (by decide) (by decide) (by decide) (by decide) (by decide) (by decide) (by decide)
    (by decide) (by decide) (by decide)
  ⟨by decide, by decide, T.1, T.2.2.1, T.2.2.2.1, by decide⟩

/-! ## Signing twice -/

theorem updateLease_length (rows : List LeaseRow) (id : Nat) (f : LeaseRow → LeaseRow) :
    (updateLease rows id f).length = rows.length := by
  unfold updateLease
  exact List.length_map _ _

/-- The sign handler neither adds nor removes a record. -/
theorem sign_leases_length (L : Libs) (w : World) (req : SignRequest) :
    (sign L w req).world.leases.length = w.leases.length := by
  by_cases hv : truthy req.signature = true
  · obtain ⟨s, hs, hne⟩ := truthy_eq_some hv
    cases h0 : selectLease w.leases req.id with
    | none =>
      rw [sign_eq_missing L w req s hs hne h0]
      exact updateLease_length _ _ _
    | some r0 =>
      rw [sign_world_found L w req s r0 hs hne h0]
      split
      · exact (updateLease_length _ _ _).trans (updateLease_length _ _ _)
      · exact (updateLease_length _ _ _).trans (updateLease_length _ _ _)
  · rw [sign_eq_invalid L w req (by simpa using hv)]

/-- After a sign call with a signature the image is stored at the signature
path of the lease and role. -/
theorem sign_files_signaturePath (L : Libs) (w : World) (req : SignRequest) (s : String)
    (hs : req.signature = some s) (hne : s ≠ "") :
    (sign L w req).world.files (signaturePath req.id req.role)
      = some (L.base64Decode (stripDataUrl s)) := by
  cases h0 : selectLease w.leases req.id with
  | none =>
    rw [sign_eq_missing L w req s hs hne h0]
    simp [writeFile]
  | some r0 =>
    rw [sign_files_agree L w req s r0 hs hne h0 _
      (fun h => signedFilename_ne_signaturePath _ _ h.symm)]
    simp [writeFile]

/-- The images drawn by the embed step: at most one by the landlord block,
then at most one by the tenant block. -/
theorem embedSignatures_draws (L : Libs) (files : Files) (row : LeaseRow) :
    ∃ a b, drawsOf (embedSignatures L files row).trace = a ++ b ∧
      (a = [] ∨ ∃ o, a = [("landlord", o)]) ∧ (b = [] ∨ ∃ o, b = [("tenant", o)]) := by
  unfold embedSignatures
  split
  · exact ⟨[], [], rfl, Or.inl rfl, Or.inl rfl⟩
  · split
    · exact ⟨[], [], rfl, Or.inl rfl, Or.inl rfl⟩
    · split
      · exact ⟨[], [], rfl, Or.inl rfl, Or.inl rfl⟩
      · rename_i heights _
        dsimp only
        split
        · refine ⟨drawsOf (drawSignature L files heights "landlord"
              L.signaturePositions.landlord row.landlord_signature_path).1, [], ?_,
            drawSignature_draws L files heights "landlord" _ _, Or.inl rfl⟩
          simp [drawsOf]
        · split
          · refine ⟨drawsOf (drawSignature L files heights "landlord"
                L.signaturePositions.landlord row.landlord_signature_path).1,
              drawsOf (drawSignature L files heights "tenant"
                L.signaturePositions.tenant row.tenant_signature_path).1, ?_,
              drawSignature_draws L files heights "landlord" _ _,
              drawSignature_draws L files heights "tenant" _ _⟩
            simp [drawsOf]
          · refine ⟨drawsOf (drawSignature L files heights "landlord"
                L.signaturePositions.landlord row.landlord_signature_path).1,
              drawsOf (drawSignature L files heights "tenant"
                L.signaturePositions.tenant row.tenant_signature_path).1, ?_,
              drawSignature_draws L files heights "landlord" _ _,
              drawSignature_draws L files heights "tenant" _ _⟩
            simp [drawsOf]

/-- The images drawn by a sign call are those of its embed step. -/
theorem sign_draws (L : Libs) (w : World) (req : SignRequest) :
    drawsOf (sign L w req).trace = [] ∨
    ∃ er, signEmbed L w req = some er ∧ drawsOf (sign L w req).trace = drawsOf er.trace := by
  by_cases hv : truthy req.signature = true
  · obtain ⟨s, hs, hne⟩ := truthy_eq_some hv
    cases h0 : selectLease w.leases req.id with
    | none =>
      left
      rw [sign_eq_missing L w req s hs hne h0]
      rfl
    | some r0 =>
      right
      refine ⟨_, signEmbed_eq L w req s r0 hs hne h0, ?_⟩
      rw [sign_trace_found L w req s r0 hs hne h0]
      split <;> simp [drawsOf]
  · left
    rw [sign_eq_invalid L w req (by simpa using hv)]
    rfl

/-- A sign call draws at most one image for the landlord and at most one for
the tenant. -/
theorem sign_draws_roles (L : Libs) (w : World) (req : SignRequest) :
    List.Sublist ((drawsOf (sign L w req).trace).map Prod.fst) ["landlord", "tenant"] := by
  rcases sign_draws L w req with h | ⟨er, he, h⟩
  · rw [h]
    exact List.nil_sublist _
  · obtain ⟨s, r0, -, -, -, rfl⟩ := signEmbed_some he
    rw [h]
    obtain ⟨a, b, hab, ha, hb⟩ := embedSignatures_draws L
      (writeFile w.files (signaturePath req.id req.role) (L.base64Decode (stripDataUrl s)))
      (setSignaturePath req.role (signaturePath req.id req.role) r0)
    rw [hab]
    rcases ha with rfl | ⟨o, rfl⟩ <;> rcases hb with rfl | ⟨o1, rfl⟩ <;>
      simp only [List.nil_append, List.append_nil, List.map, List.cons_append] <;> decide

theorem setSignaturePath_fixed (role path : String) (r0 : LeaseRow) (x : Option String)
    (st : LeaseStatus) :
    setSignaturePath role path
        { setSignaturePath role path r0 with signed_document_path := x, status := st }
      = { setSignaturePath role path r0 with signed_document_path := x, status := st } := by
  unfold setSignaturePath
  split <;> rfl

theorem computedStatus_congr (r r1 : LeaseRow)
    (hl : r.landlord_signature_path = r1.landlord_signature_path)
    (ht : r.tenant_signature_path = r1.tenant_signature_path) :
    computedStatus r = computedStatus r1 := by
  unfold computedStatus
  rw [hl, ht]

theorem writeFile_twice (files : Files) (p : String) (d : Bytes) :
    writeFile (writeFile files p d) p d = writeFile files p d := by
  funext q
  unfold writeFile
  split <;> rfl

/-- Signing again with the same request on an existing lease: the record is
the one the first call left, and when the first embed did not overwrite
anything the second reads, both calls perform the same effects and leave the
same signed artifact. -/
theorem sign_twice_found (L : Libs) (w : World) (req : SignRequest) (s : String)
    (r0 : LeaseRow) (hs : req.signature = some s) (hne : s ≠ "")
    (h0 : selectLease w.leases req.id = some r0) :
    selectLease (sign L (sign L w req).world req).world.leases req.id
      = selectLease (sign L w req).world.leases req.id ∧
    ((setSignaturePath req.role (signaturePath req.id req.role) r0).document_path
        ≠ some (signedFilename req.id) →
      (setSignaturePath req.role (signaturePath req.id req.role) r0).landlord_signature_path
        ≠ some (signedFilename req.id) →
      (setSignaturePath req.role (signaturePath req.id req.role) r0).tenant_signature_path
        ≠ some (signedFilename req.id) →
      (sign L (sign L w req).world req).trace = (sign L w req).trace ∧
      (sign L (sign L w req).world req).world.files (signedFilename req.id)
        = (sign L w req).world.files (signedFilename req.id)) := by
  have hrow1 := sign_row L w req s r0 hs hne h0
  have hfiles1 := sign_files L w req s r0 hs hne h0
  have htrace1 := sign_trace_found L w req s r0 hs hne h0
  cases hE : (embedSignatures L
      (writeFile w.files (signaturePath req.id req.role) (L.base64Decode (stripDataUrl s)))
      (setSignaturePath req.role (signaturePath req.id req.role) r0)).output with
  | none =>
    simp only [hE] at hrow1 hfiles1 htrace1
    have hfix := setSignaturePath_fixed req.role (signaturePath req.id req.role) r0
      (setSignaturePath req.role (signaturePath req.id req.role) r0).signed_document_path
      (computedStatus (setSignaturePath req.role (signaturePath req.id req.role) r0))
    have hE2 : embedSignatures L
        (writeFile (sign L w req).world.files (signaturePath req.id req.role)
          (L.base64Decode (stripDataUrl s)))
        (setSignaturePath req.role (signaturePath req.id req.role)
          { setSignaturePath req.role (signaturePath req.id req.role) r0 with
            status := computedStatus
              (setSignaturePath req.role (signaturePath req.id req.role) r0) })
        = embedSignatures L
          (writeFile w.files (signaturePath req.id req.role)
            (L.base64Decode (stripDataUrl s)))
          (setSignaturePath req.role (signaturePath req.id req.role) r0) := by
      rw [hfiles1, writeFile_twice]
      exact embedSignatures_congr L _ _ _ _ (by rw [hfix]) (by rw [hfix]) (by rw [hfix])
        (fun _ _ => rfl)
    have hrow2 := sign_row L (sign L w req).world req s _ hs hne hrow1
    have htrace2 := sign_trace_found L (sign L w req).world req s _ hs hne hrow1
    have hfiles2 := sign_files L (sign L w req).world req s _ hs hne hrow1
    rw [hE2] at hrow2 htrace2 hfiles2
    simp only [hE] at hrow2 htrace2 hfiles2
    refine ⟨?_, fun _ _ _ => ⟨?_, ?_⟩⟩
    · rw [hrow2, hrow1, hfix]
      exact congrArg some (congrArg (fun st =>
        ({ setSignaturePath req.role (signaturePath req.id req.role) r0 with
            status := st } : LeaseRow))
        (computedStatus_congr _ _ rfl rfl))
    · rw [htrace2, htrace1]
    · rw [hfiles2, hfiles1, writeFile_twice]
  | some doc1 =>
    simp only [hE] at hrow1 hfiles1 htrace1
    have hfix := setSignaturePath_fixed req.role (signaturePath req.id req.role) r0
      (some (signedFilename req.id))
      (computedStatus (setSignaturePath req.role (signaturePath req.id req.role) r0))
    have hrow2 := sign_row L (sign L w req).world req s _ hs hne hrow1
    refine ⟨?_, fun hd hl ht => ?_⟩
    · rw [hrow2, hrow1, hfix]
      split
      · exact congrArg some (congrArg (fun st =>
          ({ setSignaturePath req.role (signaturePath req.id req.role) r0 with
              signed_document_path := some (signedFilename req.id),
              status := st } : LeaseRow))
          (computedStatus_congr _ _ rfl rfl))
      · exact congrArg some (congrArg (fun st =>
          ({ setSignaturePath req.role (signaturePath req.id req.role) r0 with
              signed_document_path := some (signedFilename req.id),
              status := st } : LeaseRow))
          (computedStatus_congr _ _ rfl rfl))
    · have hE2 : embedSignatures L
          (writeFile (sign L w req).world.files (signaturePath req.id req.role)
            (L.base64Decode (stripDataUrl s)))
          (setSignaturePath req.role (signaturePath req.id req.role)
            { setSignaturePath req.role (signaturePath req.id req.role) r0 with
              signed_document_path := some (signedFilename req.id),
              status := computedStatus
                (setSignaturePath req.role (signaturePath req.id req.role) r0) })
          = embedSignatures L
            (writeFile w.files (signaturePath req.id req.role)
              (L.base64Decode (stripDataUrl s)))
            (setSignaturePath req.role (signaturePath req.id req.role) r0) := by
        rw [hfiles1, hfix]
        refine embedSignatures_congr L _ _ _ _ rfl rfl rfl (fun p hp => ?_)
        have hp1 : p ≠ signedFilename req.id := by
          rintro rfl
          rcases hp with hp | hp | hp
          · exact hd hp
          · exact hl hp
          · exact ht hp
        unfold writeFile
        by_cases hps : p = signaturePath req.id req.role
        · simp [hps]
        · simp [hps, hp1]
      have htrace2 := sign_trace_found L (sign L w req).world req s _ hs hne hrow1
      have hfiles2 := sign_files L (sign L w req).world req s _ hs hne hrow1
      rw [hE2] at htrace2 hfiles2
      simp only [hE] at htrace2 hfiles2
      refine ⟨?_, ?_⟩
      · rw [htrace2, htrace1]
      · rw [hfiles2, hfiles1]
        simp [writeFile]

/-- Signing again with the same request on a lease that does not exist. -/
theorem sign_twice_missing (L : Libs) (w : World) (req : SignRequest) (s : String)
    (hs : req.signature = some s) (hne : s ≠ "")
    (h0 : selectLease w.leases req.id = none) :
    (sign L (sign L w req).world req).trace = (sign L w req).trace ∧
    (sign L (sign L w req).world req).world.files = (sign L w req).world.files := by
  have h1 : selectLease (sign L w req).world.leases req.id = none :=
    sign_select_missing L w req h0
  rw [sign_eq_missing L (sign L w req).world req s hs hne h1]
  rw [sign_eq_missing L w req s hs hne h0]
  exact ⟨rfl, writeFile_twice _ _ _⟩

/-- At a URL that names the lease by the decimal text of its id, signing twice
in a row as the same role with the same image leaves every lease record, the
number of records and the signature image at
`signatures/<leaseId>-<role>.png` as after the first call; each call draws at
most one image per role; and for a lease whose stored paths do not name its
own signed artifact the second call performs the same effects as the first,
with the same images drawn and the same signed artifact. -/
theorem sign_same_role_twice_idempotent (L : Libs) (w : World) (req : SignRequest) :
    (∀ j, selectLease (sign L (sign L w req).world req).world.leases j
      = selectLease (sign L w req).world.leases j) ∧
    (sign L (sign L w req).world req).world.leases.length
      = (sign L w req).world.leases.length ∧
    (sign L (sign L w req).world req).world.files (signaturePath req.id req.role)
      = (sign L w req).world.files (signaturePath req.id req.role) ∧
    (∀ s, req.signature = some s → s ≠ "" →
      (sign L (sign L w req).world req).world.files (signaturePath req.id req.role)
        = some (L.base64Decode (stripDataUrl s))) ∧
    List.Sublist ((drawsOf (sign L (sign L w req).world req).trace).map Prod.fst)
      ["landlord", "tenant"] ∧
    ((∀ r0, selectLease w.leases req.id = some r0 →
        r0.document_path ≠ some (signedFilename req.id) ∧
        r0.landlord_signature_path ≠ some (signedFilename req.id) ∧
        r0.tenant_signature_path ≠ some (signedFilename req.id)) →
      (sign L (sign L w req).world req).trace = (sign L w req).trace ∧
      drawsOf (sign L (sign L w req).world req).trace = drawsOf (sign L w req).trace ∧
      (sign L (sign L w req).world req).world.files (signedFilename req.id)
        = (sign L w req).world.files (signedFilename req.id)) := by
  by_cases hv : truthy req.signature = true
  · obtain ⟨s, hs, hne⟩ := truthy_eq_some hv
    have hsp : ∀ w1 : World, (sign L w1 req).world.files (signaturePath req.id req.role)
        = some (L.base64Decode (stripDataUrl s)) :=
      fun w1 => sign_files_signaturePath L w1 req s hs hne
    refine ⟨fun j => ?_, ?_, ?_, ?_, sign_draws_roles L _ req, fun hna => ?_⟩
    · by_cases hj : j = req.id
      · subst hj
        cases h0 : selectLease w.leases req.id with
        | none =>
          rw [sign_select_missing L w req h0]
          exact sign_select_missing L _ req (sign_select_missing L w req h0)
        | some r0 => exact (sign_twice_found L w req s r0 hs hne h0).1
      · rw [sign_select_ne L _ req j hj]
    · exact sign_leases_length L _ req
    · rw [hsp, hsp]
    · intro s1 hs1 _
      rw [hsp]
      rw [hs] at hs1
      rw [Option.some.inj hs1]
    · cases h0 : selectLease w.leases req.id with
      | none =>
        obtain ⟨h1, h2⟩ := sign_twice_missing L w req s hs hne h0
        exact ⟨h1, by rw [h1], by rw [h2]⟩
      | some r0 =>
        obtain ⟨hd, hl, ht⟩ := hna r0 h0
        have hS := signedFilename_ne_signaturePath req.id req.role
        obtain ⟨h1, h2⟩ := (sign_twice_found L w req s r0 hs hne h0).2
          (by rw [setSignaturePath_document_path]; exact hd)
          (by
            unfold setSignaturePath
            split
            · exact fun h => hS (Option.some.inj h).symm
            · exact hl)
          (by
            unfold setSignaturePath
            split
            · exact ht
            · exact fun h => hS (Option.some.inj h).symm)
        exact ⟨h1, by rw [h1], h2⟩
  · have hi := sign_eq_invalid L w req (by simpa using hv)
    have hw : (sign L w req).world = w := by rw [hi]
    refine ⟨fun _ => ?_, ?_, ?_, ?_, sign_draws_roles L _ req, fun _ => ⟨?_, ?_, ?_⟩⟩
    · rw [hw, hw]
    · rw [hw, hw]
    · rw [hw, hw]
    · intro s hs hne
      exact absurd (by simp [truthy, hs, hne] : truthy req.signature = true) hv
    · rw [hw]
    · rw [hw]
    · rw [hw, hw]

/-- Lease 42: the landlord signs twice with the same image; the second call
repeats the effects of the first and the record is unchanged. -/
theorem sign_same_role_twice_idempotent_witness :
    selectLease (sign demoLibs (sign demoLibs world42 landlordSigns).world
        landlordSigns).world.leases 42
      = selectLease (sign demoLibs world42 landlordSigns).world.leases 42 ∧
    (sign demoLibs (sign demoLibs world42 landlordSigns).world landlordSigns).trace
      = (sign demoLibs world42 landlordSigns).trace ∧
    drawsOf (sign demoLibs world42 landlordSigns).trace =
      [("landlord", ⟨[137, 76, 65, 78, 68], 72, 142, 200, 50⟩)] :=
  have T := sign_same_role_twice_idempotent demoLibs world42 landlordSigns
  ⟨T.1 42,
    (T.2.2.2.2.2 (fun r0 h0 => by
      have h1 : r0 = lease42 := (Option.some.inj h0).symm
      subst h1
      decide)).1,
    by decide⟩

/-! ## The document the overlays are drawn on -/

theorem drawSignature_some (L : Libs) (files : Files) (heights : List Int)
    (role : String) (pos : Anchor) (sigPath : Option String) (os : List Overlay)
    (h : (drawSignature L files heights role pos sigPath).2 = some os) :
    (drawsOf (drawSignature L files heights role pos sigPath).1).map Prod.snd = os := by
  unfold drawSignature at h ⊢
  split
  · simp_all [drawsOf]
  · split
    · simp_all [drawsOf]
    · split
      · simp_all
      · split
        · split
          · simp_all
          · simp_all [drawsOf]
        · simp_all

/-- A successful embed step loaded the file at `document_path`, and the
document it returns is that file with the images of the trace drawn on it. -/
theorem embedSignatures_some (L : Libs) (files : Files) (row : LeaseRow) (doc : PdfDoc)
    (h : (embedSignatures L files row).output = some doc) :
    ∃ dp, row.document_path = some dp ∧ files dp = some doc.source ∧
      L.pdfParse doc.source = some doc.pageHeights ∧
      doc.drawn = (drawsOf (embedSignatures L files row).trace).map Prod.snd ∧
      (readsOf (embedSignatures L files row).trace).head? = some dp := by
  unfold embedSignatures at h ⊢
  cases hdp : row.document_path with
  | none => simp [hdp] at h
  | some dp =>
    simp only [hdp] at h ⊢
    cases hb : files dp with
    | none => simp [hb] at h
    | some base =>
      simp only [hb] at h ⊢
      cases hp : L.pdfParse base with
      | none => simp [hp] at h
      | some heights =>
        simp only [hp] at h ⊢
        cases hl : (drawSignature L files heights "landlord" L.signaturePositions.landlord
            row.landlord_signature_path).2 with
        | none => simp [hl] at h
        | some os1 =>
          simp only [hl] at h ⊢
          cases ht : (drawSignature L files heights "tenant" L.signaturePositions.tenant
              row.tenant_signature_path).2 with
          | none => simp [ht] at h
          | some os2 =>
            simp only [ht, Option.some.injEq] at h ⊢
            subst h
            refine ⟨dp, rfl, hb, hp, ?_, ?_⟩
            · have e1 := drawSignature_some L files heights "landlord" _ _ os1 hl
              have e2 := drawSignature_some L files heights "tenant" _ _ os2 ht
              simp only [drawsOf] at e1 e2 ⊢
              simp [List.filterMap_append, e1, e2]
            · simp [readsOf]

/-- The embed step does not look at `signed_document_path`. -/
theorem embedSignatures_signed_path (L : Libs) (files : Files) (row : LeaseRow)
    (x : Option String) :
    embedSignatures L files { row with signed_document_path := x }
      = embedSignatures L files row := rfl

/-- The record of a lease after a sequence of sign calls comes from a record
with the same document path. -/
theorem signs_document_path (L : Libs) (rs : List SignRequest) :
    ∀ (w : World) (j : Nat) (row : LeaseRow),
      selectLease (run L w (rs.map Request.sign)).leases j = some row →
      ∃ r0, selectLease w.leases j = some r0 ∧ r0.document_path = row.document_path := by
  induction rs with
  | nil => intro w j row h; exact ⟨row, h, rfl⟩
  | cons r rs ih =>
    intro w j row h
    obtain ⟨r1, h1, h2⟩ := ih (step L w (Request.sign r)) j row h
    rcases sign_spec L w r j with h3 | ⟨-, r0, row1, h4, h5, -, -, -, -, h6, -⟩
    · exact ⟨r1, h3.symm.trans h1, h2⟩
    · have : row1 = r1 := Option.some.inj (h5.symm.trans h1)
      subst this
      exact ⟨r0, h4, h6.symm.trans h2⟩

/-- A file that no sign call of a sequence writes is left as it was. -/
theorem signs_files_other (L : Libs) (rs : List SignRequest) (p : String) :
    ∀ w : World,
      (∀ r ∈ rs, p ≠ signaturePath r.id r.role ∧ p ≠ signedFilename r.id) →
      (run L w (rs.map Request.sign)).files p = w.files p := by
  induction rs with
  | nil => intro w _; rfl
  | cons r rs ih =>
    intro w h
    have h1 := h r (List.mem_cons_self _ _)
    have h2 := ih (step L w (Request.sign r)) (fun r1 hr1 => h r1 (List.mem_cons_of_mem _ hr1))
    exact h2.trans (sign_files_other L w r p h1.1 h1.2)

theorem updateLease_signed_path_select (w : World) (req : SignRequest) (r0 : LeaseRow)
    (x : Option String) (h0 : selectLease w.leases req.id = some r0) :
    selectLease (updateLease w.leases req.id
        (fun r => { r with signed_document_path := x })) req.id
      = some { r0 with signed_document_path := x } := by
  rw [selectLease_updateLease _ _ _ _ (by intro r; rfl), h0]
  simp [selectLease_id h0]

/-- C10: every successful embed of the sign handler, after any sequence of
earlier sign calls and whatever `signed_document_path` holds, loads the file at
the `document_path` of the lease, draws at most one image per role on it and
saves the result as the signed artifact; the embed is the same when
`signed_document_path` is replaced by any other value; and when no sign call
of the sequence writes to the document path, the document drawn on is the one
that was stored there before the first call. -/
theorem embed_draws_on_base_document (L : Libs) (w0 : World) (rs : List SignRequest)
    (req : SignRequest) (er : EmbedResult) (doc : PdfDoc)
    (hembed : signEmbed L (run L w0 (rs.map Request.sign)) req = some er)
    (hout : er.output = some doc) :
    ∃ s r0 dp, req.signature = some s ∧
      selectLease (run L w0 (rs.map Request.sign)).leases req.id = some r0 ∧
      r0.document_path = some dp ∧
      (readsOf (sign L (run L w0 (rs.map Request.sign)) req).trace).head? = some dp ∧
      writeFile (run L w0 (rs.map Request.sign)).files (signaturePath req.id req.role)
        (L.base64Decode (stripDataUrl s)) dp = some doc.source ∧
      (sign L (run L w0 (rs.map Request.sign)) req).world.files (signedFilename req.id)
        = some (L.pdfSave doc) ∧
      doc.drawn
        = (drawsOf (sign L (run L w0 (rs.map Request.sign)) req).trace).map Prod.snd ∧
      List.Sublist
        ((drawsOf (sign L (run L w0 (rs.map Request.sign)) req).trace).map Prod.fst)
        ["landlord", "tenant"] ∧
      doc.drawn.length ≤ 2 ∧
      (∀ x, signEmbed L
          { run L w0 (rs.map Request.sign) with
            leases := updateLease (run L w0 (rs.map Request.sign)).leases req.id
              (fun r => { r with signed_document_path := x }) } req = some er) ∧
      ((∀ r ∈ rs ++ [req], dp ≠ signaturePath r.id r.role ∧ dp ≠ signedFilename r.id) →
        (∃ r00, selectLease w0.leases req.id = some r00 ∧ r00.document_path = some dp) ∧
        w0.files dp = some doc.source) := by
  obtain ⟨s, r0, hs, hne, h0, rfl⟩ := signEmbed_some hembed
  obtain ⟨dp, hdp, hbase, -, hdrawn, hread⟩ := embedSignatures_some L _ _ doc hout
  rw [setSignaturePath_document_path] at hdp
  have htrace := sign_trace_found L _ req s r0 hs hne h0
  have hfiles := sign_files L _ req s r0 hs hne h0
  simp only [hout] at htrace hfiles
  have hdraws : drawsOf (sign L (run L w0 (rs.map Request.sign)) req).trace
      = drawsOf (embedSignatures L
          (writeFile (run L w0 (rs.map Request.sign)).files (signaturePath req.id req.role)
            (L.base64Decode (stripDataUrl s)))
          (setSignaturePath req.role (signaturePath req.id req.role) r0)).trace := by
    rw [htrace]
    simp [drawsOf]
  have hroles := sign_draws_roles L (run L w0 (rs.map Request.sign)) req
  refine ⟨s, r0, dp, hs, h0, hdp, ?_, hbase, ?_, ?_, hroles, ?_, fun x => ?_, fun hna => ?_⟩
  · rw [htrace]
    cases hr : readsOf (embedSignatures L
        (writeFile (run L w0 (rs.map Request.sign)).files (signaturePath req.id req.role)
          (L.base64Decode (stripDataUrl s)))
        (setSignaturePath req.role (signaturePath req.id req.role) r0)).trace with
    | nil => simp [hr] at hread
    | cons a rest =>
      rw [hr] at hread
      simp only [readsOf] at hr ⊢
      simp only [List.head?_cons, Option.some.injEq] at hread
      simp [List.filterMap_append, hr, hread]
  · rw [hfiles]
    simp [writeFile]
  · rw [hdraws]
    exact hdrawn
  · have h1 := hroles.length_le
    rw [hdrawn, ← hdraws]
    simpa using h1
  · rw [signEmbed_eq L _ req s { r0 with signed_document_path := x } hs hne
      (updateLease_signed_path_select _ req r0 x h0)]
    refine congrArg some (embedSignatures_congr L _ _ _ _ ?_ ?_ ?_ (fun _ _ => rfl))
    · rw [setSignaturePath_document_path, setSignaturePath_document_path]
    · unfold setSignaturePath
      split <;> rfl
    · unfold setSignaturePath
      split <;> rfl
  · obtain ⟨r00, h00, hd00⟩ := signs_document_path L rs w0 req.id r0 h0
    have hreq := hna req (by simp)
    have hrs := signs_files_other L rs dp w0 (fun r hr => hna r (by simp [hr]))
    refine ⟨⟨r00, h00, hd00.trans hdp⟩, ?_⟩
    rw [← hrs, ← hbase]
    simp [writeFile, hreq.1]

/-- Lease 42 after the landlord signed: the embed of the tenant's call loads
`lease-1700.pdf`, as stored before the first signature, and draws two images
on it. -/
theorem embed_draws_on_base_document_witness :
    signEmbed demoLibs (run demoLibs world42 ([landlordSigns].map Request.sign)) tenantSigns
      = some tenantEmbed ∧
    tenantEmbed.output = some bothDrawn ∧
    ∃ s r0 dp, tenantSigns.signature = some s ∧
      selectLease (run demoLibs world42 ([landlordSigns].map Request.sign)).leases
        tenantSigns.id = some r0 ∧
      r0.document_path = some dp ∧
      (readsOf (sign demoLibs (run demoLibs world42 ([landlordSigns].map Request.sign))
        tenantSigns).trace).head? = some dp ∧
      writeFile (run demoLibs world42 ([landlordSigns].map Request.sign)).files
        (signaturePath tenantSigns.id tenantSigns.role)
        (demoLibs.base64Decode (stripDataUrl s)) dp = some bothDrawn.source ∧
      (sign demoLibs (run demoLibs world42 ([landlordSigns].map Request.sign))
          tenantSigns).world.files (signedFilename tenantSigns.id)
        = some (demoLibs.pdfSave bothDrawn) := by
  obtain ⟨s, r0, dp, h1, h2, h3, h4, h5, h6, _⟩ :=
    embed_draws_on_base_document demoLibs world42 [landlordSigns] tenantSigns tenantEmbed
      bothDrawn (by rfl) rfl
  exact ⟨by rfl, rfl, s, r0, dp, h1, h2, h3, h4, h5, h6⟩

/-! ## Where the overlays are drawn -/

/-- An image drawn by a block of the embed step is drawn under the role of the
block, at the anchor of the block, for the height of the first page. -/
theorem drawSignature_mem (L : Libs) (files : Files) (heights : List Int)
    (role : String) (pos : Anchor) (sigPath : Option String) (r : String) (o : Overlay)
    (h : (r, o) ∈ drawsOf (drawSignature L files heights role pos sigPath).1) :
    r = role ∧ ∃ pageHeight p bytes, heights.head? = some pageHeight ∧ sigPath = some p ∧
      p ≠ "" ∧ files p = some bytes ∧ L.isPng bytes = true ∧
      o = overlayAt pos pageHeight bytes := by
  unfold drawSignature at h
  split at h
  · simp [drawsOf] at h
  · rename_i p
    split at h
    · simp [drawsOf] at h
    · rename_i hp
      split at h
      · simp [drawsOf] at h
      · rename_i bytes hb
        split at h
        · rename_i hpng
          split at h
          · simp [drawsOf] at h
          · rename_i pageHeight hh
            simp only [drawsOf, List.filterMap_cons, List.filterMap_nil, List.mem_singleton,
              Prod.mk.injEq] at h
            exact ⟨h.1, pageHeight, p, bytes, hh, rfl, hp, hb, hpng, h.2⟩
        · simp [drawsOf] at h

/-- An image drawn by the embed step is drawn by one of its two blocks, on a
document that was loaded from the document path of the row. -/
theorem embedSignatures_draw_mem (L : Libs) (files : Files) (row : LeaseRow) (r : String)
    (o : Overlay) (h : (r, o) ∈ drawsOf (embedSignatures L files row).trace) :
    ∃ dp base heights, row.document_path = some dp ∧ files dp = some base ∧
      L.pdfParse base = some heights ∧
      ((r, o) ∈ drawsOf (drawSignature L files heights "landlord"
          L.signaturePositions.landlord row.landlord_signature_path).1 ∨
        (r, o) ∈ drawsOf (drawSignature L files heights "tenant"
          L.signaturePositions.tenant row.tenant_signature_path).1) := by
  unfold embedSignatures at h
  cases hdp : row.document_path with
  | none => simp [hdp, drawsOf] at h
  | some dp =>
    simp only [hdp] at h
    cases hb : files dp with
    | none => simp [hb, drawsOf] at h
    | some base =>
      simp only [hb] at h
      cases hp : L.pdfParse base with
      | none => simp [hp, drawsOf] at h
      | some heights =>
        simp only [hp] at h
        refine ⟨dp, base, heights, rfl, hb, hp, ?_⟩
        split at h
        · left
          simpa [drawsOf] using h
        · split at h
          · simpa [drawsOf, List.filterMap_append] using h
          · simpa [drawsOf, List.filterMap_append] using h

theorem anchorOf_landlord (L : Libs) : anchorOf L "landlord" = L.signaturePositions.landlord := by
  simp [anchorOf]

theorem anchorOf_tenant (L : Libs) : anchorOf L "tenant" = L.signaturePositions.tenant := by
  simp [anchorOf]

theorem topEdge_overlayAt (pos : Anchor) (pageHeight : Int) (image : Bytes) :
    topEdge pageHeight (overlayAt pos pageHeight image) = pos.y := by
  unfold topEdge overlayAt
  simp only
  omega

theorem bottomEdge_overlayAt (pos : Anchor) (pageHeight : Int) (image : Bytes) :
    bottomEdge pageHeight (overlayAt pos pageHeight image) = pos.y + pos.height := by
  unfold bottomEdge overlayAt
  simp only
  omega

/-- In integers: every image the sign handler draws is drawn for the landlord
or the tenant at `x = anchor.x`, `y = pageHeight - anchor.y - anchor.height` with the
width and height of the anchor, where `pageHeight` is the height of the first
page of the document at the document path; measured from the top of the page,
its top edge is at `anchor.y` and its bottom edge at `anchor.y + anchor.height`,
and so it is for every page height and anchor. -/
theorem overlay_drawn_at_anchor (L : Libs) (w : World) (req : SignRequest) (role : String)
    (o : Overlay) (hdraw : (role, o) ∈ drawsOf (sign L w req).trace) :
    (role = "landlord" ∨ role = "tenant") ∧
    (∃ pageHeight,
      o.x = (anchorOf L role).x ∧
      o.y = pageHeight - (anchorOf L role).y - (anchorOf L role).height ∧
      o.width = (anchorOf L role).width ∧
      o.height = (anchorOf L role).height ∧
      topEdge pageHeight o = (anchorOf L role).y ∧
      bottomEdge pageHeight o = (anchorOf L role).y + (anchorOf L role).height ∧
      ∃ s r0 dp base hs, req.signature = some s ∧ selectLease w.leases req.id = some r0 ∧
        r0.document_path = some dp ∧
        writeFile w.files (signaturePath req.id req.role)
          (L.base64Decode (stripDataUrl s)) dp = some base ∧
        L.pdfParse base = some (pageHeight :: hs)) ∧
    (∀ (pos : Anchor) (pageHeight : Int) (image : Bytes),
      (overlayAt pos pageHeight image).x = pos.x ∧
      (overlayAt pos pageHeight image).y = pageHeight - pos.y - pos.height ∧
      (overlayAt pos pageHeight image).width = pos.width ∧
      (overlayAt pos pageHeight image).height = pos.height ∧
      topEdge pageHeight (overlayAt pos pageHeight image) = pos.y ∧
      bottomEdge pageHeight (overlayAt pos pageHeight image) = pos.y + pos.height) := by
  have hpure : ∀ (pos : Anchor) (pageHeight : Int) (image : Bytes),
      (overlayAt pos pageHeight image).x = pos.x ∧
      (overlayAt pos pageHeight image).y = pageHeight - pos.y - pos.height ∧
      (overlayAt pos pageHeight image).width = pos.width ∧
      (overlayAt pos pageHeight image).height = pos.height ∧
      topEdge pageHeight (overlayAt pos pageHeight image) = pos.y ∧
      bottomEdge pageHeight (overlayAt pos pageHeight image) = pos.y + pos.height :=
    fun pos pageHeight image =>
      ⟨rfl, rfl, rfl, rfl, topEdge_overlayAt pos pageHeight image,
        bottomEdge_overlayAt pos pageHeight image⟩
  rcases sign_draws L w req with h0 | ⟨er, he, h1⟩
  · rw [h0] at hdraw
    exact absurd hdraw (List.not_mem_nil _)
  · rw [h1] at hdraw
    obtain ⟨s, r0, hs, -, hr0, rfl⟩ := signEmbed_some he
    obtain ⟨dp, base, heights, hdp, hbase, hparse, hblock⟩ :=
      embedSignatures_draw_mem L _ _ role o hdraw
    rw [setSignaturePath_document_path] at hdp
    rcases hblock with hb | hb
    · obtain ⟨hr, pageHeight, p, bytes, hh, -, -, -, -, ho⟩ :=
        drawSignature_mem L _ heights "landlord" _ _ role o hb
      subst hr
      subst ho
      rw [anchorOf_landlord]
      cases heights with
      | nil => simp at hh
      | cons h hs1 =>
        simp only [List.head?_cons, Option.some.injEq] at hh
        subst hh
        exact ⟨Or.inl rfl, ⟨h, rfl, rfl, rfl, rfl, topEdge_overlayAt _ _ _,
          bottomEdge_overlayAt _ _ _, s, r0, dp, base, hs1, hs, hr0, hdp, hbase, hparse⟩,
          hpure⟩
    · obtain ⟨hr, pageHeight, p, bytes, hh, -, -, -, -, ho⟩ :=
        drawSignature_mem L _ heights "tenant" _ _ role o hb
      subst hr
      subst ho
      rw [anchorOf_tenant]
      cases heights with
      | nil => simp at hh
      | cons h hs1 =>
        simp only [List.head?_cons, Option.some.injEq] at hh
        subst hh
        exact ⟨Or.inr rfl, ⟨h, rfl, rfl, rfl, rfl, topEdge_overlayAt _ _ _,
          bottomEdge_overlayAt _ _ _, s, r0, dp, base, hs1, hs, hr0, hdp, hbase, hparse⟩,
          hpure⟩

/-- Lease 42 on a page of height 792: the landlord image is drawn at
`y = 792 - 600 - 50`, with its top edge at the `y` of the landlord anchor. -/
theorem overlay_drawn_at_anchor_witness :
    (("landlord", ⟨[137, 76, 65, 78, 68], 72, 142, 200, 50⟩) : String × Overlay)
      ∈ drawsOf (sign demoLibs world42 landlordSigns).trace ∧
    topEdge 792 ⟨[137, 76, 65, 78, 68], 72, 142, 200, 50⟩ = 600 ∧
    ∃ pageHeight,
      topEdge pageHeight ⟨[137, 76, 65, 78, 68], 72, 142, 200, 50⟩
        = (anchorOf demoLibs "landlord").y ∧
      bottomEdge pageHeight ⟨[137, 76, 65, 78, 68], 72, 142, 200, 50⟩
        = (anchorOf demoLibs "landlord").y + (anchorOf demoLibs "landlord").height := by
  obtain ⟨-, ⟨pageHeight, -, -, -, -, ht, hb, -⟩, -⟩ :=
    overlay_drawn_at_anchor demoLibs world42 landlordSigns "landlord"
      ⟨[137, 76, 65, 78, 68], 72, 142, 200, 50⟩ (by decide)
  exact ⟨by decide, by decide, pageHeight, ht, hb⟩

/-! ## One signature -/

theorem drawSignature_absent (L : Libs) (files : Files) (heights : List Int)
    (role : String) (pos : Anchor) (sigPath : Option String)
    (h : truthy sigPath = false) :
    drawSignature L files heights role pos sigPath = ([], some []) := by
  unfold drawSignature
  cases sigPath with
  | none => rfl
  | some p =>
    have : p = "" := by simpa [truthy] using h
    simp [this]

/-- A block of the embed step whose path is set and which does not throw has
drawn one image. -/
theorem drawSignature_present (L : Libs) (files : Files) (heights : List Int)
    (role : String) (pos : Anchor) (sigPath : Option String) (os : List Overlay)
    (ht : truthy sigPath = true)
    (h : (drawSignature L files heights role pos sigPath).2 = some os) :
    ∃ pageHeight image, heights.head? = some pageHeight ∧
      files (sigPath.getD "") = some image ∧
      os = [overlayAt pos pageHeight image] ∧
      drawsOf (drawSignature L files heights role pos sigPath).1
        = [(role, overlayAt pos pageHeight image)] := by
  obtain ⟨p, rfl, hp⟩ := truthy_eq_some ht
  unfold drawSignature at h ⊢
  simp only [hp, if_false] at h ⊢
  cases hb : files p with
  | none => simp [hb] at h
  | some bytes =>
    simp only [hb] at h ⊢
    by_cases hpng : L.isPng bytes = true
    · simp only [hpng, if_true] at h ⊢
      cases hh : heights.head? with
      | none => simp [hh] at h
      | some pageHeight =>
        simp only [hh, Option.some.injEq] at h ⊢
        exact ⟨pageHeight, bytes, rfl, by simpa using hb, h.symm, by simp [drawsOf]⟩
    · simp [hpng] at h

/-- A successful embed step ran both blocks, and its images are those of the
landlord block followed by those of the tenant block. -/
theorem embedSignatures_blocks (L : Libs) (files : Files) (row : LeaseRow) (doc : PdfDoc)
    (h : (embedSignatures L files row).output = some doc) :
    ∃ os1 os2,
      (drawSignature L files doc.pageHeights "landlord" L.signaturePositions.landlord
        row.landlord_signature_path).2 = some os1 ∧
      (drawSignature L files doc.pageHeights "tenant" L.signaturePositions.tenant
        row.tenant_signature_path).2 = some os2 ∧
      doc.drawn = os1 ++ os2 ∧
      drawsOf (embedSignatures L files row).trace =
        drawsOf (drawSignature L files doc.pageHeights "landlord"
          L.signaturePositions.landlord row.landlord_signature_path).1 ++
        drawsOf (drawSignature L files doc.pageHeights "tenant"
          L.signaturePositions.tenant row.tenant_signature_path).1 := by
  unfold embedSignatures at h ⊢
  cases hdp : row.document_path with
  | none => simp [hdp] at h
  | some dp =>
    simp only [hdp] at h ⊢
    cases hb : files dp with
    | none => simp [hb] at h
    | some base =>
      simp only [hb] at h ⊢
      cases hp : L.pdfParse base with
      | none => simp [hp] at h
      | some heights =>
        simp only [hp] at h ⊢
        cases hl : (drawSignature L files heights "landlord" L.signaturePositions.landlord
            row.landlord_signature_path).2 with
        | none => simp [hl] at h
        | some os1 =>
          simp only [hl] at h ⊢
          cases ht : (drawSignature L files heights "tenant" L.signaturePositions.tenant
              row.tenant_signature_path).2 with
          | none => simp [ht] at h
          | some os2 =>
            simp only [ht, Option.some.injEq] at h ⊢
            subst h
            exact ⟨os1, os2, hl, ht, rfl, by simp [drawsOf, List.filterMap_append]⟩

/-- C12: when exactly one of the two signature paths of the row is set, the
embed step draws no image under the other role and at most one image in all;
when it does not throw it draws exactly one image, the file at the path that
is set, at the anchor of that role for the height of the first page, and the
document it returns carries that image and no other. -/
theorem one_signature_one_overlay (L : Libs) (files : Files) (row : LeaseRow)
    (hone : truthy row.landlord_signature_path ≠ truthy row.tenant_signature_path) :
    (∀ r o, (r, o) ∈ drawsOf (embedSignatures L files row).trace → r = onlyRole row) ∧
    (drawsOf (embedSignatures L files row).trace).length ≤ 1 ∧
    (∀ doc, (embedSignatures L files row).output = some doc →
      ∃ pageHeight image, doc.pageHeights.head? = some pageHeight ∧
        files ((pathOf row (onlyRole row)).getD "") = some image ∧
        drawsOf (embedSignatures L files row).trace
          = [(onlyRole row, overlayAt (anchorOf L (onlyRole row)) pageHeight image)] ∧
        doc.drawn = [overlayAt (anchorOf L (onlyRole row)) pageHeight image]) := by
  have hrole : ∀ r o, (r, o) ∈ drawsOf (embedSignatures L files row).trace →
      r = onlyRole row := by
    intro r o h
    obtain ⟨dp, base, heights, -, -, -, hblock⟩ := embedSignatures_draw_mem L files row r o h
    rcases hblock with hb | hb
    · obtain ⟨hr, -, p, -, -, hp, hne, -, -, -⟩ := drawSignature_mem L _ _ _ _ _ r o hb
      have : truthy row.landlord_signature_path = true := by simp [hp, truthy, hne]
      simp [onlyRole, this, hr]
    · obtain ⟨hr, -, p, -, -, hp, hne, -, -, -⟩ := drawSignature_mem L _ _ _ _ _ r o hb
      have ht : truthy row.tenant_signature_path = true := by simp [hp, truthy, hne]
      have hl : truthy row.landlord_signature_path = false := by
        cases h1 : truthy row.landlord_signature_path
        · rfl
        · exact absurd (h1.trans ht.symm) hone
      simp [onlyRole, hl, hr]
  refine ⟨hrole, ?_, ?_⟩
  · obtain ⟨a, b, hab, ha, hb⟩ := embedSignatures_draws L files row
    rcases ha with rfl | ⟨o1, rfl⟩ <;> rcases hb with rfl | ⟨o2, rfl⟩
    · simp [hab]
    · simp [hab]
    · simp [hab]
    · have h1 := hrole "landlord" o1 (by simp [hab])
      have h2 := hrole "tenant" o2 (by simp [hab])
      exact absurd (h1.trans h2.symm) (by decide)
  · intro doc hdoc
    obtain ⟨os1, os2, hl, ht, hdrawn, htrace⟩ := embedSignatures_blocks L files row doc hdoc
    by_cases hland : truthy row.landlord_signature_path = true
    · have hten : truthy row.tenant_signature_path = false := by
        cases h1 : truthy row.tenant_signature_path
        · rfl
        · exact absurd (hland.trans h1.symm) hone
      obtain ⟨pageHeight, image, hh, hf, hos, hd⟩ :=
        drawSignature_present L files _ _ _ _ os1 hland hl
      have habs := drawSignature_absent L files doc.pageHeights "tenant"
        L.signaturePositions.tenant _ hten
      rw [habs] at ht htrace
      have hos2 : os2 = [] := (Option.some.inj ht).symm
      refine ⟨pageHeight, image, hh, ?_, ?_, ?_⟩
      · simpa [onlyRole, hland, pathOf] using hf
      · rw [htrace, hd]
        simp [onlyRole, hland, anchorOf, drawsOf]
      · rw [hdrawn, hos, hos2]
        simp [onlyRole, hland, anchorOf]
    · have hland1 : truthy row.landlord_signature_path = false := by simpa using hland
      have hten : truthy row.tenant_signature_path = true := by
        cases h1 : truthy row.tenant_signature_path
        · exact absurd (hland1.trans h1.symm) hone
        · rfl
      obtain ⟨pageHeight, image, hh, hf, hos, hd⟩ :=
        drawSignature_present L files _ _ _ _ os2 hten ht
      have habs := drawSignature_absent L files doc.pageHeights "landlord"
        L.signaturePositions.landlord _ hland1
      rw [habs] at hl htrace
      have hos1 : os1 = [] := (Option.some.inj hl).symm
      refine ⟨pageHeight, image, hh, ?_, ?_, ?_⟩
      · simpa [onlyRole, hland1, pathOf] using hf
      · rw [htrace, hd]
        simp [onlyRole, hland1, anchorOf, drawsOf]
      · rw [hdrawn, hos, hos1]
        simp [onlyRole, hland1, anchorOf]

/-- Lease 42 with the landlord signature alone: the embed step draws the
landlord image and nothing else. -/
theorem one_signature_one_overlay_witness :
    truthy landlordOnlyRow.landlord_signature_path
      ≠ truthy landlordOnlyRow.tenant_signature_path ∧
    (embedSignatures demoLibs landlordOnlyFiles landlordOnlyRow).output
      = some landlordDrawn ∧
    (drawsOf (embedSignatures demoLibs landlordOnlyFiles landlordOnlyRow).trace).length ≤ 1 ∧
    ∃ pageHeight image, landlordDrawn.pageHeights.head? = some pageHeight ∧
      landlordOnlyFiles ((pathOf landlordOnlyRow (onlyRole landlordOnlyRow)).getD "")
        = some image ∧
      drawsOf (embedSignatures demoLibs landlordOnlyFiles landlordOnlyRow).trace
        = [(onlyRole landlordOnlyRow,
            overlayAt (anchorOf demoLibs (onlyRole landlordOnlyRow)) pageHeight image)] ∧
      landlordDrawn.drawn
        = [overlayAt (anchorOf demoLibs (onlyRole landlordOnlyRow)) pageHeight image] :=
  ⟨by decide, by rfl,
    (one_signature_one_overlay demoLibs landlordOnlyFiles landlordOnlyRow (by decide)).2.1,
    (one_signature_one_overlay demoLibs landlordOnlyFiles landlordOnlyRow (by decide)).2.2
      landlordDrawn (by rfl)⟩

/-! ## The download handler -/

/-- C13: download sends the file at `signed_document_path` exactly when the
lease exists, the field is set and the file is in the store, and then it sends
that file under that path; for a missing lease, a lease without signed path
and a signed path whose file is absent it answers 404, reads no file and
sends no payload; it never changes the state. -/
theorem download_iff_artifact (w : World) (id : Nat) :
    (download w id).world = w ∧
    ((∃ path data, (download w id).response = Response.download path data) ↔
      ∃ lease data, selectLease w.leases id = some lease ∧
        truthy lease.signed_document_path = true ∧
        w.files (lease.signed_document_path.getD "") = some data) ∧
    (∀ lease data, selectLease w.leases id = some lease →
      truthy lease.signed_document_path = true →
      w.files (lease.signed_document_path.getD "") = some data →
      (download w id).response
        = Response.download (lease.signed_document_path.getD "") data) ∧
    (selectLease w.leases id = none →
      (download w id).response = Response.error 404 "Lease not found") ∧
    (∀ lease, selectLease w.leases id = some lease →
      truthy lease.signed_document_path = false →
      (download w id).response = Response.error 404 "Signed document not available") ∧
    (∀ lease, selectLease w.leases id = some lease →
      truthy lease.signed_document_path = true →
      w.files (lease.signed_document_path.getD "") = none →
      (download w id).response = Response.error 404 "File missing") ∧
    ((¬ ∃ path data, (download w id).response = Response.download path data) →
      (∃ message, (download w id).response = Response.error 404 message) ∧
      readsOf (download w id).trace = []) := by
  cases h0 : selectLease w.leases id with
  | none =>
    simp [download, h0, readsOf]
  | some lease =>
    by_cases ht : truthy lease.signed_document_path = true
    · cases hf : w.files (lease.signed_document_path.getD "") with
      | none =>
        simp [download, h0, ht, hf, readsOf]
        intro l data hl
        subst hl
        simp [hf]
      | some data =>
        simp [download, h0, ht, hf, readsOf]
        intro l data1 hl _ h1
        subst hl
        rw [hf] at h1
        exact ⟨rfl, Option.some.inj h1⟩
    · have ht1 : truthy lease.signed_document_path = false := by simpa using ht
      simp [download, h0, ht1, readsOf]
      intro l data hl
      subst hl
      simp [ht1]

/-- Lease 1 signed by both parties can be downloaded; lease 42 without signed
path cannot. -/
theorem download_iff_artifact_witness :
    (download bothSignedWorld 1).response = Response.download "1-signed.pdf"
      ((bothSignedWorld.files "1-signed.pdf").getD []) ∧
    (bothSignedWorld.files "1-signed.pdf").isSome = true ∧
    (download world42 42).response = Response.error 404 "Signed document not available" :=
  ⟨(download_iff_artifact bothSignedWorld 1).2.2.1 bothSignedRow _ (by decide) (by decide)
      (by rfl),
    by decide,
    (download_iff_artifact world42 42).2.2.2.2.1 lease42 (by decide) (by decide)⟩

/-! ## The signing coordinator -/

/-- The store `downloadSignedDocument` leaves is the one of its full outcome. -/
theorem downloadSignedDocument_eq_result (envs : Envelopes) (files : Files)
    (envelopeId : Option String) (destPath : String) :
    downloadSignedDocument envs files envelopeId destPath =
      match downloadSignedDocumentResult envs files envelopeId destPath with
      | Except.ok r => some r.1
      | Except.error _ => none := by
  unfold downloadSignedDocument downloadSignedDocumentResult
  cases getEnvelope envs envelopeId with
  | none => rfl
  | some info =>
    simp only
    split
    · rfl
    · cases files info.filePath <;> rfl

theorem getEnvelope_sendDocument (envs : Envelopes) (e path : String) :
    getEnvelope (sendDocument envs e path) (some e) = some ⟨EnvelopeStatus.sent, path⟩ := by
  simp [getEnvelope, sendDocument, setEnvelope]

/-- A poll of an envelope leaves it in the map with the file it references. -/
theorem checkStatus_filePath (envs : Envelopes) (eo : Option String) (d : Bool) (e : String)
    (info : Envelope) (h : envs e = some info) :
    ∃ info1, (checkStatus envs eo d).1 e = some info1 ∧ info1.filePath = info.filePath ∧
      (info1.status = info.status ∨
        (info.status = EnvelopeStatus.sent ∧ info1.status = EnvelopeStatus.signed ∧
          eo = some e ∧ d = true)) := by
  unfold checkStatus
  cases eo with
  | none => exact ⟨info, h, rfl, Or.inl rfl⟩
  | some e1 =>
    simp only
    cases h1 : envs e1 with
    | none => exact ⟨info, h, rfl, Or.inl rfl⟩
    | some info0 =>
      simp only
      split
      · rename_i hc
        by_cases he : e = e1
        · subst he
          have : info0 = info := Option.some.inj (h1.symm.trans h)
          subst this
          refine ⟨{ info0 with status := EnvelopeStatus.signed }, by simp [setEnvelope], rfl,
            Or.inr ⟨?_, rfl, rfl, hc.2⟩⟩
          cases hs : info0.status with
          | sent => rfl
          | signed => exact absurd hs hc.1
        · exact ⟨info, by simp [setEnvelope, he, h], rfl, Or.inl rfl⟩
      · exact ⟨info, h, rfl, Or.inl rfl⟩

/-- A poll answers `signed` exactly when it leaves the envelope signed. -/
theorem checkStatus_signed_iff (envs : Envelopes) (e : String) (d : Bool) :
    (checkStatus envs (some e) d).2 = PollStatus.signed ↔
      ∃ info, (checkStatus envs (some e) d).1 e = some info ∧
        info.status = EnvelopeStatus.signed := by
  unfold checkStatus
  simp only
  cases h1 : envs e with
  | none => simp [h1]
  | some info0 =>
    simp only
    split
    · simp [setEnvelope]
    · rename_i hc
      cases hs : info0.status with
      | sent => simp [h1, hs]
      | signed => simp [h1, hs]

/-- C15: `downloadSignedDocument` throws `Document not signed yet` exactly when
the envelope is unknown or its status is not `signed`; whenever it throws, the
store is left as it was; when it returns, it returns the destination, and the
destination holds the content of the file the envelope references, every other
file being untouched; the file an envelope references is the one given to
`sendDocument`, also after polls. -/
theorem downloadSignedDocument_spec (envs : Envelopes) (files : Files)
    (envelopeId : Option String) (destPath : String) :
    (downloadSignedDocumentResult envs files envelopeId destPath
        = Except.error (DownloadError.notSigned "Document not signed yet") ↔
      (getEnvelope envs envelopeId = none ∨
        ∃ info, getEnvelope envs envelopeId = some info ∧
          info.status ≠ EnvelopeStatus.signed)) ∧
    (∀ err, downloadSignedDocumentResult envs files envelopeId destPath = Except.error err →
      downloadSignedDocument envs files envelopeId destPath = none ∧
      (coordStep ⟨envs, files⟩ (CoordOp.downloadSignedDocument envelopeId destPath)).files
        = files) ∧
    (∀ files1 ret,
      downloadSignedDocumentResult envs files envelopeId destPath = Except.ok (files1, ret) →
      ret = destPath ∧
      downloadSignedDocument envs files envelopeId destPath = some files1 ∧
      ∃ info data, getEnvelope envs envelopeId = some info ∧
        info.status = EnvelopeStatus.signed ∧ files info.filePath = some data ∧
        files1 destPath = some data ∧ ∀ p, p ≠ destPath → files1 p = files p) ∧
    (∀ info, getEnvelope envs envelopeId = some info → info.status = EnvelopeStatus.signed →
      files info.filePath = none →
      downloadSignedDocumentResult envs files envelopeId destPath
        = Except.error (DownloadError.copyFailed info.filePath)) ∧
    (∀ e path d info, (checkStatus (sendDocument envs e path) (some e) d).1 e = some info →
      info.filePath = path) := by
  refine ⟨?_, ?_, ?_, ?_, ?_⟩
  · unfold downloadSignedDocumentResult
    cases hg : getEnvelope envs envelopeId with
    | none => simp
    | some info =>
      simp only
      by_cases hs : info.status = EnvelopeStatus.signed
      · cases hf : files info.filePath <;> simp [hs, hf]
      · simp [hs]
  · intro err herr
    have h1 : downloadSignedDocument envs files envelopeId destPath = none := by
      rw [downloadSignedDocument_eq_result, herr]
    refine ⟨h1, ?_⟩
    simp [coordStep, h1]
  · intro files1 ret hok
    have h1 : downloadSignedDocument envs files envelopeId destPath = some files1 := by
      rw [downloadSignedDocument_eq_result, hok]
    unfold downloadSignedDocumentResult at hok
    cases hg : getEnvelope envs envelopeId with
    | none => simp [hg] at hok
    | some info =>
      simp only [hg] at hok
      by_cases hs : info.status = EnvelopeStatus.signed
      · cases hf : files info.filePath with
        | none => simp [hs, hf] at hok
        | some data =>
          simp only [hs, ne_eq, not_true_eq_false, if_false, hf, Except.ok.injEq,
            Prod.mk.injEq] at hok
          refine ⟨hok.2.symm, h1, info, data, rfl, hs, hf, ?_, ?_⟩
          · rw [← hok.1]
            simp [writeFile]
          · intro p hp
            rw [← hok.1]
            simp [writeFile, hp]
      · simp [hs] at hok
  · intro info hg hs hf
    unfold downloadSignedDocumentResult
    simp [hg, hs, hf]
  · intro e path d info h
    obtain ⟨info1, h1, h2, -⟩ := checkStatus_filePath (sendDocument envs e path) (some e) d e
      ⟨EnvelopeStatus.sent, path⟩ (by simp [sendDocument, setEnvelope])
    rw [h1] at h
    rw [← Option.some.inj h]
    exact h2

/-- The envelope of lease 1: while it is `sent` the download throws
`Document not signed yet`; once a poll has made it `signed` the download
copies the uploaded file to the destination and returns the destination. -/
theorem downloadSignedDocument_spec_witness :
    downloadSignedDocumentResult sentWorld.envelopes sentWorld.files (some "envelope-1")
        "1-signed.pdf"
      = Except.error (DownloadError.notSigned "Document not signed yet") ∧
    ("1-signed.pdf" = "1-signed.pdf" ∧
      downloadSignedDocument polledCoord.envelopes polledCoord.files (some "envelope-1")
        "1-signed.pdf" = some (writeFile sentWorld.files "1-signed.pdf" [37, 9]) ∧
      ∃ info data, getEnvelope polledCoord.envelopes (some "envelope-1") = some info ∧
        info.status = EnvelopeStatus.signed ∧ polledCoord.files info.filePath = some data ∧
        writeFile sentWorld.files "1-signed.pdf" [37, 9] "1-signed.pdf" = some data ∧
        ∀ p, p ≠ "1-signed.pdf" →
          writeFile sentWorld.files "1-signed.pdf" [37, 9] p = polledCoord.files p) :=
  ⟨(downloadSignedDocument_spec sentWorld.envelopes sentWorld.files (some "envelope-1")
      "1-signed.pdf").1.mpr (Or.inr ⟨⟨EnvelopeStatus.sent, "1700-77.pdf"⟩, by decide,
        by decide⟩),
    (downloadSignedDocument_spec polledCoord.envelopes polledCoord.files (some "envelope-1")
      "1-signed.pdf").2.2.1 (writeFile sentWorld.files "1-signed.pdf" [37, 9]) "1-signed.pdf"
      (by rfl)⟩

/-- One call of the coordinator, `sendDocument` being given an id that is not
in use: an envelope stays in the map with its file, and its status is left as
it was or goes from `sent` to `signed` in a `checkStatus` of that envelope. -/
theorem coordStep_envelope (s : CoordState) (op : CoordOp) (e : String) (info : Envelope)
    (hfresh : ∀ e1 path, op = CoordOp.sendDocument e1 path → s.envelopes e1 = none)
    (h : s.envelopes e = some info) :
    ∃ info1, (coordStep s op).envelopes e = some info1 ∧ info1.filePath = info.filePath ∧
      (info1.status = info.status ∨
        (info.status = EnvelopeStatus.sent ∧ info1.status = EnvelopeStatus.signed ∧
          op = CoordOp.checkStatus (some e) true)) := by
  cases op with
  | sendDocument e1 path =>
    have h1 := hfresh e1 path rfl
    have hne : e ≠ e1 := by
      intro he
      rw [he, h1] at h
      exact absurd h (by simp)
    exact ⟨info, by simp [coordStep, sendDocument, setEnvelope, hne, h], rfl, Or.inl rfl⟩
  | checkStatus eo d =>
    obtain ⟨info1, h1, h2, h3⟩ := checkStatus_filePath s.envelopes eo d e info h
    refine ⟨info1, h1, h2, ?_⟩
    rcases h3 with h3 | ⟨h3, h4, h5, h6⟩
    · exact Or.inl h3
    · exact Or.inr ⟨h3, h4, by rw [h5, h6]⟩
  | downloadSignedDocument eo dest =>
    refine ⟨info, ?_, rfl, Or.inl rfl⟩
    unfold coordStep
    simp only
    split <;> exact h

/-- One call of the coordinator creates no envelope except in `sendDocument`,
which creates it with status `sent`. -/
theorem coordStep_new_envelope (s : CoordState) (op : CoordOp) (e : String)
    (h : s.envelopes e = none) :
    (coordStep s op).envelopes e = none ∨
    ∃ path, op = CoordOp.sendDocument e path ∧
      (coordStep s op).envelopes e = some ⟨EnvelopeStatus.sent, path⟩ := by
  cases op with
  | sendDocument e1 path =>
    by_cases he : e = e1
    · subst he
      exact Or.inr ⟨path, rfl, by simp [coordStep, sendDocument, setEnvelope]⟩
    · exact Or.inl (by simp [coordStep, sendDocument, setEnvelope, he, h])
  | checkStatus eo d =>
    left
    unfold coordStep checkStatus
    simp only
    cases eo with
    | none => exact h
    | some e1 =>
      simp only
      cases h1 : s.envelopes e1 with
      | none => exact h
      | some info0 =>
        simp only
        split
        · have hne : e ≠ e1 := by
            intro he
            rw [he, h1] at h
            exact absurd h (by simp)
          simp [setEnvelope, hne, h]
        · exact h
  | downloadSignedDocument eo dest =>
    left
    unfold coordStep
    simp only
    split <;> exact h

/-- A signed envelope stays signed along every sequence of calls. -/
theorem coordRun_signed (ops : List CoordOp) :
    ∀ (s : CoordState) (e : String) (info : Envelope), freshSends s ops = true →
      s.envelopes e = some info → info.status = EnvelopeStatus.signed →
      ∃ info1, (coordRun s ops).envelopes e = some info1 ∧
        info1.status = EnvelopeStatus.signed ∧ info1.filePath = info.filePath := by
  induction ops with
  | nil => intro s e info _ h hs; exact ⟨info, h, hs, rfl⟩
  | cons op ops ih =>
    intro s e info hf h hs
    unfold freshSends at hf
    simp only [Bool.and_eq_true] at hf
    have hfresh : ∀ e1 path, op = CoordOp.sendDocument e1 path → s.envelopes e1 = none := by
      intro e1 path hop
      subst hop
      simpa using hf.1
    obtain ⟨info1, h1, h2, h3⟩ := coordStep_envelope s op e info hfresh h
    have hs1 : info1.status = EnvelopeStatus.signed := by
      rcases h3 with h3 | ⟨h3, -, -⟩
      · rw [h3, hs]
      · rw [hs] at h3
        exact absurd h3 (by decide)
    obtain ⟨info2, h4, h5, h6⟩ := ih (coordStep s op) e info1 hf.2 h1 hs1
    exact ⟨info2, h4, h5, h6.trans h2⟩

/-- C14: along every sequence of `sendDocument`, `checkStatus` and
`downloadSignedDocument` calls in which `sendDocument` is given unused ids,
once `checkStatus` has answered `signed` for an envelope every later
`checkStatus` on it answers `signed`, whatever the draws; in one call an
envelope keeps its status or goes from `sent` to `signed`, the latter only in a
`checkStatus` of that envelope, and an envelope is created only by
`sendDocument`, with status `sent`. -/
theorem envelope_status_never_regresses (s : CoordState) (ops : List CoordOp) (e : String)
    (d : Bool)
    (hfresh : freshSends (coordStep s (CoordOp.checkStatus (some e) d)) ops = true)
    (hsigned : (checkStatus s.envelopes (some e) d).2 = PollStatus.signed) :
    (∀ d1, (checkStatus
        (coordRun (coordStep s (CoordOp.checkStatus (some e) d)) ops).envelopes
        (some e) d1).2 = PollStatus.signed) ∧
    (∀ (s1 : CoordState) (op : CoordOp) (e1 : String) (info : Envelope),
      (∀ e2 path, op = CoordOp.sendDocument e2 path → s1.envelopes e2 = none) →
      s1.envelopes e1 = some info →
      ∃ info1, (coordStep s1 op).envelopes e1 = some info1 ∧
        info1.filePath = info.filePath ∧
        (info1.status = info.status ∨
          (info.status = EnvelopeStatus.sent ∧ info1.status = EnvelopeStatus.signed ∧
            op = CoordOp.checkStatus (some e1) true))) ∧
    (∀ (s1 : CoordState) (op : CoordOp) (e1 : String), s1.envelopes e1 = none →
      (coordStep s1 op).envelopes e1 = none ∨
      ∃ path, op = CoordOp.sendDocument e1 path ∧
        (coordStep s1 op).envelopes e1 = some ⟨EnvelopeStatus.sent, path⟩) := by
  refine ⟨fun d1 => ?_, coordStep_envelope, coordStep_new_envelope⟩
  obtain ⟨info, h1, h2⟩ := (checkStatus_signed_iff s.envelopes e d).mp hsigned
  obtain ⟨info1, h3, h4, -⟩ := coordRun_signed ops
    (coordStep s (CoordOp.checkStatus (some e) d)) e info hfresh h1 h2
  rw [checkStatus_signed_iff]
  have hkeep : (checkStatus
      (coordRun (coordStep s (CoordOp.checkStatus (some e) d)) ops).envelopes
      (some e) d1).1
      = (coordRun (coordStep s (CoordOp.checkStatus (some e) d)) ops).envelopes := by
    unfold checkStatus
    simp [h3, h4]
  rw [hkeep]
  exact ⟨info1, h3, h4⟩

/-- The envelope of lease 1 after a poll made it `signed`: a download, a
`sendDocument` with a new id and a poll with an unlucky draw later, a poll
still answers `signed`. -/
theorem envelope_status_never_regresses_witness :
    freshSends (coordStep sentCoord (CoordOp.checkStatus (some "envelope-1") true))
      laterCalls = true ∧
    (checkStatus sentCoord.envelopes (some "envelope-1") true).2 = PollStatus.signed ∧
    (checkStatus
        (coordRun (coordStep sentCoord (CoordOp.checkStatus (some "envelope-1") true))
          laterCalls).envelopes
        (some "envelope-1") false).2 = PollStatus.signed :=
  ⟨by decide, by decide,
    (envelope_status_never_regresses sentCoord laterCalls "envelope-1" true (by decide)
      (by decide)).1 false⟩

/-! ## A lease that does not exist -/

/-- C16 (the code at the failing input): a landlord signs lease 7 in a state
without leases; the handler stores the image at `signatures/7-landlord.png`,
which was not there before, and answers 500 `Failed to save signature`; no
record is created or modified. -/
theorem sign_missing_lease_writes_signature :
    selectLease emptyWorld.leases 7 = none ∧
    emptyWorld.files "signatures/7-landlord.png" = none ∧
    (sign demoLibs emptyWorld ⟨7, "landlord", some "\x89LAND", "http://host"⟩).response
      = Response.error 500 "Failed to save signature" ∧
    (sign demoLibs emptyWorld ⟨7, "landlord", some "\x89LAND", "http://host"⟩).world.files
        "signatures/7-landlord.png" = some [137, 76, 65, 78, 68] ∧
    (sign demoLibs emptyWorld ⟨7, "landlord", some "\x89LAND", "http://host"⟩).trace
      = [Effect.writeFile "signatures/7-landlord.png" [137, 76, 65, 78, 68],
         Effect.updateLease 7, Effect.dbQuery "leases"] ∧
    (sign demoLibs emptyWorld ⟨7, "landlord", some "\x89LAND", "http://host"⟩).world.leases
      = [] := by
  decide

/-! ## A render failure -/

/-- The response of the sign handler on an existing lease. -/
theorem sign_response_found (L : Libs) (w : World) (req : SignRequest) (s : String)
    (r0 : LeaseRow) (hs : req.signature = some s) (hne : s ≠ "")
    (h0 : selectLease w.leases req.id = some r0) :
    (sign L w req).response =
      Response.signed
        (computedStatus (setSignaturePath req.role (signaturePath req.id req.role) r0))
        (req.baseUrl ++ "/uploads/leases/" ++
          match (embedSignatures L
              (writeFile w.files (signaturePath req.id req.role)
                (L.base64Decode (stripDataUrl s)))
              (setSignaturePath req.role (signaturePath req.id req.role) r0)).output with
          | some _ => signedFilename req.id
          | none =>
            if truthy r0.signed_document_path then r0.signed_document_path.getD ""
            else signedFilename req.id) := by
  have h1 := select_after_setSignaturePath w req r0 h0
  unfold sign
  simp only [hs, hne, if_false, h1]
  split <;> rename_i hd <;> simp only [hd, setSignaturePath_signed_document_path]

theorem pathOf_setSignaturePath (role path : String) (r : LeaseRow) :
    pathOf (setSignaturePath role path r) role = some path := by
  unfold pathOf setSignaturePath
  split <;> rfl

/-- At a URL that names the lease by the decimal text of its id: when the embed
step of a sign call on an existing lease throws, the image is stored at
`signatures/<leaseId>-<role>.png`, the signature path of the role is set on
the record, `signed_document_path` is as it was, no signed
artifact is written, and the request is answered with a status and a URL, the
status being the stored one. -/
theorem sign_render_failure_completes (L : Libs) (w : World) (req : SignRequest)
    (er : EmbedResult) (hembed : signEmbed L w req = some er) (hfail : er.output = none) :
    ∃ s r0 row, req.signature = some s ∧ selectLease w.leases req.id = some r0 ∧
      (sign L w req).world.files (signaturePath req.id req.role)
        = some (L.base64Decode (stripDataUrl s)) ∧
      signaturePath req.id req.role
        = "signatures/" ++ (toString req.id ++ "-" ++ req.role ++ ".png") ∧
      selectLease (sign L w req).world.leases req.id = some row ∧
      pathOf row req.role = some (signaturePath req.id req.role) ∧
      row.signed_document_path = r0.signed_document_path ∧
      (sign L w req).world.files (signedFilename req.id) = w.files (signedFilename req.id) ∧
      (sign L w req).response =
        Response.signed row.status
          (req.baseUrl ++ "/uploads/leases/" ++
            (if truthy r0.signed_document_path then r0.signed_document_path.getD ""
              else signedFilename req.id)) ∧
      ∃ t, (sign L w req).trace =
        Effect.writeFile (signaturePath req.id req.role) (L.base64Decode (stripDataUrl s))
          :: t ++ [Effect.updateLease req.id] := by
  obtain ⟨s, r0, hs, hne, h0, rfl⟩ := signEmbed_some hembed
  have hrow := sign_row L w req s r0 hs hne h0
  have hfiles := sign_files L w req s r0 hs hne h0
  have hresp := sign_response_found L w req s r0 hs hne h0
  have htrace := sign_trace_found L w req s r0 hs hne h0
  simp only [hfail] at hrow hfiles hresp htrace
  refine ⟨s, r0, _, hs, h0, ?_, rfl, hrow, ?_, ?_, ?_, hresp, ?_⟩
  · rw [hfiles]
    simp [writeFile]
  · exact pathOf_setSignaturePath _ _ _
  · exact setSignaturePath_signed_document_path _ _ _
  · rw [hfiles]
    simp [writeFile, signedFilename_ne_signaturePath]
  · rw [htrace]
    exact ⟨Effect.updateLease req.id :: Effect.dbQuery "leases" ::
      (embedSignatures L
        (writeFile w.files (signaturePath req.id req.role) (L.base64Decode (stripDataUrl s)))
        (setSignaturePath req.role (signaturePath req.id req.role) r0)).trace, by simp⟩

/-- The tenant scribbles on lease 42 after the landlord did: the embed step
throws, the scribble is stored, and the request is answered. -/
theorem sign_render_failure_completes_witness :
    signEmbed demoLibs (sign demoLibs world42 landlordScribbles).world tenantScribbles
      = some ⟨[Effect.readFile "lease-1700.pdf", Effect.readFile "signatures/42-landlord.png"],
          none⟩ ∧
    (sign demoLibs (sign demoLibs world42 landlordScribbles).world tenantScribbles).response
      = Response.signed LeaseStatus.signed "http://host/uploads/leases/42-signed.pdf" ∧
    ∃ s r0 row, tenantScribbles.signature = some s ∧
      selectLease (sign demoLibs world42 landlordScribbles).world.leases tenantScribbles.id
        = some r0 ∧
      (sign demoLibs (sign demoLibs world42 landlordScribbles).world
          tenantScribbles).world.files
          (signaturePath tenantScribbles.id tenantScribbles.role)
        = some (demoLibs.base64Decode (stripDataUrl s)) ∧
      signaturePath tenantScribbles.id tenantScribbles.role
        = "signatures/" ++ (toString tenantScribbles.id ++ "-" ++ tenantScribbles.role
            ++ ".png") ∧
      selectLease (sign demoLibs (sign demoLibs world42 landlordScribbles).world
          tenantScribbles).world.leases tenantScribbles.id = some row ∧
      pathOf row tenantScribbles.role
        = some (signaturePath tenantScribbles.id tenantScribbles.role) ∧
      row.signed_document_path = r0.signed_document_path := by
  obtain ⟨s, r0, row, h1, h2, h3, h4, h5, h6, h7, -⟩ :=
    sign_render_failure_completes demoLibs (sign demoLibs world42 landlordScribbles).world
      tenantScribbles _ (by rfl) rfl
  exact ⟨by rfl, by decide, s, r0, row, h1, h2, h3, h4, h5, h6, h7⟩

/-! ## Validation and success of generate -/

theorem lt_nextLeaseId (rows : List LeaseRow) : ∀ r ∈ rows, r.id < nextLeaseId rows := by
  unfold nextLeaseId
  induction rows with
  | nil => intro r hr; exact absurd hr (List.not_mem_nil _)
  | cons r0 rs ih =>
    intro r hr
    simp only [List.map_cons, List.foldr_cons]
    rcases List.mem_cons.mp hr with h | h
    · subst h
      omega
    · have := ih r h
      omega

/-- The id an insert assigns is not in use. -/
theorem nextLeaseId_fresh (rows : List LeaseRow) :
    selectLease rows (nextLeaseId rows) = none := by
  unfold selectLease
  rw [List.find?_eq_none]
  intro r hr
  have := lt_nextLeaseId rows r hr
  simp only [beq_iff_eq]
  omega

theorem selectLease_append_new (rows : List LeaseRow) (row : LeaseRow)
    (h : selectLease rows row.id = none) :
    selectLease (rows ++ [row]) row.id = some row := by
  unfold selectLease at h ⊢
  rw [List.find?_append, h]
  simp

/-- The generate handler on a request that passes the validation and every
lookup, and whose document is written. -/
theorem generate_eq_success (L : Libs) (w : World) (req : GenerateRequest) (p t : Nat)
    (prop : PropertyRow) (tenant : TenantRow) (v : Int)
    (hrole : req.userRole = "landlord")
    (hvalid : (falsyNat req.propertyId || falsyNat req.tenantId || !truthy req.startDate
      || !truthy req.endDate || !truthy req.rent) = false)
    (hp : req.propertyId = some p) (ht : req.tenantId = some t)
    (hv : normalizedDeposit req.securityDeposit = some v) (hv0 : 0 ≤ v)
    (hprop : w.properties.find? (fun x => x.id == p) = some prop)
    (hten : w.tenants.find? (fun x => x.id == t) = some tenant)
    (hpay : paymentCount w.payments t p ≠ 0) (hok : req.streamOk = true) :
    generate L w req =
      ⟨{ w with
          files := writeFile w.files (leaseFilename req.now)
            (L.pdfkitRender (generateOps L.signaturePositions
              ⟨prop.address, tenant.name,
                (w.users.find? (fun u => u.id == req.userId)).map (fun u => u.name),
                req.startDate.getD "", req.endDate.getD "", req.rent.getD "",
                some (toString v)⟩))
          leases := w.leases ++
            [⟨nextLeaseId w.leases, p, t, LeaseStatus.generated, some (leaseFilename req.now),
              none, none, none, none, req.startDate, req.endDate, req.startDate⟩] },
        Response.generated (nextLeaseId w.leases) LeaseStatus.generated
          (req.baseUrl ++ "/uploads/leases/" ++ leaseFilename req.now),
        [Effect.dbQuery "properties", Effect.dbQuery "tenants", Effect.dbQuery "payments",
         Effect.dbQuery "users",
         Effect.writeFile (leaseFilename req.now)
           (L.pdfkitRender (generateOps L.signaturePositions
              ⟨prop.address, tenant.name,
                (w.users.find? (fun u => u.id == req.userId)).map (fun u => u.name),
                req.startDate.getD "", req.endDate.getD "", req.rent.getD "",
                some (toString v)⟩)),
         Effect.insertLease (nextLeaseId w.leases)]⟩ := by
  unfold generate
  rw [if_neg (by simp [hrole]), if_neg (by rw [hvalid]; simp)]
  simp only [hv, not_lt.mpr hv0, hp, ht, Option.getD_some, hprop, hten, hpay, if_false,
    LeaseGenerator.generate, hok, if_true]
  rfl

/-- When generate answers with a lease, the request passed the validation and
every lookup, and the document was written. -/
theorem generate_success_inv (L : Libs) (w : World) (req : GenerateRequest) (id : Nat)
    (st : LeaseStatus) (url : String)
    (h : (generate L w req).response = Response.generated id st url) :
    ∃ p t prop tenant v, req.userRole = "landlord" ∧
      (falsyNat req.propertyId || falsyNat req.tenantId || !truthy req.startDate
        || !truthy req.endDate || !truthy req.rent) = false ∧
      req.propertyId = some p ∧ req.tenantId = some t ∧
      normalizedDeposit req.securityDeposit = some v ∧ 0 ≤ v ∧
      w.properties.find? (fun x => x.id == p) = some prop ∧
      w.tenants.find? (fun x => x.id == t) = some tenant ∧
      paymentCount w.payments t p ≠ 0 ∧ req.streamOk = true := by
  unfold generate at h
  by_cases hrole : req.userRole = "landlord"
  swap
  · simp [hrole] at h
  rw [if_neg (by simp [hrole])] at h
  cases hvalid : (falsyNat req.propertyId || falsyNat req.tenantId || !truthy req.startDate
      || !truthy req.endDate || !truthy req.rent)
  swap
  · rw [hvalid] at h
    simp at h
  rw [hvalid] at h
  simp only [Bool.false_eq_true, if_false] at h
  cases hv : normalizedDeposit req.securityDeposit with
  | none => simp [hv] at h
  | some v =>
    simp only [hv] at h
    by_cases hv0 : v < 0
    · simp [hv0] at h
    · simp only [hv0, if_false] at h
      have hp : ∃ p, req.propertyId = some p := by
        cases hpp : req.propertyId with
        | none => simp [hpp, falsyNat] at hvalid
        | some p => exact ⟨p, rfl⟩
      have ht : ∃ t, req.tenantId = some t := by
        cases htt : req.tenantId with
        | none => simp [htt, falsyNat] at hvalid
        | some t => exact ⟨t, rfl⟩
      obtain ⟨p, hp⟩ := hp
      obtain ⟨t, ht⟩ := ht
      simp only [hp, ht, Option.getD_some] at h
      cases hprop : w.properties.find? (fun x => x.id == p) with
      | none => simp [hprop] at h
      | some prop =>
        simp only [hprop] at h
        cases hten : w.tenants.find? (fun x => x.id == t) with
        | none => simp [hten] at h
        | some tenant =>
          simp only [hten] at h
          by_cases hpay : paymentCount w.payments t p = 0
          · simp [hpay] at h
          · simp only [hpay, if_false] at h
            cases hok : req.streamOk with
            | false => simp [LeaseGenerator.generate, hok] at h
            | true =>
              exact ⟨p, t, prop, tenant, v, hrole, rfl, hp, ht, rfl, not_lt.mp hv0, hprop,
                hten, hpay, rfl⟩

/-- C18: for a landlord, generate answers 400 `Missing required fields` when one
of `propertyId`, `tenantId`, `startDate`, `endDate` and `rent` is absent, and
400 `Invalid security deposit amount` when the deposit is not a number or is
negative; in both cases it performs no effect at all, so no lookup, no
document and no record; a deposit that is omitted counts as 0, and with a
non-negative deposit the handler goes on to the lookup of the property. -/
theorem generate_rejects_invalid_input (L : Libs) (w : World) (req : GenerateRequest)
    (hrole : req.userRole = "landlord") :
    ((req.propertyId = none ∨ req.tenantId = none ∨ req.startDate = none ∨
        req.endDate = none ∨ req.rent = none) → missingRequired req = true) ∧
    (missingRequired req = true →
      (generate L w req).response = Response.error 400 "Missing required fields" ∧
      (generate L w req).world = w ∧ (generate L w req).trace = []) ∧
    (missingRequired req = false →
      (normalizedDeposit req.securityDeposit = none ∨
        ∃ v, normalizedDeposit req.securityDeposit = some v ∧ v < 0) →
      (generate L w req).response = Response.error 400 "Invalid security deposit amount" ∧
      (generate L w req).world = w ∧ (generate L w req).trace = []) ∧
    (missingRequired req = false →
      (∃ v, normalizedDeposit req.securityDeposit = some v ∧ 0 ≤ v) →
      (generate L w req).trace.head? = some (Effect.dbQuery "properties")) ∧
    (normalizedDeposit Deposit.omitted = some 0 ∧
      normalizedDeposit Deposit.notANumber = none ∧
      ∀ v, normalizedDeposit (Deposit.amount v) = some v) := by
  refine ⟨?_, ?_, ?_, ?_, rfl, rfl, fun _ => rfl⟩
  · intro h
    unfold missingRequired
    rcases h with h | h | h | h | h <;> simp [h, falsyNat, truthy]
  · intro h
    unfold missingRequired at h
    unfold generate
    rw [if_neg (by simp [hrole]), if_pos h]
    exact ⟨rfl, rfl, rfl⟩
  · intro h hd
    unfold missingRequired at h
    unfold generate
    rw [if_neg (by simp [hrole]), if_neg (by rw [h]; simp)]
    rcases hd with hd | ⟨v, hd, hv⟩
    · simp [hd]
    · simp [hd, hv]
  · rintro h ⟨v, hd, hv⟩
    unfold missingRequired at h
    unfold generate
    rw [if_neg (by simp [hrole]), if_neg (by rw [h]; simp)]
    simp only [hd, not_lt.mpr hv, if_false]
    cases w.properties.find? (fun p => p.id == req.propertyId.getD 0) with
    | none => rfl
    | some prop =>
      simp only
      cases w.tenants.find? (fun t => t.id == req.tenantId.getD 0) with
      | none => rfl
      | some tenant =>
        simp only
        split
        · rfl
        · simp only [LeaseGenerator.generate]
          cases req.streamOk <;> rfl

/-- The request of the landlord is refused without the rent and with a deposit
of -5, and nothing is looked up or stored. -/
theorem generate_rejects_invalid_input_witness :
    generateWithoutRent.userRole = "landlord" ∧
    missingRequired generateWithoutRent = true ∧
    ((generate demoLibs paidWorld generateWithoutRent).response
        = Response.error 400 "Missing required fields" ∧
      (generate demoLibs paidWorld generateWithoutRent).world = paidWorld ∧
      (generate demoLibs paidWorld generateWithoutRent).trace = []) ∧
    ((generate demoLibs paidWorld generateNegativeDeposit).response
        = Response.error 400 "Invalid security deposit amount" ∧
      (generate demoLibs paidWorld generateNegativeDeposit).world = paidWorld ∧
      (generate demoLibs paidWorld generateNegativeDeposit).trace = []) :=
  ⟨rfl, by decide,
    (generate_rejects_invalid_input demoLibs paidWorld generateWithoutRent rfl).2.1
      (by decide),
    (generate_rejects_invalid_input demoLibs paidWorld generateNegativeDeposit rfl).2.2.1
      (by decide) (Or.inr ⟨-5, rfl, by decide⟩)⟩

/-- C19: when generate answers with a lease, exactly one record was appended to
the table, under an id that was not in use; it has status `generated`, the
name of the document just written as `document_path`, no signed path, no
signature path and no provider envelope id; the answer carries that id, the
status `generated` and the URL of the upload directory followed by that file
name. -/
theorem generate_success_record (L : Libs) (w : World) (req : GenerateRequest) (id : Nat)
    (st : LeaseStatus) (url : String)
    (h : (generate L w req).response = Response.generated id st url) :
    ∃ row data, (generate L w req).world.leases = w.leases ++ [row] ∧
      selectLease w.leases id = none ∧
      selectLease (generate L w req).world.leases id = some row ∧
      row.id = id ∧ row.status = LeaseStatus.generated ∧ st = LeaseStatus.generated ∧
      row.document_path = some (leaseFilename req.now) ∧
      row.signed_document_path = none ∧
      row.landlord_signature_path = none ∧ row.tenant_signature_path = none ∧
      row.provider_envelope_id = none ∧
      req.propertyId = some row.property_id ∧ req.tenantId = some row.tenant_id ∧
      row.start_date = req.startDate ∧ row.end_date = req.endDate ∧
      row.due_date = req.startDate ∧
      (generate L w req).world.files (leaseFilename req.now) = some data ∧
      Effect.writeFile (leaseFilename req.now) data ∈ (generate L w req).trace ∧
      url = req.baseUrl ++ "/uploads/leases/" ++ leaseFilename req.now := by
  obtain ⟨p, t, prop, tenant, v, hrole, hvalid, hp, ht, hv, hv0, hprop, hten, hpay, hok⟩ :=
    generate_success_inv L w req id st url h
  have heq := generate_eq_success L w req p t prop tenant v hrole hvalid hp ht hv hv0 hprop
    hten hpay hok
  rw [heq] at h ⊢
  simp only [Response.generated.injEq] at h
  obtain ⟨hid, hst, hurl⟩ := h
  subst hid
  refine ⟨⟨nextLeaseId w.leases, p, t, LeaseStatus.generated, some (leaseFilename req.now),
      none, none, none, none, req.startDate, req.endDate, req.startDate⟩,
    L.pdfkitRender (generateOps L.signaturePositions
      ⟨prop.address, tenant.name,
        (w.users.find? (fun u => u.id == req.userId)).map (fun u => u.name),
        req.startDate.getD "", req.endDate.getD "", req.rent.getD "", some (toString v)⟩),
    rfl, nextLeaseId_fresh w.leases, ?_, rfl, rfl, hst.symm, rfl, rfl, rfl, rfl,
    rfl, hp, ht, rfl, rfl, rfl, ?_, ?_, hurl.symm⟩
  · exact selectLease_append_new w.leases _ (nextLeaseId_fresh w.leases)
  · simp [writeFile]
  · simp

/-- The request of the landlord in the paid office creates lease 1. -/
theorem generate_success_record_witness :
    (generate demoLibs paidWorld generateLease).response
      = Response.generated 1 LeaseStatus.generated
          "http://host/uploads/leases/lease-1700.pdf" ∧
    (generate demoLibs paidWorld generateLease).world.leases = [generatedRow] ∧
    ∃ row data, (generate demoLibs paidWorld generateLease).world.leases
        = paidWorld.leases ++ [row] ∧
      selectLease paidWorld.leases 1 = none ∧
      selectLease (generate demoLibs paidWorld generateLease).world.leases 1 = some row ∧
      row.id = 1 ∧ row.status = LeaseStatus.generated ∧
      LeaseStatus.generated = LeaseStatus.generated ∧
      row.document_path = some (leaseFilename generateLease.now) ∧
      row.signed_document_path = none ∧
      row.landlord_signature_path = none ∧ row.tenant_signature_path = none ∧
      row.provider_envelope_id = none ∧
      generateLease.propertyId = some row.property_id ∧
      generateLease.tenantId = some row.tenant_id ∧
      row.start_date = generateLease.startDate ∧ row.end_date = generateLease.endDate ∧
      row.due_date = generateLease.startDate ∧
      (generate demoLibs paidWorld generateLease).world.files
        (leaseFilename generateLease.now) = some data ∧
      Effect.writeFile (leaseFilename generateLease.now) data
        ∈ (generate demoLibs paidWorld generateLease).trace ∧
      "http://host/uploads/leases/lease-1700.pdf"
        = generateLease.baseUrl ++ "/uploads/leases/" ++ leaseFilename generateLease.now :=
  ⟨by decide, by decide,
    generate_success_record demoLibs paidWorld generateLease 1 LeaseStatus.generated
      "http://host/uploads/leases/lease-1700.pdf" (by decide)⟩

/-! ## Success and failure of send -/

/-- C20: when send answers with a lease, exactly one record was appended to the
table, under an id that was not in use, with status `sent`, the name of the
uploaded file as `document_path` and the id given to `sendDocument` as
`provider_envelope_id`; the coordinator holds that envelope with status `sent`
and the uploaded file, every other envelope being as before; when no file is
supplied or the tenant does not exist the request is refused and neither a
record nor an envelope is created. -/
theorem send_success_record (w : World) (req : SendRequest) :
    (∀ id st, (send w req).response = Response.sent id st →
      ∃ filename data, req.file = some (filename, data) ∧
        (send w req).world.leases = w.leases ++
          [⟨id, req.propertyId, req.tenantId, LeaseStatus.sent, some filename, none, none,
            none, some req.envelopeId, none, none, none⟩] ∧
        selectLease w.leases id = none ∧
        selectLease (send w req).world.leases id =
          some ⟨id, req.propertyId, req.tenantId, LeaseStatus.sent, some filename, none,
            none, none, some req.envelopeId, none, none, none⟩ ∧
        st = LeaseStatus.sent ∧
        (send w req).world.envelopes req.envelopeId
          = some ⟨EnvelopeStatus.sent, filename⟩ ∧
        (∀ e, e ≠ req.envelopeId → (send w req).world.envelopes e = w.envelopes e) ∧
        (send w req).world.files filename = some data ∧
        Effect.sendDocument req.envelopeId ∈ (send w req).trace) ∧
    ((req.file = none ∨ w.tenants.find? (fun t => t.id == req.tenantId) = none) →
      (send w req).world.leases = w.leases ∧
      (send w req).world.envelopes = w.envelopes ∧
      (∃ code message, (send w req).response = Response.error code message) ∧
      Effect.sendDocument req.envelopeId ∉ (send w req).trace) ∧
    (req.userRole = "landlord" → req.file = none →
      (send w req).response = Response.error 400 "Document is required") ∧
    (req.userRole = "landlord" → req.file ≠ none →
      w.tenants.find? (fun t => t.id == req.tenantId) = none →
      (send w req).response = Response.error 404 "Tenant not found") := by
  by_cases hrole : req.userRole = "landlord"
  swap
  · simp [send, hrole]
  cases hf : req.file with
  | none => simp [send, hrole, hf]
  | some fd =>
    obtain ⟨filename, data⟩ := fd
    cases ht : w.tenants.find? (fun t => t.id == req.tenantId) with
    | none => simp [send, hrole, hf, ht]
    | some tenant =>
      refine ⟨?_, ?_, ?_, ?_⟩
      · intro id st h
        simp only [send, hrole, ne_eq, not_true_eq_false, if_false, hf, ht,
          Response.sent.injEq] at h ⊢
        obtain ⟨hid, hst⟩ := h
        subst hid
        refine ⟨filename, data, rfl, rfl, nextLeaseId_fresh w.leases,
          selectLease_append_new w.leases _ (nextLeaseId_fresh w.leases), hst.symm, ?_, ?_, ?_,
          ?_⟩
        · simp [sendDocument, setEnvelope]
        · intro e he
          simp [sendDocument, setEnvelope, he]
        · simp [writeFile]
        · simp
      · intro h
        rcases h with h | h
        · exact absurd h (by simp)
        · exact absurd h (by simp)
      · intro _ h
        exact absurd h (by simp)
      · intro _ _ h
        exact absurd h (by simp)

/-- The upload of the landlord creates lease 1 and envelope `envelope-1`; the
same request without a file creates nothing. -/
theorem send_success_record_witness :
    (send officeWorld sendUpload).response = Response.sent 1 LeaseStatus.sent ∧
    (send officeWorld sendUpload).world.leases = [sentRow] ∧
    (∃ filename data, sendUpload.file = some (filename, data) ∧
      (send officeWorld sendUpload).world.leases = officeWorld.leases ++
        [⟨1, sendUpload.propertyId, sendUpload.tenantId, LeaseStatus.sent, some filename,
          none, none, none, some sendUpload.envelopeId, none, none, none⟩] ∧
      selectLease officeWorld.leases 1 = none ∧
      selectLease (send officeWorld sendUpload).world.leases 1 =
        some ⟨1, sendUpload.propertyId, sendUpload.tenantId, LeaseStatus.sent,
          some filename, none, none, none, some sendUpload.envelopeId, none, none, none⟩ ∧
      LeaseStatus.sent = LeaseStatus.sent ∧
      (send officeWorld sendUpload).world.envelopes sendUpload.envelopeId
        = some ⟨EnvelopeStatus.sent, filename⟩ ∧
      (∀ e, e ≠ sendUpload.envelopeId →
        (send officeWorld sendUpload).world.envelopes e = officeWorld.envelopes e) ∧
      (send officeWorld sendUpload).world.files filename = some data ∧
      Effect.sendDocument sendUpload.envelopeId ∈ (send officeWorld sendUpload).trace) ∧
    ((send officeWorld { sendUpload with file := none }).world.leases = officeWorld.leases ∧
      (send officeWorld { sendUpload with file := none }).world.envelopes
        = officeWorld.envelopes ∧
      (∃ code message, (send officeWorld { sendUpload with file := none }).response
        = Response.error code message) ∧
      Effect.sendDocument ({ sendUpload with file := none } : SendRequest).envelopeId
        ∉ (send officeWorld { sendUpload with file := none }).trace) :=
  ⟨by decide, by decide,
    (send_success_record officeWorld sendUpload).1 1 LeaseStatus.sent (by decide),
    (send_success_record officeWorld { sendUpload with file := none }).2.1 (Or.inl rfl)⟩

/-! ## The data-URL head of a signature -/

theorem stripDataUrl_head (s : String) : stripDataUrl (dataUrlHead ++ s) = s := by
  unfold stripDataUrl
  have h : dataUrlHead.data.isPrefixOf (dataUrlHead ++ s).data = true := by
    rw [String.data_append, List.isPrefixOf_iff_prefix]
    exact List.prefix_append _ _
  rw [if_pos h, String.data_append, List.drop_left]

theorem stripDataUrl_plain (s : String) (hs : dataUrlHead.data.isPrefixOf s.data = false) :
    stripDataUrl s = s := by
  unfold stripDataUrl
  rw [if_neg (by simp [hs])]

theorem dataUrlHead_append_ne_empty (s : String) : dataUrlHead ++ s ≠ "" := by
  intro h
  have := congrArg String.length h
  rw [String.length_append] at this
  have h2 : dataUrlHead.length = 22 := by decide
  have h3 : "".length = 0 := rfl
  omega

theorem sign_congr_signature (L : Libs) (w : World) (id : Nat) (role baseUrl : String)
    (s1 s2 : String) (h1 : s1 ≠ "") (h2 : s2 ≠ "")
    (h : stripDataUrl s1 = stripDataUrl s2) :
    sign L w ⟨id, role, some s1, baseUrl⟩ = sign L w ⟨id, role, some s2, baseUrl⟩ := by
  unfold sign
  simp only [h1, h2, if_false, h]

/-- C21: for every payload `s` that does not itself start with
`data:image/png;base64,`, stripping the head from `data:image/png;base64,` + `s`
gives `s`, stripping leaves `s` as it is, and stripping twice is stripping once;
so the bytes decoded for the signature with the head are the bytes decoded for
the signature without it, and for a non-empty `s` the sign handler does the same
with both: it stores the decoded bytes of `s` at the signature path. -/
theorem data_url_head_optional (L : Libs) (w : World) (id : Nat) (role baseUrl s : String)
    (hs : dataUrlHead.data.isPrefixOf s.data = false) :
    stripDataUrl (dataUrlHead ++ s) = s ∧
    stripDataUrl s = s ∧
    stripDataUrl (stripDataUrl (dataUrlHead ++ s)) = stripDataUrl (dataUrlHead ++ s) ∧
    stripDataUrl (stripDataUrl s) = stripDataUrl s ∧
    L.base64Decode (stripDataUrl (dataUrlHead ++ s)) = L.base64Decode (stripDataUrl s) ∧
    (s ≠ "" →
      sign L w ⟨id, role, some (dataUrlHead ++ s), baseUrl⟩ =
        sign L w ⟨id, role, some s, baseUrl⟩ ∧
      (sign L w ⟨id, role, some (dataUrlHead ++ s), baseUrl⟩).world.files
          (signaturePath id role) = some (L.base64Decode s) ∧
      (sign L w ⟨id, role, some s, baseUrl⟩).world.files (signaturePath id role) =
        some (L.base64Decode s)) := by
  have ha := stripDataUrl_head s
  have hb := stripDataUrl_plain s hs
  refine ⟨ha, hb, by rw [ha, hb], by rw [hb, hb], by rw [ha, hb], ?_⟩
  intro hne
  have hc := sign_congr_signature L w id role baseUrl (dataUrlHead ++ s) s
    (dataUrlHead_append_ne_empty s) hne (by rw [ha, hb])
  have hd := sign_files_signaturePath L w ⟨id, role, some s, baseUrl⟩ s rfl hne
  rw [hb] at hd
  exact ⟨hc, by rw [hc]; exact hd, hd⟩

/-- The landlord of lease 42 signs with the bytes `\x89LAND`, once with the head
and once without: the same bytes are stored at `signatures/42-landlord.png`. -/
theorem data_url_head_optional_witness :
    dataUrlHead.data.isPrefixOf "\x89LAND".data = false ∧
    stripDataUrl "data:image/png;base64,\x89LAND" = "\x89LAND" ∧
    (sign demoLibs world42 ⟨42, "landlord", some (dataUrlHead ++ "\x89LAND"),
        "http://host"⟩).world.files "signatures/42-landlord.png" =
      (sign demoLibs world42 landlordSigns).world.files "signatures/42-landlord.png" ∧
    (sign demoLibs world42 landlordSigns).world.files "signatures/42-landlord.png" =
      some [137, 76, 65, 78, 68] :=
  have T := data_url_head_optional demoLibs world42 42 "landlord" "http://host" "\x89LAND"
    (by decide)
  ⟨by decide, T.1, by decide, by decide⟩

/-! ## The signature lines of the generated document -/

theorem generateOps_tail (positions : SignaturePositions) (data : LeaseTerms) :
    ∃ pre : List DocOp,
      generateOps positions data =
        pre ++ (signatureLine "Landlord Signature:" positions.landlord ++
          (signatureLine "Tenant Signature:" positions.tenant ++ [DocOp.docEnd])) ∧
      headingsOf pre =
        ["Premises", "Term", "Rent", "Security Deposit", "Utilities", "Maintenance",
         "Termination", "Governing Law"] :=
  ⟨(generateOps positions data).take 47,
    (List.take_append_drop 47 (generateOps positions data)).symm, by
    simp [headingsOf, headingsFrom, generateOps, section_]⟩

/-- C22: for each role the generator moves to
`(anchor.x + 110, anchor.y + anchor.height - 10)` and draws a line to
`(anchor.x + anchor.width, anchor.y + anchor.height - 10)`; for an anchor of
height at least 10 and width at least 110 both end points lie in the rectangle
`[x, x + width] × [y, y + height]`; and that rectangle is the overlay the embed
step draws at `y' = pageHeight - y - height`, seen from the top of the page:
its left edge is `x`, its right edge `x + width`, its top edge `y` and its
bottom edge `y + height`. -/
theorem signature_line_inside_anchor (positions : SignaturePositions) (data : LeaseTerms)
    (label : String) (pos : Anchor) (pageHeight : Int) (image : Bytes)
    (hh : 10 ≤ pos.height) (hw : 110 ≤ pos.width) :
    signatureLine label pos =
      [DocOp.textAt label pos.x (pos.y + pos.height - 10 - 15),
       DocOp.moveTo (pos.x + 110) (pos.y + pos.height - 10),
       DocOp.lineTo (pos.x + pos.width) (pos.y + pos.height - 10),
       DocOp.stroke] ∧
    (∃ pre : List DocOp,
      generateOps positions data =
        pre ++ (signatureLine "Landlord Signature:" positions.landlord ++
          (signatureLine "Tenant Signature:" positions.tenant ++ [DocOp.docEnd]))) ∧
    (pos.x ≤ pos.x + 110 ∧ pos.x + 110 ≤ pos.x + pos.width) ∧
    (pos.x ≤ pos.x + pos.width ∧ pos.x + pos.width ≤ pos.x + pos.width) ∧
    (pos.y ≤ pos.y + pos.height - 10 ∧ pos.y + pos.height - 10 ≤ pos.y + pos.height) ∧
    (overlayAt pos pageHeight image).y = pageHeight - pos.y - pos.height ∧
    (overlayAt pos pageHeight image).x = pos.x ∧
    (overlayAt pos pageHeight image).x + (overlayAt pos pageHeight image).width =
      pos.x + pos.width ∧
    topEdge pageHeight (overlayAt pos pageHeight image) = pos.y ∧
    bottomEdge pageHeight (overlayAt pos pageHeight image) = pos.y + pos.height := by
  obtain ⟨pre, hpre, _⟩ := generateOps_tail positions data
  refine ⟨by simp [signatureLine, labelOffset], ⟨pre, hpre⟩, ⟨by omega, by omega⟩,
    ⟨by omega, le_refl _⟩, ⟨by omega, by omega⟩, rfl, rfl, rfl, ?_, ?_⟩
  · simp only [topEdge, overlayAt]
    omega
  · simp only [bottomEdge, overlayAt]
    omega

/-- The landlord anchor `(72, 600, 200, 50)` on a page of height 792: the line
runs from `(182, 640)` to `(272, 640)`, inside `[72, 272] × [600, 650]`, and the
overlay is drawn at `y' = 142`. -/
theorem signature_line_inside_anchor_witness :
    (10 : Int) ≤ demoLibs.signaturePositions.landlord.height ∧
    (110 : Int) ≤ demoLibs.signaturePositions.landlord.width ∧
    signatureLine "Landlord Signature:" demoLibs.signaturePositions.landlord =
      [DocOp.textAt "Landlord Signature:" 72 625, DocOp.moveTo 182 640,
       DocOp.lineTo 272 640, DocOp.stroke] ∧
    (overlayAt demoLibs.signaturePositions.landlord 792 [137]).y = 142 ∧
    topEdge 792 (overlayAt demoLibs.signaturePositions.landlord 792 [137]) =
      demoLibs.signaturePositions.landlord.y :=
  have T := signature_line_inside_anchor demoLibs.signaturePositions
    ⟨"1 Main St", "Tina", none, "2025-01-01", "2025-12-31", "1000", none⟩
    "Landlord Signature:" demoLibs.signaturePositions.landlord 792 [137]
    (by decide) (by decide)
  ⟨by decide, by decide, by decide, by decide, T.2.2.2.2.2.2.2.2.1⟩

/-! ## The sections of the generated document -/

/-- C23: the document calls of `LeaseGenerator.generate` print the bold
headings Premises, Term, Rent, Security Deposit, Utilities, Maintenance,
Termination, Governing Law in this order, each once, all of them before the two
signature lines; the list of calls is not empty; when the stream finishes, the
rendering of these calls is written to the destination and the promise
resolves with the destination path, and the written document is not empty when
the rendering of a non-empty list of calls is not empty. -/
theorem generator_sections_in_order (L : Libs) (files : Files) (data : LeaseTerms)
    (destPath : String) :
    headingsOf (generateOps L.signaturePositions data) =
      ["Premises", "Term", "Rent", "Security Deposit", "Utilities", "Maintenance",
       "Termination", "Governing Law"] ∧
    (headingsOf (generateOps L.signaturePositions data)).Nodup ∧
    (∃ pre : List DocOp,
      generateOps L.signaturePositions data =
        pre ++ (signatureLine "Landlord Signature:" L.signaturePositions.landlord ++
          (signatureLine "Tenant Signature:" L.signaturePositions.tenant ++
            [DocOp.docEnd])) ∧
      headingsOf pre =
        ["Premises", "Term", "Rent", "Security Deposit", "Utilities", "Maintenance",
         "Termination", "Governing Law"]) ∧
    generateOps L.signaturePositions data ≠ [] ∧
    LeaseGenerator.generate L files data destPath true =
      some (writeFile files destPath
        (L.pdfkitRender (generateOps L.signaturePositions data))) ∧
    LeaseGenerator.settled destPath true = some destPath ∧
    LeaseGenerator.generate L files data destPath false = none ∧
    LeaseGenerator.settled destPath false = none ∧
    ((∀ ops : List DocOp, ops ≠ [] → L.pdfkitRender ops ≠ []) →
      ∃ bytes, (writeFile files destPath
          (L.pdfkitRender (generateOps L.signaturePositions data))) destPath = some bytes ∧
        bytes ≠ []) := by
  have hh : headingsOf (generateOps L.signaturePositions data) =
      ["Premises", "Term", "Rent", "Security Deposit", "Utilities", "Maintenance",
       "Termination", "Governing Law"] := by
    simp [headingsOf, headingsFrom, generateOps, section_, signatureLine]
  have hne : generateOps L.signaturePositions data ≠ [] := by
    simp [generateOps]
  refine ⟨hh, by rw [hh]; decide, generateOps_tail _ _, hne, rfl, rfl, rfl, rfl, ?_⟩
  intro hr
  exact ⟨_, by simp [writeFile], hr _ hne⟩

/-- The toy renderer writes a non-empty document at `lease-1700.pdf`. -/
theorem generator_sections_in_order_witness :
    (∀ ops : List DocOp, ops ≠ [] → demoLibs.pdfkitRender ops ≠ []) ∧
    ∃ bytes, (writeFile emptyWorld.files "lease-1700.pdf"
        (demoLibs.pdfkitRender (generateOps demoLibs.signaturePositions
          ⟨"1 Main St", "Tina", none, "2025-01-01", "2025-12-31", "1000", none⟩)))
          "lease-1700.pdf" = some bytes ∧
      bytes ≠ [] :=
  have hr : ∀ ops : List DocOp, ops ≠ [] → demoLibs.pdfkitRender ops ≠ [] := by
    intro ops _
    simp [demoLibs]
  ⟨hr, (generator_sections_in_order demoLibs emptyWorld.files
    ⟨"1 Main St", "Tina", none, "2025-01-01", "2025-12-31", "1000", none⟩
    "lease-1700.pdf").2.2.2.2.2.2.2.2 hr⟩

/-! ## Decimal numerals -/

theorem digitChar_value (k : Nat) (hk : k < 10) :
    (Nat.digitChar k).toNat - 48 = k ∧ 48 ≤ (Nat.digitChar k).toNat ∧
      (Nat.digitChar k).toNat ≤ 57 := by
  interval_cases k <;> exact ⟨by decide, by decide, by decide⟩

theorem toDigitsCore_spec (fuel : Nat) : ∀ (n : Nat) (ds : List Char), n < fuel →
    ∃ pre : List Char, Nat.toDigitsCore 10 fuel n ds = pre ++ ds ∧
      pre.foldl (fun acc c => 10 * acc + (c.toNat - 48)) 0 = n ∧
      ∀ c ∈ pre, 48 ≤ c.toNat ∧ c.toNat ≤ 57 := by
  induction fuel with
  | zero => intro n ds h; omega
  | succ f ih =>
    intro n ds h
    have hd := digitChar_value (n % 10) (Nat.mod_lt _ (by decide))
    by_cases h0 : n / 10 = 0
    · refine ⟨[Nat.digitChar (n % 10)], ?_, ?_, ?_⟩
      · simp [Nat.toDigitsCore, h0]
      · simp only [List.foldl_cons, List.foldl_nil, hd.1]
        omega
      · intro c hc
        rw [List.mem_singleton.mp hc]
        exact hd.2
    · obtain ⟨pre, hp, hv, hm⟩ := ih (n / 10) (Nat.digitChar (n % 10) :: ds) (by omega)
      refine ⟨pre ++ [Nat.digitChar (n % 10)], ?_, ?_, ?_⟩
      · simp [Nat.toDigitsCore, h0, hp]
      · simp only [List.foldl_append, List.foldl_cons, List.foldl_nil, hv, hd.1]
        omega
      · intro c hc
        rcases List.mem_append.mp hc with h1 | h1
        · exact hm c h1
        · rw [List.mem_singleton.mp h1]
          exact hd.2

/-- The decimal text of a number denotes the number and consists of digits. -/
theorem toString_nat_spec (n : Nat) :
    decimalValue (toString n).data = n ∧
      ∀ c ∈ (toString n).data, 48 ≤ c.toNat ∧ c.toNat ≤ 57 := by
  obtain ⟨pre, hp, hv, hm⟩ := toDigitsCore_spec (n + 1) n [] (Nat.lt_succ_self n)
  have h : (toString n).data = pre := by
    show (Nat.repr n).data = pre
    simp [Nat.repr, Nat.toDigits, hp, List.asString]
  rw [h]
  exact ⟨hv, hm⟩

theorem toString_nat_injective (a b : Nat) (h : toString a = toString b) : a = b := by
  have ha := (toString_nat_spec a).1
  rw [h, (toString_nat_spec b).1] at ha
  exact ha.symm

theorem dash_not_mem_toString (n : Nat) : '-' ∉ (toString n).data := by
  intro h
  have := (toString_nat_spec n).2 _ h
  have h45 : ('-' : Char).toNat = 45 := by decide
  omega

theorem append_separator_inj (sep : Char) : ∀ (d1 d2 r1 r2 : List Char),
    sep ∉ d1 → sep ∉ d2 → d1 ++ sep :: r1 = d2 ++ sep :: r2 → d1 = d2 ∧ r1 = r2 := by
  intro d1
  induction d1 with
  | nil =>
    intro d2 r1 r2 _ h2 h
    cases d2 with
    | nil => simpa using h
    | cons c d2 =>
      simp only [List.nil_append, List.cons_append, List.cons.injEq] at h
      exact absurd (by simp [h.1]) h2
  | cons c d1 ih =>
    intro d2 r1 r2 h1 h2 h
    cases d2 with
    | nil =>
      simp only [List.nil_append, List.cons_append, List.cons.injEq] at h
      exact absurd (by simp [h.1]) h1
    | cons c2 d2 =>
      simp only [List.cons_append, List.cons.injEq] at h
      obtain ⟨hd, hr⟩ := ih d2 r1 r2 (fun hm => h1 (List.mem_cons_of_mem _ hm))
        (fun hm => h2 (List.mem_cons_of_mem _ hm)) h.2
      exact ⟨by rw [h.1, hd], hr⟩

/-! ## The path of a signature image -/

theorem signaturePath_data (id : Nat) (role : String) :
    (signaturePath id role).data =
      "signatures/".data ++ ((toString id).data ++ '-' :: (role.data ++ ".png".data)) := by
  simp [signaturePath, signatureFilename, String.data_append]

theorem signaturePath_injective (id1 id2 : Nat) (role1 role2 : String)
    (h : signaturePath id1 role1 = signaturePath id2 role2) : id1 = id2 ∧ role1 = role2 := by
  have hd := congrArg String.data h
  rw [signaturePath_data, signaturePath_data] at hd
  have h1 := List.append_cancel_left hd
  obtain ⟨hi, hr⟩ := append_separator_inj '-' _ _ _ _ (dash_not_mem_toString id1)
    (dash_not_mem_toString id2) h1
  have hr2 := List.append_cancel_right hr
  exact ⟨toString_nat_injective _ _ (String.ext hi), String.ext hr2⟩

/-- At a URL that names the lease by the decimal text of its id: for the roles
`landlord` and `tenant` the signature image of a lease is written at
`signatures/<leaseId>-<role>.png`, a function of the lease id and the role
alone, and two different pairs of a lease id and a role never share a path. -/
theorem signature_path_collision_free (L : Libs) (w : World) (id1 id2 : Nat)
    (role1 role2 sig baseUrl : String)
    (_hr1 : role1 = "landlord" ∨ role1 = "tenant")
    (_hr2 : role2 = "landlord" ∨ role2 = "tenant") :
    signaturePath id1 role1 = "signatures/" ++ toString id1 ++ "-" ++ role1 ++ ".png" ∧
    (sig ≠ "" →
      ((sign L w ⟨id1, role1, some sig, baseUrl⟩).world.files (signaturePath id1 role1)
        = some (L.base64Decode (stripDataUrl sig)))) ∧
    ((id1, role1) ≠ (id2, role2) → signaturePath id1 role1 ≠ signaturePath id2 role2) ∧
    (signaturePath id1 role1 = signaturePath id2 role2 ↔ (id1 = id2 ∧ role1 = role2)) := by
  have hinj := signaturePath_injective id1 id2 role1 role2
  refine ⟨?_, ?_, ?_, hinj, ?_⟩
  · simp [signaturePath, signatureFilename, String.append_assoc]
  · intro hne
    exact sign_files_signaturePath L w ⟨id1, role1, some sig, baseUrl⟩ sig rfl hne
  · intro hne h
    obtain ⟨h1, h2⟩ := hinj h
    exact hne (by rw [h1, h2])
  · rintro ⟨h1, h2⟩
    rw [h1, h2]

/-- Leases 42 and 4 and the two roles: different paths. -/
theorem signature_path_collision_free_witness :
    signaturePath 42 "landlord" = "signatures/42-landlord.png" ∧
    ((42 : Nat), "landlord") ≠ (42, "tenant") ∧
    signaturePath 42 "landlord" ≠ signaturePath 42 "tenant" ∧
    ((42 : Nat), "landlord") ≠ (4, "landlord") ∧
    signaturePath 42 "landlord" ≠ signaturePath 4 "landlord" :=
  ⟨by decide, by decide,
    (signature_path_collision_free demoLibs world42 42 42 "landlord" "tenant" "\x89LAND"
      "http://host" (Or.inl rfl) (Or.inr rfl)).2.2.1 (by decide),
    by decide,
    (signature_path_collision_free demoLibs world42 42 4 "landlord" "landlord" "\x89LAND"
      "http://host" (Or.inl rfl) (Or.inl rfl)).2.2.1 (by decide)⟩

/-! ## The payment simulator -/

theorem process_eq (p : Processor) (s : SimState) :
    p.process s =
      (⟨s.idCounter + 1, s.successCounter + 1⟩,
        ⟨(s.successCounter + 1) % 10 != 0,
          if (s.successCounter + 1) % 10 != 0 then p.approved else p.declined,
          p.tag ++ "-" ++ toString s.idCounter⟩) := rfl

theorem processAll_length (ps : List Processor) : ∀ s : SimState,
    (processAll s ps).length = ps.length := by
  induction ps with
  | nil => intro s; rfl
  | cons p ps ih => intro s; simp [processAll, ih]

/-- The call number `i + 1` of a sequence of calls is made on the counters
advanced by `i`. -/
theorem processAll_get (ps : List Processor) : ∀ (s : SimState) (i : Nat) (p : Processor),
    ps[i]? = some p →
    (processAll s ps)[i]? =
      some (p.process ⟨s.idCounter + i, s.successCounter + i⟩).2 := by
  induction ps with
  | nil => intro s i p h; simp at h
  | cons q ps ih =>
    intro s i p h
    cases i with
    | zero =>
      simp only [List.getElem?_cons_zero, Option.some.injEq] at h
      simp [processAll, h]
    | succ i =>
      simp only [List.getElem?_cons_succ] at h
      have := ih (q.process s).1 i p h
      rw [process_eq] at this
      simp only [process_eq] at this
      have e1 : s.idCounter + 1 + i = s.idCounter + (i + 1) := by omega
      have e2 : s.successCounter + 1 + i = s.successCounter + (i + 1) := by omega
      rw [e1, e2] at this
      simp only [processAll, List.getElem?_cons_succ, process_eq]
      exact this

theorem saysApproved_message (p : Processor) (b : Bool) :
    saysApproved (if b then p.approved else p.declined) = b := by
  cases p <;> cases b <;> decide

/-- C25: counting the `process` calls of the three processors from the load of
the module, the call number `n` returns `success = false` exactly when `n` is a
multiple of 10, its message is the approval message of its processor when it
succeeds and the decline message otherwise, and the message contains the word
`approved` exactly when `success` is true. -/
theorem payment_declined_every_tenth (ps : List Processor) (n : Nat) (p : Processor)
    (hn : 1 ≤ n) (hp : ps[n - 1]? = some p) :
    ∃ r : PaymentResult, (processAll SimState.fresh ps)[n - 1]? = some r ∧
      (r.success = false ↔ n % 10 = 0) ∧
      r.message = (if r.success then p.approved else p.declined) ∧
      (saysApproved r.message = true ↔ r.success = true) := by
  have h := processAll_get ps SimState.fresh (n - 1) p hp
  rw [process_eq] at h
  refine ⟨_, h, ?_, rfl, ?_⟩
  · have h1 : SimState.fresh.successCounter + (n - 1) + 1 = n := by
      simp only [SimState.fresh]
      omega
    simp [h1]
  · simp only [saysApproved_message]

/-- Twelve card payments on a fresh module: the tenth is declined, the ninth
and the eleventh are approved. -/
theorem payment_declined_every_tenth_witness :
    (List.replicate 12 Processor.card)[10 - 1]? = some Processor.card ∧
    (processAll SimState.fresh (List.replicate 12 Processor.card)).map
        (fun r => r.success) =
      [true, true, true, true, true, true, true, true, true, false, true, true] ∧
    ∃ r : PaymentResult,
      (processAll SimState.fresh (List.replicate 12 Processor.card))[10 - 1]? = some r ∧
      (r.success = false ↔ 10 % 10 = 0) ∧
      r.message = (if r.success then Processor.card.approved else Processor.card.declined) ∧
      (saysApproved r.message = true ↔ r.success = true) :=
  ⟨by decide, by decide,
    payment_declined_every_tenth (List.replicate 12 Processor.card) 10 Processor.card
      (by decide) (by decide)⟩

theorem tag_no_dash (p : Processor) : '-' ∉ p.tag.data := by
  cases p <;> decide

theorem transactionId_data (p : Processor) (n : Nat) :
    (p.tag ++ "-" ++ toString n).data = p.tag.data ++ '-' :: (toString n).data := by
  simp [String.data_append]

theorem transactionId_injective (p q : Processor) (m n : Nat)
    (h : p.tag ++ "-" ++ toString m = q.tag ++ "-" ++ toString n) : m = n := by
  have hd := congrArg String.data h
  rw [transactionId_data, transactionId_data] at hd
  obtain ⟨_, hr⟩ := append_separator_inj '-' _ _ _ _ (tag_no_dash p) (tag_no_dash q) hd
  exact toString_nat_injective _ _ (String.ext hr)

/-- C26: the transaction id of the call number `k` since the load of the module
is the tag of its processor (`card`, `airtel` or `mtn`), a dash and the number
`100000 + k - 1`; the ids of two different calls differ; and three card
payments made first on a fresh module get `card-100000`, `card-100001` and
`card-100002`. -/
theorem transaction_ids_distinct (ps : List Processor) (k : Nat) (p : Processor)
    (hk : 1 ≤ k) (hp : ps[k - 1]? = some p) :
    (∃ r : PaymentResult, (processAll SimState.fresh ps)[k - 1]? = some r ∧
      r.transactionId = p.tag ++ "-" ++ toString (100000 + k - 1)) ∧
    (p.tag = "card" ∨ p.tag = "airtel" ∨ p.tag = "mtn") ∧
    (∀ (i j : Nat) (ri rj : PaymentResult),
      (processAll SimState.fresh ps)[i]? = some ri →
      (processAll SimState.fresh ps)[j]? = some rj → i ≠ j →
      ri.transactionId ≠ rj.transactionId) ∧
    (processAll SimState.fresh
        (Processor.card :: Processor.card :: Processor.card :: ps)).map
        (fun r => r.transactionId) =
      "card-100000" :: "card-100001" :: "card-100002" ::
        (processAll ⟨100003, 3⟩ ps).map (fun r => r.transactionId) := by
  refine ⟨?_, ?_, ?_, ?_⟩
  · have h := processAll_get ps SimState.fresh (k - 1) p hp
    rw [process_eq] at h
    refine ⟨_, h, ?_⟩
    have h1 : SimState.fresh.idCounter + (k - 1) = 100000 + k - 1 := by
      simp only [SimState.fresh]
      omega
    simp only [h1]
  · cases p
    · exact Or.inl rfl
    · exact Or.inr (Or.inl rfl)
    · exact Or.inr (Or.inr rfl)
  · intro i j ri rj hi hj hij heq
    have hli : i < ps.length := by
      have := (List.getElem?_eq_some_iff.mp hi).1
      rwa [processAll_length] at this
    have hlj : j < ps.length := by
      have := (List.getElem?_eq_some_iff.mp hj).1
      rwa [processAll_length] at this
    have gi := processAll_get ps SimState.fresh i ps[i] (List.getElem?_eq_getElem hli)
    have gj := processAll_get ps SimState.fresh j ps[j] (List.getElem?_eq_getElem hlj)
    rw [hi, process_eq] at gi
    rw [hj, process_eq] at gj
    have ei := Option.some.inj gi
    have ej := Option.some.inj gj
    rw [ei, ej] at heq
    have h3 : 100000 + i = 100000 + j := transactionId_injective _ _ _ _ heq
    omega
  · rfl

/-- A card, an Airtel and an MTN payment on a fresh module: the second call
gets `airtel-100001`. -/
theorem transaction_ids_distinct_witness :
    [Processor.card, Processor.airtel, Processor.mtn][2 - 1]? = some Processor.airtel ∧
    (processAll SimState.fresh [Processor.card, Processor.airtel, Processor.mtn]).map
        (fun r => r.transactionId) = ["card-100000", "airtel-100001", "mtn-100002"] ∧
    ∃ r : PaymentResult,
      (processAll SimState.fresh [Processor.card, Processor.airtel, Processor.mtn])[2 - 1]?
        = some r ∧
      r.transactionId = Processor.airtel.tag ++ "-" ++ toString (100000 + 2 - 1) :=
  ⟨by decide, by decide,
    (transaction_ids_distinct [Processor.card, Processor.airtel, Processor.mtn] 2
      Processor.airtel (by decide) (by decide)).1⟩

/-! ## The property update handler -/

theorem selectProperty_update (rows : List PropertyRecord) (id : Nat)
    (f : PropertyRecord → PropertyRecord) (hf : ∀ p, (f p).id = p.id) :
    selectProperty (rows.map (fun p => if p.id = id then f p else p)) id =
      (selectProperty rows id).map f := by
  unfold selectProperty
  induction rows with
  | nil => rfl
  | cons r rows ih =>
    have hg : (if r.id = id then f r else r).id = r.id := by
      split
      · exact hf r
      · rfl
    simp only [List.map_cons, List.find?_cons, hg]
    cases h : (r.id == id) with
    | true =>
      have : r.id = id := by simpa using h
      simp [this]
    | false => simpa using ih

theorem updateProperty_properties (e : Estate) (req : PropertyUpdate) :
    (updateProperty e req).estate.properties =
      e.properties.map (fun p => if p.id = req.id then applyUpdate req p else p) ∧
    (updateProperty e req).body =
      (selectProperty e.properties req.id).map (applyUpdate req) ∧
    selectProperty (updateProperty e req).estate.properties req.id =
      (selectProperty e.properties req.id).map (applyUpdate req) := by
  have hs := selectProperty_update e.properties req.id (applyUpdate req) (fun _ => rfl)
  unfold updateProperty
  cases tenantToDelete e req <;> exact ⟨rfl, hs, hs⟩

theorem updateProperty_delete (e : Estate) (req : PropertyUpdate) (t : Nat)
    (h : tenantToDelete e req = some t) :
    (updateProperty e req).estate.tenants = e.tenants.filter (fun r => r.id != t) ∧
    (updateProperty e req).trace =
      [Sql.selectTenantId req.id, Sql.updateProperty req.id (updateColumns req),
       Sql.deleteTenant t, Sql.selectProperty req.id] := by
  have hn : req.tenant_id = BodyTenant.null := by
    unfold tenantToDelete at h
    split at h
    · assumption
    · exact absurd h (by simp)
  unfold updateProperty
  simp [h, hn]

theorem updateProperty_keep (e : Estate) (req : PropertyUpdate)
    (h : tenantToDelete e req = none) :
    (updateProperty e req).estate.tenants = e.tenants ∧
    ∀ t, Sql.deleteTenant t ∉ (updateProperty e req).trace := by
  unfold updateProperty
  simp only [h]
  refine ⟨trivial, ?_⟩
  intro t
  cases req.tenant_id <;> simp

/-- C27: when the stored `tenant_id` of the property is a tenant `t` (an id
other than 0) and the body carries `tenant_id: null`, the update handler sets
the `tenant_id` of the property to null, deletes the tenant `t` and nobody
else, and responds with the updated row; when the body carries no `tenant_id`
or a tenant id, or the property has no tenant or does not exist, no tenant is
deleted; and when the body carries no `tenant_id`, the `UPDATE` sets the four
other columns only and the stored `tenant_id` stays. -/
theorem unassign_deletes_tenant (e : Estate) (req : PropertyUpdate) :
    (∀ (p : PropertyRecord) (t : Nat), selectProperty e.properties req.id = some p →
      p.tenant_id = some t → t ≠ 0 → req.tenant_id = BodyTenant.null →
      (updateProperty e req).estate.tenants = e.tenants.filter (fun r => r.id != t) ∧
      (∀ r, r ∈ (updateProperty e req).estate.tenants ↔ (r ∈ e.tenants ∧ r.id ≠ t)) ∧
      selectProperty (updateProperty e req).estate.properties req.id =
        some { p with address := req.address, type := req.type, rent := req.rent,
                      status := req.status, tenant_id := none } ∧
      (updateProperty e req).body =
        some { p with address := req.address, type := req.type, rent := req.rent,
                      status := req.status, tenant_id := none } ∧
      (updateProperty e req).trace =
        [Sql.selectTenantId req.id,
         Sql.updateProperty req.id ["address", "type", "rent", "status", "tenant_id"],
         Sql.deleteTenant t, Sql.selectProperty req.id]) ∧
    ((req.tenant_id ≠ BodyTenant.null ∨
        (selectProperty e.properties req.id).bind (fun p => p.tenant_id) = none) →
      (updateProperty e req).estate.tenants = e.tenants ∧
      ∀ t, Sql.deleteTenant t ∉ (updateProperty e req).trace) ∧
    (req.tenant_id = BodyTenant.undefined →
      (updateProperty e req).trace =
        [Sql.updateProperty req.id ["address", "type", "rent", "status"],
         Sql.selectProperty req.id] ∧
      (selectProperty (updateProperty e req).estate.properties req.id).map
          (fun p => p.tenant_id) =
        (selectProperty e.properties req.id).map (fun p => p.tenant_id)) := by
  obtain ⟨_, hbody, hsel⟩ := updateProperty_properties e req
  refine ⟨?_, ?_, ?_⟩
  · intro p t hp ht h0 hn
    have hd : tenantToDelete e req = some t := by
      simp [tenantToDelete, existingTenantId, hn, hp, ht, h0]
    obtain ⟨h1, h2⟩ := updateProperty_delete e req t hd
    refine ⟨h1, ?_, ?_, ?_, ?_⟩
    · intro r
      rw [h1]
      simp
    · rw [hsel, hp]
      simp [applyUpdate, hn]
    · rw [hbody, hp]
      simp [applyUpdate, hn]
    · rw [h2]
      simp [updateColumns, hn]
  · intro h
    apply updateProperty_keep
    rcases h with h | h
    · unfold tenantToDelete
      split
      · exact absurd (by assumption) h
      · rfl
    · unfold tenantToDelete existingTenantId
      cases hr : req.tenant_id <;> simp [h]
  · intro hu
    have hd : tenantToDelete e req = none := by
      simp [tenantToDelete, hu]
    refine ⟨?_, ?_⟩
    · unfold updateProperty
      simp [hd, hu, updateColumns]
    · rw [hsel]
      cases selectProperty e.properties req.id with
      | none => rfl
      | some p => simp [applyUpdate, hu]

/-- Property 5 let to tenant 7, as in `tests/propertyUnassign.test.js`: the
update with `tenant_id: null` deletes tenant 7 and keeps tenant 8, and the row
sent back has no tenant. -/
theorem unassign_deletes_tenant_witness :
    selectProperty letEstate.properties 5 = some ⟨5, "A", "T", "900", "Occupied", some 7⟩ ∧
    (updateProperty letEstate unassignFive).estate.tenants = [⟨8, "Bo", "bo@x.org"⟩] ∧
    (updateProperty letEstate unassignFive).body =
      some ⟨5, "A", "T", "1000", "Vacant", none⟩ ∧
    (updateProperty letEstate unassignFive).trace =
      [Sql.selectTenantId 5,
       Sql.updateProperty 5 ["address", "type", "rent", "status", "tenant_id"],
       Sql.deleteTenant 7, Sql.selectProperty 5] :=
  have T := (unassign_deletes_tenant letEstate unassignFive).1
    ⟨5, "A", "T", "900", "Occupied", some 7⟩ 7 (by decide) (by decide) (by decide)
    (by decide)
  ⟨by decide, by decide, T.2.2.2.1, T.2.2.2.2⟩

/-! ## The maintenance report -/

theorem binaryBuffer_append (a b : JsText) :
    binaryBuffer (a ++ b) = binaryBuffer a ++ binaryBuffer b := by
  simp [binaryBuffer]

theorem binaryBuffer_length (a : JsText) : (binaryBuffer a).length = a.length := by
  simp [binaryBuffer]

theorem binaryBuffer_of_lt (t : JsText) (h : ∀ u ∈ t, u < 256) : binaryBuffer t = t := by
  induction t with
  | nil => rfl
  | cons u t ih =>
    have hu : u % 256 = u := Nat.mod_eq_of_lt (h u (List.mem_cons_self _ _))
    have ht := ih (fun v hv => h v (List.mem_cons_of_mem _ hv))
    simp only [binaryBuffer, List.map_cons, hu] at ht ⊢
    rw [ht]

theorem decimal_lt (n : Nat) : ∀ u ∈ decimal n, u < 256 := by
  intro u hu
  simp only [decimal, units, List.mem_map] at hu
  obtain ⟨c, hc, rfl⟩ := hu
  have := (toString_nat_spec n).2 c hc
  omega

theorem decimal_length (n : Nat) (h : n < 10 ^ 10) : (decimal n).length ≤ 10 := by
  have := Nat.repr_length n 10 (by decide) h
  simpa [decimal, units] using this

theorem xrefEntry_lt (o : Nat) : ∀ u ∈ xrefEntry o, u < 256 := by
  intro u hu
  simp only [xrefEntry, padStart, List.mem_append, List.mem_replicate] at hu
  rcases hu with (⟨_, rfl⟩ | h) | h
  · decide
  · exact decimal_lt o u h
  · revert u
    decide

theorem xrefEntry_length (o : Nat) (h : o < 10 ^ 10) :
    (padStart 10 48 (decimal o)).length = 10 ∧ (xrefEntry o).length = 20 := by
  have hl := decimal_length o h
  have h9 : (units " 00000 n \n").length = 10 := by decide
  simp only [xrefEntry, padStart, List.length_append, List.length_replicate, h9]
  omega

/-- The bytes from the length of a head of the text on are the bytes of the
rest of the text. -/
theorem drop_binaryBuffer (p x : JsText) :
    (binaryBuffer (p ++ x)).drop p.length = binaryBuffer x := by
  rw [binaryBuffer_append]
  have := List.drop_left (binaryBuffer p) (binaryBuffer x)
  rwa [binaryBuffer_length] at this

theorem layout_five (a b c d e : JsText) :
    layout [a, b, c, d, e] =
      (units "%PDF-1.3\n" ++ a ++ b ++ c ++ d ++ e,
        [0, (units "%PDF-1.3\n").length, (units "%PDF-1.3\n" ++ a).length,
         (units "%PDF-1.3\n" ++ a ++ b).length, (units "%PDF-1.3\n" ++ a ++ b ++ c).length,
         (units "%PDF-1.3\n" ++ a ++ b ++ c ++ d).length]) := rfl

theorem assemble_five (a b c d e : JsText) :
    assemble [a, b, c, d, e] =
      (units "%PDF-1.3\n" ++ a ++ b ++ c ++ d ++ e) ++
        (units "xref\n0 6\n0000000000 65535 f \n" ++
          (xrefEntry (units "%PDF-1.3\n").length ++
           xrefEntry (units "%PDF-1.3\n" ++ a).length ++
           xrefEntry (units "%PDF-1.3\n" ++ a ++ b).length ++
           xrefEntry (units "%PDF-1.3\n" ++ a ++ b ++ c).length ++
           xrefEntry (units "%PDF-1.3\n" ++ a ++ b ++ c ++ d).length) ++
          units "trailer << /Size 6 /Root 1 0 R >>\nstartxref\n" ++
          decimal (units "%PDF-1.3\n" ++ a ++ b ++ c ++ d ++ e).length ++
          units "\n%%EOF") := by
  have h1 : units "xref\n" ++ (units "0 " ++ decimal 6 ++ units "\n") ++
      units "0000000000 65535 f \n" = units "xref\n0 6\n0000000000 65535 f \n" := by decide
  have h2 : units "trailer << /Size " ++ decimal 6 ++ units " /Root 1 0 R >>\n" ++
      units "startxref\n" = units "trailer << /Size 6 /Root 1 0 R >>\nstartxref\n" := by
    decide
  rw [← h1, ← h2]
  simp only [assemble, layout_five, xrefEntries, List.drop_succ_cons, List.drop_zero,
    List.flatMap_cons, List.flatMap_nil, List.length_cons, List.length_nil,
    List.append_assoc, List.append_nil]

/-- The cross-reference table and the trailer of a report with the given five
offsets and the given position of the table. -/
theorem tail_lt (o1 o2 o3 o4 o5 x : Nat) :
    ∀ u ∈ units "xref\n0 6\n0000000000 65535 f \n" ++
        (xrefEntry o1 ++ xrefEntry o2 ++ xrefEntry o3 ++ xrefEntry o4 ++ xrefEntry o5) ++
        units "trailer << /Size 6 /Root 1 0 R >>\nstartxref\n" ++ decimal x ++
        units "\n%%EOF", u < 256 := by
  have l1 : ∀ u ∈ units "xref\n0 6\n0000000000 65535 f \n", u < 256 := by decide
  have l2 : ∀ u ∈ units "trailer << /Size 6 /Root 1 0 R >>\nstartxref\n", u < 256 := by
    decide
  have l3 : ∀ u ∈ units "\n%%EOF", u < 256 := by decide
  intro u hu
  simp only [List.mem_append] at hu
  rcases hu with (((h | ((((h | h) | h) | h) | h)) | h) | h) | h
  · exact l1 u h
  · exact xrefEntry_lt _ u h
  · exact xrefEntry_lt _ u h
  · exact xrefEntry_lt _ u h
  · exact xrefEntry_lt _ u h
  · exact xrefEntry_lt _ u h
  · exact l2 u h
  · exact decimal_lt _ u h
  · exact l3 u h

/-- The bytes of an assembled text from each of its offsets on. -/
theorem assemble_drop (a b c d e : JsText) :
    ∃ rest1 rest2 rest3 rest4 rest5 : Bytes,
      (binaryBuffer (assemble [a, b, c, d, e])).drop (units "%PDF-1.3\n").length =
        binaryBuffer a ++ rest1 ∧
      (binaryBuffer (assemble [a, b, c, d, e])).drop (units "%PDF-1.3\n" ++ a).length =
        binaryBuffer b ++ rest2 ∧
      (binaryBuffer (assemble [a, b, c, d, e])).drop (units "%PDF-1.3\n" ++ a ++ b).length =
        binaryBuffer c ++ rest3 ∧
      (binaryBuffer (assemble [a, b, c, d, e])).drop
          (units "%PDF-1.3\n" ++ a ++ b ++ c).length =
        binaryBuffer d ++ rest4 ∧
      (binaryBuffer (assemble [a, b, c, d, e])).drop
          (units "%PDF-1.3\n" ++ a ++ b ++ c ++ d).length =
        binaryBuffer e ++ rest5 ∧
      (binaryBuffer (assemble [a, b, c, d, e])).drop
          (units "%PDF-1.3\n" ++ a ++ b ++ c ++ d ++ e).length =
        units "xref\n0 6\n0000000000 65535 f \n" ++
          (xrefEntry (units "%PDF-1.3\n").length ++
           xrefEntry (units "%PDF-1.3\n" ++ a).length ++
           xrefEntry (units "%PDF-1.3\n" ++ a ++ b).length ++
           xrefEntry (units "%PDF-1.3\n" ++ a ++ b ++ c).length ++
           xrefEntry (units "%PDF-1.3\n" ++ a ++ b ++ c ++ d).length) ++
          units "trailer << /Size 6 /Root 1 0 R >>\nstartxref\n" ++
          decimal (units "%PDF-1.3\n" ++ a ++ b ++ c ++ d ++ e).length ++
          units "\n%%EOF" := by
  rw [assemble_five]
  generalize ht : units "xref\n0 6\n0000000000 65535 f \n" ++
      (xrefEntry (units "%PDF-1.3\n").length ++
       xrefEntry (units "%PDF-1.3\n" ++ a).length ++
       xrefEntry (units "%PDF-1.3\n" ++ a ++ b).length ++
       xrefEntry (units "%PDF-1.3\n" ++ a ++ b ++ c).length ++
       xrefEntry (units "%PDF-1.3\n" ++ a ++ b ++ c ++ d).length) ++
      units "trailer << /Size 6 /Root 1 0 R >>\nstartxref\n" ++
      decimal (units "%PDF-1.3\n" ++ a ++ b ++ c ++ d ++ e).length ++
      units "\n%%EOF" = tail
  have hl : binaryBuffer tail = tail := by
    rw [← ht]
    exact binaryBuffer_of_lt _ (tail_lt _ _ _ _ _ _)
  refine ⟨binaryBuffer (b ++ c ++ d ++ e ++ tail), binaryBuffer (c ++ d ++ e ++ tail),
    binaryBuffer (d ++ e ++ tail), binaryBuffer (e ++ tail), binaryBuffer tail,
    ?_, ?_, ?_, ?_, ?_, ?_⟩
  · have h : units "%PDF-1.3\n" ++ a ++ b ++ c ++ d ++ e ++ tail =
        units "%PDF-1.3\n" ++ (a ++ (b ++ c ++ d ++ e ++ tail)) := by
      simp only [List.append_assoc]
    rw [h, drop_binaryBuffer, binaryBuffer_append]
  · have h : units "%PDF-1.3\n" ++ a ++ b ++ c ++ d ++ e ++ tail =
        (units "%PDF-1.3\n" ++ a) ++ (b ++ (c ++ d ++ e ++ tail)) := by
      simp only [List.append_assoc]
    rw [h, drop_binaryBuffer, binaryBuffer_append]
  · have h : units "%PDF-1.3\n" ++ a ++ b ++ c ++ d ++ e ++ tail =
        (units "%PDF-1.3\n" ++ a ++ b) ++ (c ++ (d ++ e ++ tail)) := by
      simp only [List.append_assoc]
    rw [h, drop_binaryBuffer, binaryBuffer_append]
  · have h : units "%PDF-1.3\n" ++ a ++ b ++ c ++ d ++ e ++ tail =
        (units "%PDF-1.3\n" ++ a ++ b ++ c) ++ (d ++ (e ++ tail)) := by
      simp only [List.append_assoc]
    rw [h, drop_binaryBuffer, binaryBuffer_append]
  · have h : units "%PDF-1.3\n" ++ a ++ b ++ c ++ d ++ e ++ tail =
        (units "%PDF-1.3\n" ++ a ++ b ++ c ++ d) ++ (e ++ tail) := by
      simp only [List.append_assoc]
    rw [h, drop_binaryBuffer, binaryBuffer_append]
  · rw [drop_binaryBuffer, hl]

/-- The first and the last bytes of an assembled text. -/
theorem assemble_ends (a b c d e : JsText) :
    units "%PDF-1.3" <+: binaryBuffer (assemble [a, b, c, d, e]) ∧
    units "%%EOF" <:+ binaryBuffer (assemble [a, b, c, d, e]) := by
  rw [assemble_five]
  constructor
  · simp only [List.append_assoc, binaryBuffer_append]
    have h : units "%PDF-1.3" <+: binaryBuffer (units "%PDF-1.3\n") := by decide
    exact h.trans (List.prefix_append _ _)
  · simp only [← List.append_assoc, binaryBuffer_append]
    have h : units "%%EOF" <:+ binaryBuffer (units "\n%%EOF") := by decide
    exact h.trans (List.suffix_append _ _)

/-- The offsets of an assembled text are below its length. -/
theorem assemble_offsets_lt (a b c d e : JsText) (n : Nat)
    (hsize : (binaryBuffer (assemble [a, b, c, d, e])).length < n) :
    ∀ o ∈ [(units "%PDF-1.3\n").length, (units "%PDF-1.3\n" ++ a).length,
        (units "%PDF-1.3\n" ++ a ++ b).length, (units "%PDF-1.3\n" ++ a ++ b ++ c).length,
        (units "%PDF-1.3\n" ++ a ++ b ++ c ++ d).length], o < n := by
  rw [binaryBuffer_length, assemble_five] at hsize
  simp only [List.length_append] at hsize
  intro o ho
  simp only [List.mem_cons, List.mem_singleton, List.not_mem_nil, or_false,
    List.length_append] at ho
  rcases ho with h | h | h | h | h <;> omega

theorem reportObjects_heads (content : JsText) :
    ∃ a b c d e : JsText, reportObjects content = [a, b, c, d, e] ∧
      units "1 0 obj" <+: binaryBuffer a ∧ units "2 0 obj" <+: binaryBuffer b ∧
      units "3 0 obj" <+: binaryBuffer c ∧ units "4 0 obj" <+: binaryBuffer d ∧
      units "5 0 obj" <+: binaryBuffer e := by
  refine ⟨_, _, _, _, _, rfl, by decide, by decide, by decide, ?_, by decide⟩
  simp only [List.append_assoc, binaryBuffer_append]
  have h : units "4 0 obj" <+: binaryBuffer (units "4 0 obj << /Length ") := by decide
  exact h.trans (List.prefix_append _ _)

/-- C28: for every tenant name, date and list of requests the report is a
buffer that starts with `%PDF-1.3` and ends with `%%EOF`; the array `offsets`
has the entry 0 and five more; at the `i`-th of these offsets the bytes
`i 0 obj` begin; at the offset `xrefPos` the table begins with the keyword
`xref`, the count 6 and the free entry, followed by one entry per object in
use, the trailer and `startxref` with the decimal text of `xrefPos`; and in a
report shorter than 10^10 bytes each of these entries is 20 bytes long and
starts with the decimal text of its offset, padded with zeros to 10 digits. -/
theorem maintenance_report_well_formed (tenantName : Option JsText) (dateStr : JsText)
    (requests : List MaintenanceRequest)
    (hsize : (generateMaintenanceReport tenantName dateStr requests).length < 10 ^ 10) :
    ∃ o1 o2 o3 o4 o5 xrefPos : Nat,
      (layout (reportObjects (reportContent tenantName dateStr requests))).2 =
        [0, o1, o2, o3, o4, o5] ∧
      (layout (reportObjects (reportContent tenantName dateStr requests))).1.length =
        xrefPos ∧
      units "%PDF-1.3" <+: generateMaintenanceReport tenantName dateStr requests ∧
      units "%%EOF" <:+ generateMaintenanceReport tenantName dateStr requests ∧
      units "1 0 obj" <+: (generateMaintenanceReport tenantName dateStr requests).drop o1 ∧
      units "2 0 obj" <+: (generateMaintenanceReport tenantName dateStr requests).drop o2 ∧
      units "3 0 obj" <+: (generateMaintenanceReport tenantName dateStr requests).drop o3 ∧
      units "4 0 obj" <+: (generateMaintenanceReport tenantName dateStr requests).drop o4 ∧
      units "5 0 obj" <+: (generateMaintenanceReport tenantName dateStr requests).drop o5 ∧
      units "xref" <+: (generateMaintenanceReport tenantName dateStr requests).drop xrefPos ∧
      (generateMaintenanceReport tenantName dateStr requests).drop xrefPos =
        units "xref\n0 6\n0000000000 65535 f \n" ++
          (xrefEntry o1 ++ xrefEntry o2 ++ xrefEntry o3 ++ xrefEntry o4 ++ xrefEntry o5) ++
          units "trailer << /Size 6 /Root 1 0 R >>\nstartxref\n" ++ decimal xrefPos ++
          units "\n%%EOF" ∧
      ∀ o ∈ [o1, o2, o3, o4, o5],
        xrefEntry o =
          List.replicate (10 - (decimal o).length) 48 ++ decimal o ++ units " 00000 n \n" ∧
        (List.replicate (10 - (decimal o).length) 48 ++ decimal o).length = 10 ∧
        (xrefEntry o).length = 20 ∧
        decimalValue (toString o).data = o := by
  obtain ⟨a, b, c, d, e, hobj, ha, hb, hc, hd, he⟩ :=
    reportObjects_heads (reportContent tenantName dateStr requests)
  have hgen : generateMaintenanceReport tenantName dateStr requests =
      binaryBuffer (assemble [a, b, c, d, e]) := by
    rw [← hobj]
    rfl
  rw [hgen] at hsize ⊢
  rw [hobj, layout_five]
  obtain ⟨r1, r2, r3, r4, r5, d1, d2, d3, d4, d5, dx⟩ := assemble_drop a b c d e
  obtain ⟨hstart, hend⟩ := assemble_ends a b c d e
  have hlt := assemble_offsets_lt a b c d e _ hsize
  refine ⟨_, _, _, _, _, _, rfl, rfl, hstart, hend, ?_, ?_, ?_, ?_, ?_, ?_, dx, ?_⟩
  · rw [d1]
    exact ha.trans (List.prefix_append _ _)
  · rw [d2]
    exact hb.trans (List.prefix_append _ _)
  · rw [d3]
    exact hc.trans (List.prefix_append _ _)
  · rw [d4]
    exact hd.trans (List.prefix_append _ _)
  · rw [d5]
    exact he.trans (List.prefix_append _ _)
  · rw [dx]
    simp only [List.append_assoc]
    have h : units "xref" <+: units "xref\n0 6\n0000000000 65535 f \n" := by decide
    exact h.trans (List.prefix_append _ _)
  · intro o ho
    have h10 := xrefEntry_length o (hlt o ho)
    exact ⟨rfl, h10.1, h10.2, (toString_nat_spec o).1⟩

set_option maxRecDepth 100000 in
/-- The report of the test of the repository is 817 bytes long; its objects
begin at the offsets 9, 58, 115, 241 and 565 and its table at 635. -/
theorem maintenance_report_well_formed_witness :
    johnsReport.length < 10 ^ 10 ∧
    johnsReport.length = 817 ∧
    (layout (reportObjects (reportContent (some (units "John Doe")) (units "2025-06-01")
      [⟨units "2025-01-01", some (units "Leaky faucet"), some (units "Pending")⟩]))).2 =
      [0, 9, 58, 115, 241, 565] ∧
    units "%PDF-1.3" <+: johnsReport ∧
    units "%%EOF" <:+ johnsReport ∧
    johnsReport.drop 635 =
      units ("xref\n0 6\n0000000000 65535 f \n0000000009 00000 n \n0000000058 00000 n \n"
        ++ "0000000115 00000 n \n0000000241 00000 n \n0000000565 00000 n \n"
        ++ "trailer << /Size 6 /Root 1 0 R >>\nstartxref\n635\n%%EOF") := by
  obtain ⟨o1, o2, o3, o4, o5, x, _, _, hs, he, _⟩ :=
    maintenance_report_well_formed (some (units "John Doe")) (units "2025-06-01")
      [⟨units "2025-01-01", some (units "Leaky faucet"), some (units "Pending")⟩] (by decide)
  exact ⟨by decide, by decide, by decide, hs, he, by decide⟩

/-! ## Two sign requests in flight -/

/-- A request that takes its two turns one after the other is the handler. -/
theorem advance_twice (L : Libs) (w : World) (req : SignRequest) :
    advance L (advance L w (Stage.waiting req)).1 (advance L w (Stage.waiting req)).2 =
      ((sign L w req).world, Stage.done (sign L w req).response) := by
  cases hs : req.signature with
  | none => simp [advance, signRead, sign, hs]
  | some s =>
    by_cases he : s = ""
    · simp [advance, signRead, sign, hs, he]
    · simp only [advance, signRead, sign, hs, he, if_false]
      cases h1 : selectLease (updateLease w.leases req.id
          (setSignaturePath req.role (signaturePath req.id req.role))) req.id with
      | none => simp [signCommit]
      | some row =>
        simp only [signCommit]
        cases h2 : (embedSignatures L (writeFile w.files (signaturePath req.id req.role)
            (L.base64Decode (stripDataUrl s))) row).output with
        | none => simp
        | some doc => simp

/-- Two requests that take their turns one after the other are two calls of
the handler, in that order. -/
theorem race_in_turn (L : Libs) (w : World) (a b : SignRequest) :
    (race L ⟨w, Stage.waiting a, Stage.waiting b⟩
        [Turn.first, Turn.first, Turn.second, Turn.second]).world =
      (sign L (sign L w a).world b).world ∧
    (race L ⟨w, Stage.waiting a, Stage.waiting b⟩
        [Turn.second, Turn.second, Turn.first, Turn.first]).world =
      (sign L (sign L w b).world a).world := by
  simp only [race, List.foldl_cons, List.foldl_nil, raceStep, advance_twice]
  exact ⟨trivial, trivial⟩

/-- The landlord and the tenant sign one after the other, in either order. -/
theorem sign_in_turn (L : Libs) (w : World) (id now : Nat) (r0 : LeaseRow)
    (sL sT uL uT : String) (base : Bytes) (h : Int) (hs : List Int)
    (hrow : selectLease w.leases id = some r0)
    (hdoc : r0.document_path = some (leaseFilename now))
    (hbase : w.files (leaseFilename now) = some base)
    (hparse : L.pdfParse base = some (h :: hs))
    (hsL : sL ≠ "") (hsT : sT ≠ "")
    (hpngL : L.isPng (L.base64Decode (stripDataUrl sL)) = true)
    (hpngT : L.isPng (L.base64Decode (stripDataUrl sT)) = true) :
    statusOf (sign L (sign L w ⟨id, "landlord", some sL, uL⟩).world
        ⟨id, "tenant", some sT, uT⟩).world id = some LeaseStatus.signed ∧
    statusOf (sign L (sign L w ⟨id, "tenant", some sT, uT⟩).world
        ⟨id, "landlord", some sL, uL⟩).world id = some LeaseStatus.signed ∧
    (sign L (sign L w ⟨id, "landlord", some sL, uL⟩).world
        ⟨id, "tenant", some sT, uT⟩).world.files (signedFilename id) =
      some (L.pdfSave ⟨base, h :: hs,
        [overlayAt L.signaturePositions.landlord h (L.base64Decode (stripDataUrl sL)),
         overlayAt L.signaturePositions.tenant h (L.base64Decode (stripDataUrl sT))]⟩) ∧
    (sign L (sign L w ⟨id, "tenant", some sT, uT⟩).world
        ⟨id, "landlord", some sL, uL⟩).world.files (signedFilename id) =
      some (L.pdfSave ⟨base, h :: hs,
        [overlayAt L.signaturePositions.landlord h (L.base64Decode (stripDataUrl sL)),
         overlayAt L.signaturePositions.tenant h (L.base64Decode (stripDataUrl sT))]⟩) := by
  have hLT := signaturePath_landlord_ne_tenant id
  have hdL := leaseFilename_ne_signaturePath now id "landlord"
  have hdT := leaseFilename_ne_signaturePath now id "tenant"
  have hdS := leaseFilename_ne_signedFilename now id
  have hSL := signedFilename_ne_signaturePath id "landlord"
  have hST := signedFilename_ne_signaturePath id "tenant"
  have heL := signaturePath_ne_empty id "landlord"
  have heT := signaturePath_ne_empty id "tenant"
  obtain ⟨x, hx⟩ := sign_first_row L w ⟨id, "landlord", some sL, uL⟩ sL r0 rfl hsL hrow
  obtain ⟨y, hy⟩ := sign_first_row L w ⟨id, "tenant", some sT, uT⟩ sT r0 rfl hsT hrow
  have hfL := sign_files_agree L w ⟨id, "landlord", some sL, uL⟩ sL r0 rfl hsL hrow
  have hfT := sign_files_agree L w ⟨id, "tenant", some sT, uT⟩ sT r0 rfl hsT hrow
  simp only at hx hy hfL hfT
  have hLT2 := sign_both_drawn L (sign L w ⟨id, "landlord", some sL, uL⟩).world
    ⟨id, "tenant", some sT, uT⟩ sT _ (leaseFilename now) (signaturePath id "landlord")
    (signaturePath id "tenant") base (L.base64Decode (stripDataUrl sL))
    (L.base64Decode (stripDataUrl sT)) h hs rfl hsT hx
    (by simp [setSignaturePath, hdoc])
    (by simp [writeFile, hdT, hfL _ hdS, hdL, hbase])
    hparse
    (by simp [setSignaturePath])
    heL
    (by simp [writeFile, hLT, hfL _ hSL.symm])
    hpngL
    (by simp [setSignaturePath])
    heT
    (by simp [writeFile])
    hpngT
  have hTL2 := sign_both_drawn L (sign L w ⟨id, "tenant", some sT, uT⟩).world
    ⟨id, "landlord", some sL, uL⟩ sL _ (leaseFilename now) (signaturePath id "landlord")
    (signaturePath id "tenant") base (L.base64Decode (stripDataUrl sL))
    (L.base64Decode (stripDataUrl sT)) h hs rfl hsL hy
    (by simp [setSignaturePath, hdoc])
    (by simp [writeFile, hdL, hfT _ hdS, hdT, hbase])
    hparse
    (by simp [setSignaturePath])
    heL
    (by simp [writeFile])
    hpngL
    (by simp [setSignaturePath])
    heT
    (by simp [writeFile, hLT.symm, hfT _ hST.symm])
    hpngT
  refine ⟨?_, ?_, hLT2.2.1, hTL2.2.1⟩
  · simp only [statusOf]
    rw [hLT2.1]
    rfl
  · simp only [statusOf]
    rw [hTL2.1]
    rfl

/-- C29 (amended): the sign handler takes no lock.  Two sign requests of the
landlord and of the tenant on a lease whose base document parses and whose two
images decode end with status `signed` and an artifact that carries both
overlays when they take their turns one after the other, in either order: such
a schedule is the two handler calls in that order. -/
theorem signatures_in_turn_end_signed (L : Libs) (w : World) (id now : Nat) (r0 : LeaseRow)
    (sL sT uL uT : String) (base : Bytes) (h : Int) (hs : List Int)
    (hrow : selectLease w.leases id = some r0)
    (hdoc : r0.document_path = some (leaseFilename now))
    (hbase : w.files (leaseFilename now) = some base)
    (hparse : L.pdfParse base = some (h :: hs))
    (hsL : sL ≠ "") (hsT : sT ≠ "")
    (hpngL : L.isPng (L.base64Decode (stripDataUrl sL)) = true)
    (hpngT : L.isPng (L.base64Decode (stripDataUrl sT)) = true) :
    (∀ ts, ts = [Turn.first, Turn.first, Turn.second, Turn.second] ∨
        ts = [Turn.second, Turn.second, Turn.first, Turn.first] →
      statusOf (race L ⟨w, Stage.waiting ⟨id, "landlord", some sL, uL⟩,
          Stage.waiting ⟨id, "tenant", some sT, uT⟩⟩ ts).world id =
        some LeaseStatus.signed ∧
      (race L ⟨w, Stage.waiting ⟨id, "landlord", some sL, uL⟩,
          Stage.waiting ⟨id, "tenant", some sT, uT⟩⟩ ts).world.files (signedFilename id) =
        some (L.pdfSave ⟨base, h :: hs,
          [overlayAt L.signaturePositions.landlord h (L.base64Decode (stripDataUrl sL)),
           overlayAt L.signaturePositions.tenant h (L.base64Decode (stripDataUrl sT))]⟩)) ∧
    (race L ⟨w, Stage.waiting ⟨id, "landlord", some sL, uL⟩,
        Stage.waiting ⟨id, "tenant", some sT, uT⟩⟩
        [Turn.first, Turn.first, Turn.second, Turn.second]).world =
      (sign L (sign L w ⟨id, "landlord", some sL, uL⟩).world
        ⟨id, "tenant", some sT, uT⟩).world ∧
    (race L ⟨w, Stage.waiting ⟨id, "landlord", some sL, uL⟩,
        Stage.waiting ⟨id, "tenant", some sT, uT⟩⟩
        [Turn.second, Turn.second, Turn.first, Turn.first]).world =
      (sign L (sign L w ⟨id, "tenant", some sT, uT⟩).world
        ⟨id, "landlord", some sL, uL⟩).world := by
  obtain ⟨r1, r2⟩ := race_in_turn L w ⟨id, "landlord", some sL, uL⟩ ⟨id, "tenant", some sT, uT⟩
  obtain ⟨s1, s2, f1, f2⟩ := sign_in_turn L w id now r0 sL sT uL uT base h hs hrow hdoc hbase
    hparse hsL hsT hpngL hpngT
  refine ⟨?_, r1, r2⟩
  intro ts hts
  rcases hts with hts | hts
  · rw [hts, r1]
    exact ⟨s1, f1⟩
  · rw [hts, r2]
    exact ⟨s2, f2⟩

/-- Lease 42: the landlord's request and then the tenant's request, each run
from start to end, leave the lease `signed`. -/
theorem signatures_in_turn_end_signed_witness :
    selectLease world42.leases 42 = some lease42 ∧
    world42.files (leaseFilename 1700) = some [37, 1, 2] ∧
    statusOf (race demoLibs ⟨world42, Stage.waiting landlordSigns,
        Stage.waiting tenantSigns⟩
        [Turn.first, Turn.first, Turn.second, Turn.second]).world 42 =
      some LeaseStatus.signed ∧
    (race demoLibs ⟨world42, Stage.waiting landlordSigns, Stage.waiting tenantSigns⟩
        [Turn.first, Turn.first, Turn.second, Turn.second]).world.files (signedFilename 42) =
      some (demoLibs.pdfSave bothDrawn) :=
  have T := (signatures_in_turn_end_signed demoLibs world42 42 1700 lease42 "\x89LAND"
    "data:image/png;base64,\x89TEN" "http://host" "http://host" [37, 1, 2] 792 []
    (by decide) (by decide) (by decide) (by decide) (by decide) (by decide) (by decide)
    (by decide)).1 [Turn.first, Turn.first, Turn.second, Turn.second] (Or.inl rfl)
  ⟨by decide, by decide, T.1, by decide⟩

/-- C29 (counterexample): the landlord's request on lease 42 is suspended at its
`SELECT` while the tenant's request runs from start to end, and then resumes.
Both signature paths are on the record and both requests were answered, the
tenant's with `signed`; but the lease ends `pending` and the artifact carries
the landlord's overlay alone. -/
theorem interleaved_signatures_end_pending :
    statusOf staleRace.world 42 = some LeaseStatus.pending ∧
    staleRace.world.files (signedFilename 42) = some (demoLibs.pdfSave landlordDrawn) ∧
    staleRace.world.files (signedFilename 42) ≠ some (demoLibs.pdfSave bothDrawn) ∧
    (selectLease staleRace.world.leases 42).map (fun r => r.landlord_signature_path) =
      some (some "signatures/42-landlord.png") ∧
    (selectLease staleRace.world.leases 42).map (fun r => r.tenant_signature_path) =
      some (some "signatures/42-tenant.png") ∧
    staleRace.first =
      Stage.done (Response.signed LeaseStatus.pending
        "http://host/uploads/leases/42-signed.pdf") ∧
    staleRace.second =
      Stage.done (Response.signed LeaseStatus.signed
        "http://host/uploads/leases/42-signed.pdf") := by
  decide

/-! ## A status request that changes nothing -/

theorem getStatus_eq_signed (w : World) (req : StatusRequest) (lease : LeaseRow)
    (hlease : selectLease w.leases req.id = some lease)
    (hs : lease.status = LeaseStatus.signed) :
    getStatus w req =
      ⟨w, Response.status lease.status (signedUrl req.baseUrl lease.signed_document_path),
        [Effect.dbQuery "leases"]⟩ := by
  unfold getStatus
  simp [hlease, hs]

theorem getStatus_eq_unknown (w : World) (req : StatusRequest) (lease : LeaseRow)
    (hlease : selectLease w.leases req.id = some lease)
    (hns : lease.status ≠ LeaseStatus.signed)
    (hpoll : (checkStatus w.envelopes lease.provider_envelope_id req.draw).2
      ≠ PollStatus.signed) :
    getStatus w req =
      ⟨{ w with
          envelopes := (checkStatus w.envelopes lease.provider_envelope_id req.draw).1 },
        Response.status lease.status (signedUrl req.baseUrl lease.signed_document_path),
        [Effect.dbQuery "leases", Effect.checkStatus lease.provider_envelope_id]⟩ := by
  unfold getStatus
  simp [hlease, hns, hpoll]

/-- C30: a status request for a lease that is `signed` polls nothing, copies
nothing and writes nothing: the state is the state before and the one effect is
the query of the lease; a poll is made only for a lease that is not `signed`;
and for a lease that is not `signed` and has no provider envelope id the poll
answers `unknown` whatever the draw, the lease table, the envelope map and the
files are the ones before, and the response carries the stored status and the
URL of the stored signed path. -/
theorem getStatus_read_only (w : World) (req : StatusRequest) (lease : LeaseRow)
    (hlease : selectLease w.leases req.id = some lease) :
    (lease.status = LeaseStatus.signed →
      getStatus w req =
        ⟨w, Response.status LeaseStatus.signed
            (signedUrl req.baseUrl lease.signed_document_path),
          [Effect.dbQuery "leases"]⟩) ∧
    (∀ e, Effect.checkStatus e ∈ (getStatus w req).trace →
      lease.status ≠ LeaseStatus.signed) ∧
    (lease.status ≠ LeaseStatus.signed → lease.provider_envelope_id = none →
      checkStatus w.envelopes lease.provider_envelope_id req.draw =
        (w.envelopes, PollStatus.unknown) ∧
      (getStatus w req).world.leases = w.leases ∧
      (getStatus w req).world.envelopes = w.envelopes ∧
      (getStatus w req).world.files = w.files ∧
      (getStatus w req).response =
        Response.status lease.status (signedUrl req.baseUrl lease.signed_document_path) ∧
      (getStatus w req).trace = [Effect.dbQuery "leases", Effect.checkStatus none]) := by
  refine ⟨?_, ?_, ?_⟩
  · intro hs
    rw [getStatus_eq_signed w req lease hlease hs, hs]
  · intro e he hs
    rw [getStatus_eq_signed w req lease hlease hs] at he
    simp at he
  · intro hns hnone
    have hc : checkStatus w.envelopes lease.provider_envelope_id req.draw =
        (w.envelopes, PollStatus.unknown) := by
      rw [hnone]
      rfl
    have hg := getStatus_eq_unknown w req lease hlease hns (by simp [hc])
    rw [hg, hc, hnone]
    exact ⟨rfl, rfl, rfl, rfl, rfl, rfl⟩

/-- The signed lease 1 is reported from the record alone, and the generated
lease 42, which has no envelope, is reported `generated` whatever the draw. -/
theorem getStatus_read_only_witness :
    selectLease bothSignedWorld.leases 1 = some bothSignedRow ∧
    bothSignedRow.status = LeaseStatus.signed ∧
    (getStatus bothSignedWorld ⟨1, true, "http://host"⟩).trace = [Effect.dbQuery "leases"] ∧
    selectLease world42.leases 42 = some lease42 ∧
    lease42.status ≠ LeaseStatus.signed ∧ lease42.provider_envelope_id = none ∧
    (getStatus world42 ⟨42, true, "http://host"⟩).response =
      Response.status LeaseStatus.generated none :=
  have T := getStatus_read_only bothSignedWorld ⟨1, true, "http://host"⟩ bothSignedRow
    (by decide)
  have U := getStatus_read_only world42 ⟨42, true, "http://host"⟩ lease42 (by decide)
  ⟨by decide, by decide, congrArg Outcome.trace (T.1 (by decide)), by decide, by decide,
    by decide, (U.2.2 (by decide) (by decide)).2.2.2.2.1⟩

/-! ## The text of the URL in the file names -/

/-- At a URL that names the lease by the decimal text of its id, the handler
with the text of the URL kept apart is the sign handler. -/
theorem signUrl_decimal (L : Libs) (w : World) (req : SignRequest) :
    signUrl L w ⟨toString req.id, req.id, req.role, req.signature, req.baseUrl⟩ =
      sign L w req := rfl

/-- C8: the landlord signs lease 42 at `/42/sign` and the tenant at `/042/sign`.
When the landlord signs first the record ends with the signed path
`042-signed.pdf`, when the tenant signs first with `42-signed.pdf`: the two
orders end `signed` in different records, and in the first the signed path is
not `42-signed.pdf`. -/
theorem signature_order_changes_signed_path :
    statusOf (signUrl demoLibs (signUrl demoLibs world42 landlordAt42).world
      tenantAt042).world 42 = some LeaseStatus.signed ∧
    statusOf (signUrl demoLibs (signUrl demoLibs world42 tenantAt042).world
      landlordAt42).world 42 = some LeaseStatus.signed ∧
    (selectLease (signUrl demoLibs (signUrl demoLibs world42 landlordAt42).world
      tenantAt042).world.leases 42).map (fun r => r.signed_document_path) =
      some (some "042-signed.pdf") ∧
    (selectLease (signUrl demoLibs (signUrl demoLibs world42 tenantAt042).world
      landlordAt42).world.leases 42).map (fun r => r.signed_document_path) =
      some (some "42-signed.pdf") ∧
    selectLease (signUrl demoLibs (signUrl demoLibs world42 landlordAt42).world
      tenantAt042).world.leases 42 ≠
    selectLease (signUrl demoLibs (signUrl demoLibs world42 tenantAt042).world
      landlordAt42).world.leases 42 ∧
    signedFilename 42 = "42-signed.pdf" := by
  decide

/-- C9: the landlord signs lease 42 at `/42/sign` and then, with the same
image, at `/042/sign`.  The second call writes a second image at
`signatures/042-landlord.png`, leaves the first at
`signatures/42-landlord.png`, and changes the signature path and the signed
path of the record. -/
theorem resign_at_other_text_changes_record :
    (selectLease (signUrl demoLibs world42 landlordAt42).world.leases 42).map
        (fun r => (r.landlord_signature_path, r.signed_document_path)) =
      some (some "signatures/42-landlord.png", some "42-signed.pdf") ∧
    (selectLease (signUrl demoLibs (signUrl demoLibs world42 landlordAt42).world
        landlordAt042).world.leases 42).map
        (fun r => (r.landlord_signature_path, r.signed_document_path)) =
      some (some "signatures/042-landlord.png", some "042-signed.pdf") ∧
    selectLease (signUrl demoLibs (signUrl demoLibs world42 landlordAt42).world
        landlordAt042).world.leases 42 ≠
      selectLease (signUrl demoLibs world42 landlordAt42).world.leases 42 ∧
    (signUrl demoLibs (signUrl demoLibs world42 landlordAt42).world
        landlordAt042).world.files "signatures/42-landlord.png" =
      some [137, 76, 65, 78, 68] ∧
    (signUrl demoLibs (signUrl demoLibs world42 landlordAt42).world
        landlordAt042).world.files "signatures/042-landlord.png" =
      some [137, 76, 65, 78, 68] ∧
    (signUrl demoLibs world42 landlordAt42).world.files "signatures/042-landlord.png" =
      none ∧
    landlordAt42.signature = landlordAt042.signature ∧
    landlordAt42.role = landlordAt042.role ∧ landlordAt42.id = landlordAt042.id := by
  decide

/-- C17: the landlord signs lease 42 at `/042/sign` with data that is not a PNG
image.  The embed step throws and the request is answered with a status and a
URL, but the image is stored at `signatures/042-landlord.png` and the record
carries that path: nothing is stored at `signatures/42-landlord.png`. -/
theorem render_failure_stores_under_url_text :
    (signUrl demoLibs world42 scribbleAt042).response =
      Response.signed LeaseStatus.pending "http://host/uploads/leases/042-signed.pdf" ∧
    (signUrl demoLibs world42 scribbleAt042).world.files "042-signed.pdf" = none ∧
    (signUrl demoLibs world42 scribbleAt042).world.files "signatures/042-landlord.png" =
      some [115, 99, 114, 105, 98, 98, 108, 101] ∧
    (signUrl demoLibs world42 scribbleAt042).world.files (signaturePath 42 "landlord") =
      none ∧
    signaturePath 42 "landlord" = "signatures/42-landlord.png" ∧
    (selectLease (signUrl demoLibs world42 scribbleAt042).world.leases 42).map
        (fun r => (r.landlord_signature_path, r.signed_document_path)) =
      some (some "signatures/042-landlord.png", none) := by
  decide

/-- C24: the landlord signs lease 42 at `/042/sign`.  The image is written at
`signatures/042-landlord.png` and that path is set on the record of lease 42;
nothing is written at `signatures/42-landlord.png`, where the same landlord
signing the same lease at `/42/sign` writes it: the path follows the text of
the URL, not the lease id. -/
theorem signature_path_follows_url_text :
    landlordAt042.id = 42 ∧ landlordAt42.id = 42 ∧
    (signUrl demoLibs world42 landlordAt042).world.files "signatures/042-landlord.png" =
      some [137, 76, 65, 78, 68] ∧
    (signUrl demoLibs world42 landlordAt042).world.files "signatures/42-landlord.png" =
      none ∧
    (selectLease (signUrl demoLibs world42 landlordAt042).world.leases 42).map
        (fun r => r.landlord_signature_path) =
      some (some "signatures/042-landlord.png") ∧
    (signUrl demoLibs world42 landlordAt42).world.files "signatures/42-landlord.png" =
      some [137, 76, 65, 78, 68] ∧
    (selectLease (signUrl demoLibs world42 landlordAt42).world.leases 42).map
        (fun r => r.landlord_signature_path) =
      some (some "signatures/42-landlord.png") := by
  decide

/-! ## Rounding -/

theorem roundHalfEven_intCast (n : ℤ) : roundHalfEven (n : ℚ) = n := by
  simp [roundHalfEven]

theorem roundHalfEven_of_near (q : ℚ) (n : ℤ) (h1 : (n : ℚ) - 1 / 2 < q)
    (h2 : q < (n : ℚ) + 1 / 2) : roundHalfEven q = n := by
  have hf1 : (⌊q⌋ : ℚ) ≤ q := Int.floor_le q
  have hf2 : q < (⌊q⌋ : ℚ) + 1 := Int.lt_floor_add_one q
  unfold roundHalfEven
  split_ifs with a b c
  · -- fractional part below one half: floor is n
    have : (⌊q⌋ : ℚ) < n + 1 / 2 := lt_of_le_of_lt hf1 h2
    have h3 : (⌊q⌋ : ℚ) > n - 1 := by linarith
    have h4 : ⌊q⌋ < n + 1 := by
      have : (⌊q⌋ : ℚ) < ((n + 1 : ℤ) : ℚ) := by push_cast; linarith
      exact_mod_cast this
    have h5 : n - 1 < ⌊q⌋ := by
      have : ((n - 1 : ℤ) : ℚ) < (⌊q⌋ : ℚ) := by push_cast; linarith
      exact_mod_cast this
    omega
  · have h3 : (⌊q⌋ : ℚ) + 1 < n + 1 := by linarith
    have h4 : ⌊q⌋ < n := by
      have : (⌊q⌋ : ℚ) < ((n : ℤ) : ℚ) := by linarith
      exact_mod_cast this
    have h5 : n - 2 < ⌊q⌋ := by
      have : ((n - 2 : ℤ) : ℚ) < (⌊q⌋ : ℚ) := by push_cast; linarith
      exact_mod_cast this
    omega
  · -- the fractional part is one half
    exfalso
    have hq : q - ⌊q⌋ = 1 / 2 := le_antisymm (not_lt.mp b) (not_lt.mp a)
    have h4 : ⌊q⌋ < n := by
      have : (⌊q⌋ : ℚ) < ((n : ℤ) : ℚ) := by linarith
      exact_mod_cast this
    have h5 : n - 1 < ⌊q⌋ := by
      have : ((n - 1 : ℤ) : ℚ) < (⌊q⌋ : ℚ) := by push_cast; linarith
      exact_mod_cast this
    omega
  · exfalso
    have hq : q - ⌊q⌋ = 1 / 2 := le_antisymm (not_lt.mp b) (not_lt.mp a)
    have h4 : ⌊q⌋ < n := by
      have : (⌊q⌋ : ℚ) < ((n : ℤ) : ℚ) := by linarith
      exact_mod_cast this
    have h5 : n - 1 < ⌊q⌋ := by
      have : ((n - 1 : ℤ) : ℚ) < (⌊q⌋ : ℚ) := by push_cast; linarith
      exact_mod_cast this
    omega

theorem int_log_eq (r : ℚ) (e : ℤ) (h1 : (2 : ℚ) ^ e ≤ r) (h2 : r < (2 : ℚ) ^ (e + 1)) :
    Int.log 2 r = e := by
  have hr : 0 < r := lt_of_lt_of_le (by positivity) h1
  have a : e ≤ Int.log 2 r := (Int.zpow_le_iff_le_log (by norm_num) hr).mp (by exact_mod_cast h1)
  have b : Int.log 2 r < e + 1 := (Int.lt_zpow_iff_log_lt (by norm_num) hr).mp (by exact_mod_cast h2)
  omega

/-- The rounding of a rational in a given binade. -/
theorem toDouble_eq (q : ℚ) (e m : ℤ) (he : -1022 ≤ e) (h1 : (2 : ℚ) ^ e ≤ |q|)
    (h2 : |q| < (2 : ℚ) ^ (e + 1))
    (hm1 : (m : ℚ) - 1 / 2 < q / (2 : ℚ) ^ (e - 52))
    (hm2 : q / (2 : ℚ) ^ (e - 52) < (m : ℚ) + 1 / 2) :
    toDouble q = m * (2 : ℚ) ^ (e - 52) := by
  have hl := int_log_eq |q| e h1 h2
  have hu : ulp q = (2 : ℚ) ^ (e - 52) := by
    unfold ulp
    rw [hl, max_eq_left he]
  unfold toDouble
  rw [hu, roundHalfEven_of_near _ m hm1 hm2]

/-- A multiple of a power of two with a numerator below `2 ^ 53` is a binary64
number: rounding leaves it as it is. -/
theorem toDouble_dyadic (m j : ℤ) (hm : |m| < 2 ^ 53) (hj : -1074 ≤ j) :
    toDouble ((m : ℚ) * (2 : ℚ) ^ j) = (m : ℚ) * (2 : ℚ) ^ j := by
  by_cases h0 : m = 0
  · subst h0
    simp [toDouble, roundHalfEven]
  have hpos : (0 : ℚ) < |(m : ℚ)| := abs_pos.mpr (by exact_mod_cast h0)
  have h2j : (0 : ℚ) < (2 : ℚ) ^ j := by positivity
  -- the binade of the numerator
  have ha1 := Int.zpow_log_le_self (b := 2) (r := |(m : ℚ)|) (by norm_num) hpos
  have ha2 := Int.lt_zpow_succ_log_self (b := 2) (by norm_num) |(m : ℚ)|
  push_cast at ha1 ha2
  set a := Int.log 2 |(m : ℚ)| with ha
  have ha0 : 0 ≤ a := by
    have : (1 : ℚ) ≤ |(m : ℚ)| := by
      have : (1 : ℤ) ≤ |m| := Int.one_le_abs h0
      exact_mod_cast this
    have h := (Int.zpow_le_iff_le_log (b := 2) (x := 0) (by norm_num) hpos).mp (by simpa using this)
    exact h
  have ha52 : a < 53 := by
    have : |(m : ℚ)| < (2 : ℚ) ^ (53 : ℤ) := by
      have h' : ((|m| : ℤ) : ℚ) < ((2 ^ 53 : ℤ) : ℚ) := by exact_mod_cast hm
      rw [Int.cast_abs] at h'
      norm_num at h' ⊢
      exact h'
    exact (Int.lt_zpow_iff_log_lt (b := 2) (by norm_num) hpos).mp (by exact_mod_cast this)
  -- the binade of the number
  have habs : |(m : ℚ) * (2 : ℚ) ^ j| = |(m : ℚ)| * (2 : ℚ) ^ j := by
    rw [abs_mul, abs_of_pos h2j]
  have hl : Int.log 2 |(m : ℚ) * (2 : ℚ) ^ j| = a + j := by
    apply int_log_eq
    · rw [habs, zpow_add₀ (by norm_num)]
      exact mul_le_mul_of_nonneg_right ha1 h2j.le
    · rw [habs, show a + j + 1 = (a + 1) + j by ring, zpow_add₀ (by norm_num)]
      exact mul_lt_mul_of_pos_right ha2 h2j
  -- the quotient by the unit is an integer
  obtain ⟨k, hk⟩ : ∃ k : ℕ, (k : ℤ) = j - max (a + j) (-1022) + 52 := by
    refine ⟨(j - max (a + j) (-1022) + 52).toNat, Int.toNat_of_nonneg ?_⟩
    rcases max_cases (a + j) (-1022) with ⟨h, _⟩ | ⟨h, _⟩ <;> rw [h] <;> omega
  have hu : ulp ((m : ℚ) * (2 : ℚ) ^ j) = (2 : ℚ) ^ (max (a + j) (-1022) - 52) := by
    unfold ulp
    rw [hl]
  have hq : (m : ℚ) * (2 : ℚ) ^ j / (2 : ℚ) ^ (max (a + j) (-1022) - 52) =
      ((m * 2 ^ k : ℤ) : ℚ) := by
    rw [mul_div_assoc, ← zpow_sub₀ (by norm_num)]
    push_cast
    rw [← zpow_natCast, hk]
    congr 2
    ring
  unfold toDouble
  rw [hu, hq, roundHalfEven_intCast]
  push_cast
  rw [← zpow_natCast, hk, mul_assoc, ← zpow_add₀ (by norm_num)]
  congr 2
  ring

/-- An integer below `2 ^ 53` in magnitude is a binary64 number. -/
theorem toDouble_intCast (n : ℤ) (hn : |n| < 2 ^ 53) : toDouble (n : ℚ) = n := by
  have := toDouble_dyadic n 0 hn (by norm_num)
  simpa using this

/-- Around `10 ^ 20` the binary64 numbers are `16384` apart: a number less than
`8192` away from `10 ^ 20` is rounded to `10 ^ 20`. -/
theorem toDouble_near_1e20 (d : ℚ) (h0 : -8192 < d) (h1 : d < 8192) :
    toDouble (10 ^ 20 + d) = 10 ^ 20 := by
  have hpos : (0 : ℚ) < 10 ^ 20 + d := by linarith [show (8192 : ℚ) < 10 ^ 20 by norm_num]
  have h := toDouble_eq (10 ^ 20 + d) 66 6103515625000000 (by norm_num)
    (by rw [abs_of_pos hpos]; norm_num; linarith)
    (by rw [abs_of_pos hpos]; norm_num; linarith)
    (by norm_num; linarith)
    (by norm_num; linarith)
  rw [h]
  norm_num

/-- The binary64 number nearest to `841.89`, the height of an A4 page. -/
theorem toDouble_a4 : toDouble (84189 / 100) = 7405342754466693 / 2 ^ 43 := by
  have h := toDouble_eq (84189 / 100) 9 7405342754466693 (by norm_num)
    (by rw [abs_of_pos (by norm_num)]; norm_num)
    (by rw [abs_of_pos (by norm_num)]; norm_num)
    (by norm_num)
    (by norm_num)
  rw [h]
  norm_num

/-! ## Where the overlays are drawn, in binary64 -/

/-- The integers in which no subtraction of the sign handler rounds. -/
theorem drawY_intCast (H y h : ℤ) (h1 : |H - y| < 2 ^ 53) (h2 : |H - y - h| < 2 ^ 53) :
    jsSub (H : ℚ) (y : ℚ) = (H : ℚ) - y ∧
    jsSub ((H : ℚ) - y) (h : ℚ) = (H : ℚ) - y - h ∧
    drawY (H : ℚ) (y : ℚ) (h : ℚ) = ((H - y - h : ℤ) : ℚ) := by
  have e1 : jsSub (H : ℚ) (y : ℚ) = (H : ℚ) - y := by
    have := toDouble_intCast (H - y) h1
    push_cast at this
    exact this
  have e2 : jsSub ((H : ℚ) - y) (h : ℚ) = (H : ℚ) - y - h := by
    have := toDouble_intCast (H - y - h) h2
    push_cast at this
    exact this
  refine ⟨e1, e2, ?_⟩
  unfold drawY
  rw [e1, e2]
  push_cast
  rfl

/-- C11 (counterexample): the page height `1e20` is a binary64 number, and with
the anchor `y = 600`, `height = 50` both subtractions round back to `1e20`: the
overlay is drawn at `y' = 1e20`, so that its top edge, converted back, is at
`-50` (at `0` when the conversion is made in binary64 too), not at `600`. -/
theorem overlay_displaced_at_1e20 :
    toDouble (10 ^ 20) = 10 ^ 20 ∧
    drawY (10 ^ 20) 600 50 = 10 ^ 20 ∧
    (10 ^ 20 : ℚ) - (drawY (10 ^ 20) 600 50 + 50) = -50 ∧
    jsSub (10 ^ 20) (jsAdd (drawY (10 ^ 20) 600 50) 50) = 0 ∧
    (10 ^ 20 : ℚ) - (drawY (10 ^ 20) 600 50 + 50) ≠ 600 ∧
    jsSub (10 ^ 20) (jsAdd (drawY (10 ^ 20) 600 50) 50) ≠ 600 := by
  have a0 : toDouble (10 ^ 20) = 10 ^ 20 := by
    have := toDouble_near_1e20 0 (by norm_num) (by norm_num)
    simpa using this
  have a1 : jsSub (10 ^ 20) 600 = 10 ^ 20 := by
    have := toDouble_near_1e20 (-600) (by norm_num) (by norm_num)
    simpa [jsSub, sub_eq_add_neg] using this
  have a2 : jsSub (10 ^ 20) 50 = 10 ^ 20 := by
    have := toDouble_near_1e20 (-50) (by norm_num) (by norm_num)
    simpa [jsSub, sub_eq_add_neg] using this
  have a3 : jsAdd (10 ^ 20) 50 = 10 ^ 20 := by
    have := toDouble_near_1e20 50 (by norm_num) (by norm_num)
    simpa [jsAdd] using this
  have a4 : drawY (10 ^ 20) 600 50 = 10 ^ 20 := by
    unfold drawY
    rw [a1, a2]
  have a5 : jsSub (10 ^ 20) (10 ^ 20) = 0 := by
    simp [jsSub, toDouble, roundHalfEven]
  refine ⟨a0, a4, ?_, ?_, ?_, ?_⟩
  · rw [a4]; norm_num
  · rw [a4, a3, a5]
  · rw [a4]; norm_num
  · rw [a4, a3, a5]; norm_num

/-- C11 (amended): every image the sign handler draws is drawn for the landlord
or the tenant at `x = anchor.x` with the width and the height of the anchor and
at `y = pageHeight - anchor.y - anchor.height`, the page being the first page
of the document at the document path.  Where neither of the two subtractions
rounds, this `y` is the exact difference, and converted back the top edge of
the rectangle is at `anchor.y` and its bottom edge at
`anchor.y + anchor.height`; no subtraction rounds when the page height and the
anchor are integers and the two differences are below `2 ^ 53` in magnitude,
and there the integer `y` of the embedding is the value binary64 arithmetic
gives. -/
theorem overlay_drawn_at_anchor_unrounded (L : Libs) (w : World) (req : SignRequest)
    (role : String) (o : Overlay) (hdraw : (role, o) ∈ drawsOf (sign L w req).trace) :
    (role = "landlord" ∨ role = "tenant") ∧
    (∃ pageHeight : Int,
      (∃ s r0 dp base hs, req.signature = some s ∧ selectLease w.leases req.id = some r0 ∧
        r0.document_path = some dp ∧
        writeFile w.files (signaturePath req.id req.role)
          (L.base64Decode (stripDataUrl s)) dp = some base ∧
        L.pdfParse base = some (pageHeight :: hs)) ∧
      o.x = (anchorOf L role).x ∧
      o.width = (anchorOf L role).width ∧
      o.height = (anchorOf L role).height ∧
      (|pageHeight - (anchorOf L role).y| < 2 ^ 53 →
        |pageHeight - (anchorOf L role).y - (anchorOf L role).height| < 2 ^ 53 →
        (o.y : ℚ) = drawY pageHeight (anchorOf L role).y (anchorOf L role).height ∧
        (pageHeight : ℚ) - ((o.y : ℚ) + o.height) = (anchorOf L role).y ∧
        (pageHeight : ℚ) - (o.y : ℚ) = (anchorOf L role).y + (anchorOf L role).height ∧
        topEdge pageHeight o = (anchorOf L role).y ∧
        bottomEdge pageHeight o = (anchorOf L role).y + (anchorOf L role).height)) ∧
    (∀ H y h : ℚ, |H - y| < 2 ^ 1024 → |H - y - h| < 2 ^ 1024 →
      jsSub H y = H - y → jsSub (H - y) h = H - y - h →
      drawY H y h = H - y - h ∧
      H - (drawY H y h + h) = y ∧
      H - drawY H y h = y + h) := by
  obtain ⟨hrole, ⟨pageHeight, hx, hy, hw, hh, ht, hb, hdoc⟩, -⟩ :=
    overlay_drawn_at_anchor L w req role o hdraw
  refine ⟨hrole, ⟨pageHeight, hdoc, hx, hw, hh, ?_⟩, ?_⟩
  · intro h1 h2
    obtain ⟨-, -, e3⟩ := drawY_intCast pageHeight (anchorOf L role).y
      (anchorOf L role).height h1 h2
    refine ⟨?_, ?_, ?_, ht, hb⟩
    · rw [e3, hy]
    · rw [hy, hh]
      push_cast
      ring
    · rw [hy]
      push_cast
      ring
  · intro H y h _ _ e1 e2
    have e3 : drawY H y h = H - y - h := by
      unfold drawY
      rw [e1, e2]
    refine ⟨e3, ?_, ?_⟩
    · rw [e3]; ring
    · rw [e3]; ring

/-- Lease 42 on a page of height 792: the landlord image is drawn at
`y = 792 - 600 - 50 = 142`, which no subtraction rounds; and on an A4 page, of
height `841.89` as binary64 has it, no subtraction rounds either, so that the
top edge is at `600`. -/
theorem overlay_drawn_at_anchor_unrounded_witness :
    (("landlord", ⟨[137, 76, 65, 78, 68], 72, 142, 200, 50⟩) : String × Overlay)
      ∈ drawsOf (sign demoLibs world42 landlordSigns).trace ∧
    drawY 792 600 50 = 142 ∧
    (792 : ℚ) - (drawY 792 600 50 + 50) = 600 ∧
    toDouble (84189 / 100) - (drawY (toDouble (84189 / 100)) 600 50 + 50) = 600 := by
  obtain ⟨-, -, hq⟩ :=
    overlay_drawn_at_anchor_unrounded demoLibs world42 landlordSigns "landlord"
      ⟨[137, 76, 65, 78, 68], 72, 142, 200, 50⟩ (by decide)
  have i1 := drawY_intCast 792 600 50 (by norm_num) (by norm_num)
  have h792 := hq 792 600 50 (by norm_num) (by norm_num)
    (by simpa using i1.1) (by simpa using i1.2.1)
  have s1 : jsSub (toDouble (84189 / 100)) 600 = toDouble (84189 / 100) - 600 := by
    rw [toDouble_a4]
    have := toDouble_dyadic 2127686941141893 (-43) (by norm_num) (by norm_num)
    unfold jsSub
    norm_num at this ⊢
    exact this
  have s2 : jsSub (toDouble (84189 / 100) - 600) 50 = toDouble (84189 / 100) - 600 - 50 := by
    rw [toDouble_a4]
    have := toDouble_dyadic 1687882290031493 (-43) (by norm_num) (by norm_num)
    unfold jsSub
    norm_num at this ⊢
    exact this
  have ha4 := hq (toDouble (84189 / 100)) 600 50
    (by rw [toDouble_a4]; rw [abs_of_pos (by norm_num)]; norm_num)
    (by rw [toDouble_a4]; rw [abs_of_pos (by norm_num)]; norm_num) s1 s2
  refine ⟨by decide, ?_, h792.2.1, ha4.2.1⟩
  rw [h792.1]
  norm_num

end Leases
